import Mathlib

/-!
GB-Emulator: CPU execution engine and memory bus

A shallow embedding of `src/src/memory.c` and `src/src/cpu.c`, with the timer
(`src/src/timer.c`), the scanline counter of `src/src/ppu.c` and the header decoder of
`src/src/cartridge.c`.

Conventions of the embedding:

* `uint8_t` / `uint16_t` / `uint64_t` values are natural numbers; every store into
  such an object reduces modulo `2^8` / `2^16` / `2^64`, as the C conversion does.
* C `int` values (the result of integer promotion) are represented by their 32-bit
  two's-complement bit pattern, a natural number below `2^32`.  `int_sub`,
  `int_not` are subtraction and `~` on such patterns, `int_neg` tests the sign bit.
* The global variables `registers`, `memory`, `running`, `nb_exec_inst`
  (and the peripheral accumulators) are the fields of one `Machine` record; each C
  function that touches globals takes the record and returns the updated one.
* The register unions (`af`, `bc`, `de`, `hl`) are composed from / decomposed into
  their two bytes, low byte first in storage (little-endian host), so `bc = b * 256 + c`.
* Blocks under `#ifdef DEBUG` only print (and reset debugger bookkeeping); they are
  not part of the machine state and are left out.
-/

namespace GB

/-! ## Constants (`memory.h`, `cpu.c`) -/

def MEMORY_SIZE : Nat := 0x10000
def MEMORY_IO_START_ADDR : Nat := 0xff00
def MEMORY_RST_28 : Nat := 0x0028
def MEMORY_RST_38 : Nat := 0x0038
def MEMORY_REG_TIMA : Nat := 0xff05
def MEMORY_REG_TMA : Nat := 0xff06
def MEMORY_REG_TAC : Nat := 0xff07
def MEMORY_REG_IF : Nat := 0xff0f
def MEMORY_REG_LCDC : Nat := 0xff40
def MEMORY_REG_STAT : Nat := 0xff41
def MEMORY_REG_LY : Nat := 0xff44
def MEMORY_REG_LYC : Nat := 0xff45
def MEMORY_REG_IE : Nat := 0xffff
def MEMORY_ROM_BANK_SIZE : Nat := 0x4000
def MEMORY_REG_NR10 : Nat := 0xff10
def MEMORY_REG_NR11 : Nat := 0xff11
def MEMORY_REG_NR12 : Nat := 0xff12
def MEMORY_REG_NR14 : Nat := 0xff14
def MEMORY_REG_NR21 : Nat := 0xff16
def MEMORY_REG_NR22 : Nat := 0xff17
def MEMORY_REG_NR24 : Nat := 0xff19
def MEMORY_REG_NR30 : Nat := 0xff1a
def MEMORY_REG_NR31 : Nat := 0xff1b
def MEMORY_REG_NR32 : Nat := 0xff1c
def MEMORY_REG_NR34 : Nat := 0xff1e
def MEMORY_REG_NR41 : Nat := 0xff20
def MEMORY_REG_NR42 : Nat := 0xff21
def MEMORY_REG_NR43 : Nat := 0xff22
def MEMORY_REG_NR44 : Nat := 0xff23
def MEMORY_REG_NR50 : Nat := 0xff24
def MEMORY_REG_NR51 : Nat := 0xff25
def MEMORY_REG_NR52 : Nat := 0xff26
def MEMORY_REG_SCY : Nat := 0xff42
def MEMORY_REG_SCX : Nat := 0xff43
def MEMORY_REG_BGP : Nat := 0xff47
def MEMORY_REG_OBP0 : Nat := 0xff48
def MEMORY_REG_OBP1 : Nat := 0xff49
def MEMORY_REG_WY : Nat := 0xff4a
def MEMORY_REG_WX : Nat := 0xff4b

/-! Constants of `cartridge.h`. -/

def CARTRIDGE_HEADER_TITLE : Nat := 0x134
def CARTRIDGE_HEADER_TITLE_SIZE : Nat := 15
def CARTRIDGE_HEADER_CGB_FLAG : Nat := 0x143
def CARTRIDGE_HEADER_CGB_SUPPORT : Nat := 0x80
def CARTRIDGE_HEADER_CGB_ONLY : Nat := 0xc0
def CARTRIDGE_HEADER_TYPE : Nat := 0x147
def CARTRIDGE_HEADER_ROM_SIZE : Nat := 0x148
def CARTRIDGE_HEADER_RAM_SIZE : Nat := 0x149

def MEMORY_LCDC_PPU_ENABLED : Nat := 7
def MEMORY_IEF_VBLANK : Nat := 0
def MEMORY_IEF_LCD_STAT : Nat := 1
def MEMORY_IEF_TIMER : Nat := 2
def MEMORY_STAT_COINCID_INT : Nat := 6
def MEMORY_STAT_COINCID_FLAG : Nat := 2
def MEMORY_TAC_TIMER_ENABLED : Nat := 2
def MEMORY_TAC_INPUT_CLOCK_MASK : Nat := 0x3

/-- Constant `CLOCK_CYCLES_PER_SCANLINE` of `ppu.h`. -/
def CLOCK_CYCLES_PER_SCANLINE : Nat := 15

def FLAG_Z : Nat := 7
def FLAG_N : Nat := 6
def FLAG_H : Nat := 5
def FLAG_C : Nat := 4

/-! ## C integer helpers -/

/-- Conversion to `uint8_t`. -/
def u8 (x : Nat) : Nat := x % 256

/-- Conversion to `uint16_t`. -/
def u16 (x : Nat) : Nat := x % 65536

/-- Conversion to `uint64_t`. -/
def u64 (x : Nat) : Nat := x % 2 ^ 64

/-- Subtraction of two `int` bit patterns (32-bit two's complement). -/
def int_sub (x y : Nat) : Nat := (x % 2 ^ 32 + (2 ^ 32 - y % 2 ^ 32)) % 2 ^ 32

/-- Addition of two `int` bit patterns (32-bit two's complement). -/
def int_add (x y : Nat) : Nat := (x % 2 ^ 32 + y % 2 ^ 32) % 2 ^ 32

/-- Bitwise complement `~x` of an `int` bit pattern. -/
def int_not (x : Nat) : Nat := 0xFFFFFFFF - x % 2 ^ 32

/-- Sign test `x < 0` of an `int` bit pattern. -/
def int_neg (x : Nat) : Bool := decide (2 ^ 31 ≤ x % 2 ^ 32)

/-- The cast `(int8_t)x` of a byte followed by promotion to `int`: sign extension of
the low 8 bits to a 32-bit pattern. -/
def int8_cast (x : Nat) : Nat :=
  if x % 256 < 128 then x % 256 else x % 256 + (2 ^ 32 - 256)

/-- Storing an `int` into an `int16_t` and promoting it back to `int`: sign extension of
the low 16 bits to a 32-bit pattern. -/
def int16_cast (x : Nat) : Nat :=
  if x % 65536 < 32768 then x % 65536 else x % 65536 + (2 ^ 32 - 65536)

/-! ## Bit macros of `cpu.c`

`SET_BIT`, `CLEAR_BIT` and `FLIP_BIT` are compound assignments to a `uint8_t` object; the
functions return the byte stored. The mask `1U << nb_bit` is a 32-bit unsigned value. -/

/-- Macro `#define SET_BIT(val, nb_bit) (val |= (1U << nb_bit))` -/
def SET_BIT (val nb_bit : Nat) : Nat := u8 (val ||| (1 <<< nb_bit) % 2 ^ 32)

/-- Macro `#define CLEAR_BIT(val, nb_bit) (val &= ~(1U << nb_bit))` -/
def CLEAR_BIT (val nb_bit : Nat) : Nat := u8 (val &&& int_not (1 <<< nb_bit))

/-- Macro `#define FLIP_BIT(val, nb_bit) (val ^= (1U << nb_bit))` -/
def FLIP_BIT (val nb_bit : Nat) : Nat := u8 (val ^^^ (1 <<< nb_bit) % 2 ^ 32)

/-- Macro `#define CHECK_BIT(val, nb_bit) ((val >> nb_bit) & 1U)` -/
def CHECK_BIT (val nb_bit : Nat) : Nat := (val >>> nb_bit) &&& 1

/-- Macro `#define HAS_HALF_CARRY_ON_SUB(op1, result) (((result) & (~(op1))) & 0xf)`,
on `int` bit patterns. -/
def HAS_HALF_CARRY_ON_SUB (op1 result : Nat) : Nat := (result &&& int_not op1) &&& 0xf

/-- Macro `#define HAS_HALF_CARRY_ON_ADD(op1, op2) (((op1) & 0xf) & ((op2) & 0xf))`,
on `int` bit patterns. -/
def HAS_HALF_CARRY_ON_ADD (op1 op2 : Nat) : Nat := (op1 &&& 0xf) &&& (op2 &&& 0xf)

/-! ## Machine state -/

/-- The global state of the emulator: the `registers` struct of `cpu.c`, the `memory`
array of `memory.c`, and the static counters of `cpu.c`, `timer.c` and `ppu.c`. -/
structure Machine where
  f : Nat
  a : Nat
  c : Nat
  b : Nat
  e : Nat
  d : Nat
  l : Nat
  h : Nat
  sp : Nat
  pc : Nat
  ime : Bool
  memory : Nat → Nat
  running : Bool
  nb_exec_inst : Nat
  tima_clock : Nat
  scan_line_clock : Nat

namespace Machine

/-- The union member `registers.af`. -/
def af (s : Machine) : Nat := s.a * 256 + s.f

/-- The union member `registers.bc`. -/
def bc (s : Machine) : Nat := s.b * 256 + s.c

/-- The union member `registers.de`. -/
def de (s : Machine) : Nat := s.d * 256 + s.e

/-- The union member `registers.hl`. -/
def hl (s : Machine) : Nat := s.h * 256 + s.l

/-- Assignment to `registers.af`. -/
def set_af (s : Machine) (v : Nat) : Machine := { s with a := u16 v / 256, f := u16 v % 256 }

/-- Assignment to `registers.bc`. -/
def set_bc (s : Machine) (v : Nat) : Machine := { s with b := u16 v / 256, c := u16 v % 256 }

/-- Assignment to `registers.de`. -/
def set_de (s : Machine) (v : Nat) : Machine := { s with d := u16 v / 256, e := u16 v % 256 }

/-- Assignment to `registers.hl`. -/
def set_hl (s : Machine) (v : Nat) : Machine := { s with h := u16 v / 256, l := u16 v % 256 }

/-- The state at program start, before any initialisation routine has run: objects with
static storage are zero, `memory` is all zero, and `running` is initialised to `true`. -/
def initial : Machine :=
  { f := 0, a := 0, c := 0, b := 0, e := 0, d := 0, l := 0, h := 0, sp := 0, pc := 0,
    ime := false, memory := fun _ => 0, running := true, nb_exec_inst := 0,
    tima_clock := 0, scan_line_clock := 0 }

/-- Every object holds a value of its C type. -/
structure WF (s : Machine) : Prop where
  f_lt : s.f < 256
  a_lt : s.a < 256
  c_lt : s.c < 256
  b_lt : s.b < 256
  e_lt : s.e < 256
  d_lt : s.d < 256
  l_lt : s.l < 256
  h_lt : s.h < 256
  sp_lt : s.sp < 65536
  pc_lt : s.pc < 65536
  mem_lt : ∀ addr, s.memory addr < 256
  nb_lt : s.nb_exec_inst < 2 ^ 64

end Machine

/-! ## Memory bus (`memory.c`) -/

/-- Function `void memory_read(uint8_t buff[], uint16_t mem_start_addr, uint16_t size)`:
returns the contents of `buff` after the call. -/
def memory_read (s : Machine) (buff : List Nat) (mem_start_addr size : Nat) : List Nat :=
  if u16 mem_start_addr + u16 size ≥ MEMORY_SIZE then buff
  else (List.range (u16 size)).map (fun i => s.memory (u16 mem_start_addr + i))
        ++ buff.drop (u16 size)

/-- Function `uint8_t memory_read_8(uint16_t mem_start_addr)` -/
def memory_read_8 (s : Machine) (mem_start_addr : Nat) : Nat :=
  s.memory (u16 mem_start_addr)

/-- Function `uint16_t memory_read_16(uint16_t mem_start_addr)`: the two bytes of `buff`,
initialised to zero, read as a little-endian word. -/
def memory_read_16 (s : Machine) (mem_start_addr : Nat) : Nat :=
  let buff := memory_read s [0, 0] mem_start_addr 2
  buff.getD 0 0 + 256 * buff.getD 1 0

/-- Function `void memory_write(uint8_t buff[], uint16_t mem_start_addr, uint16_t size)` -/
def memory_write (s : Machine) (buff : List Nat) (mem_start_addr size : Nat) : Machine :=
  if u16 mem_start_addr + u16 size ≥ MEMORY_SIZE then s
  else { s with memory := fun addr =>
          if u16 mem_start_addr ≤ addr ∧ addr < u16 mem_start_addr + u16 size
          then buff.getD (addr - u16 mem_start_addr) 0 else s.memory addr }

/-- Function `void memory_write_8(uint16_t mem_start_addr, uint8_t val)` -/
def memory_write_8 (s : Machine) (mem_start_addr val : Nat) : Machine :=
  { s with memory := fun addr => if addr = u16 mem_start_addr then u8 val else s.memory addr }

/-- Function `void memory_write_16(uint16_t mem_start_addr, uint16_t val)`: the bytes of `val`
in little-endian order are handed to `memory_write`. -/
def memory_write_16 (s : Machine) (mem_start_addr val : Nat) : Machine :=
  memory_write s [u16 val % 256, u16 val / 256] mem_start_addr 2

/-- Function `bool memory_get_reg_value(uint16_t reg_addr, uint8_t bit)`: the `int`
value `memory[reg_addr] & mask` is converted to `bool`, true when non-zero. -/
def memory_get_reg_value (s : Machine) (reg_addr bit : Nat) : Bool :=
  if u8 bit > 7 then false
  else
    let mask := u8 (1 <<< u8 bit)
    decide (s.memory (u16 reg_addr) &&& mask ≠ 0)

/-- Function `void memory_write_reg_value(uint16_t reg_addr, uint8_t bit, bool value)`:
the mask is `value << bit` with `value` promoted to 0 or 1, and it is OR-ed into the cell. -/
def memory_write_reg_value (s : Machine) (reg_addr bit : Nat) (value : Bool) : Machine :=
  if u8 bit > 7 then s
  else
    let mask := u8 ((if value then 1 else 0) <<< u8 bit)
    { s with memory := fun addr =>
        if addr = u16 reg_addr then u8 (s.memory (u16 reg_addr) ||| mask) else s.memory addr }

/-- The assignment `memory[index] = val` of `memory_init`, with a constant index and a
constant value converted to `uint8_t`. -/
def memory_store (s : Machine) (index val : Nat) : Machine :=
  { s with memory := fun addr => if addr = index then u8 val else s.memory addr }

/-- Function `void memory_init(void)`: the 31 assignments in source order. -/
def memory_init (s : Machine) : Machine :=
  let s := memory_store s MEMORY_REG_TIMA 0x00
  let s := memory_store s MEMORY_REG_TMA 0x00
  let s := memory_store s MEMORY_REG_TAC 0x00
  let s := memory_store s MEMORY_REG_NR10 0x80
  let s := memory_store s MEMORY_REG_NR11 0xBF
  let s := memory_store s MEMORY_REG_NR12 0xF3
  let s := memory_store s MEMORY_REG_NR14 0xBF
  let s := memory_store s MEMORY_REG_NR21 0x3F
  let s := memory_store s MEMORY_REG_NR22 0x00
  let s := memory_store s MEMORY_REG_NR24 0xBF
  let s := memory_store s MEMORY_REG_NR30 0x7F
  let s := memory_store s MEMORY_REG_NR31 0xFF
  let s := memory_store s MEMORY_REG_NR32 0x9F
  let s := memory_store s MEMORY_REG_NR34 0xBF
  let s := memory_store s MEMORY_REG_NR41 0xFF
  let s := memory_store s MEMORY_REG_NR42 0x00
  let s := memory_store s MEMORY_REG_NR43 0x00
  let s := memory_store s MEMORY_REG_NR44 0xBF
  let s := memory_store s MEMORY_REG_NR50 0x77
  let s := memory_store s MEMORY_REG_NR51 0xF3
  let s := memory_store s MEMORY_REG_NR52 0xF1
  let s := memory_store s MEMORY_REG_LCDC 0x91
  let s := memory_store s MEMORY_REG_SCY 0x00
  let s := memory_store s MEMORY_REG_SCX 0x00
  let s := memory_store s MEMORY_REG_LYC 0x00
  let s := memory_store s MEMORY_REG_BGP 0xFC
  let s := memory_store s MEMORY_REG_OBP0 0xFF
  let s := memory_store s MEMORY_REG_OBP1 0xFF
  let s := memory_store s MEMORY_REG_WY 0x00
  let s := memory_store s MEMORY_REG_WX 0x00
  memory_store s MEMORY_REG_IE 0x00

/-- The (register address, value) pairs assigned by `memory_init`, in source order. -/
def memory_init_table : List (Nat × Nat) :=
  [(MEMORY_REG_TIMA, 0x00), (MEMORY_REG_TMA, 0x00), (MEMORY_REG_TAC, 0x00),
   (MEMORY_REG_NR10, 0x80), (MEMORY_REG_NR11, 0xBF), (MEMORY_REG_NR12, 0xF3),
   (MEMORY_REG_NR14, 0xBF), (MEMORY_REG_NR21, 0x3F), (MEMORY_REG_NR22, 0x00),
   (MEMORY_REG_NR24, 0xBF), (MEMORY_REG_NR30, 0x7F), (MEMORY_REG_NR31, 0xFF),
   (MEMORY_REG_NR32, 0x9F), (MEMORY_REG_NR34, 0xBF), (MEMORY_REG_NR41, 0xFF),
   (MEMORY_REG_NR42, 0x00), (MEMORY_REG_NR43, 0x00), (MEMORY_REG_NR44, 0xBF),
   (MEMORY_REG_NR50, 0x77), (MEMORY_REG_NR51, 0xF3), (MEMORY_REG_NR52, 0xF1),
   (MEMORY_REG_LCDC, 0x91), (MEMORY_REG_SCY, 0x00), (MEMORY_REG_SCX, 0x00),
   (MEMORY_REG_LYC, 0x00), (MEMORY_REG_BGP, 0xFC), (MEMORY_REG_OBP0, 0xFF),
   (MEMORY_REG_OBP1, 0xFF), (MEMORY_REG_WY, 0x00), (MEMORY_REG_WX, 0x00),
   (MEMORY_REG_IE, 0x00)]

/-! ## Cartridge header (`cartridge.c`) -/

/-- Type `cgb_mode_t` of `cartridge.h`. -/
inductive cgb_mode_t where
  | CGB_SUPPORT
  | CGB_ONLY
  | UNKNOWN_MODE
  deriving DecidableEq

/-- Type `cartridge_t` of `cartridge.h`; `title` holds the 15 bytes of the array. -/
structure cartridge_t where
  title : List Nat
  mode : cgb_mode_t
  type : Nat
  rom_size : Nat
  ram_size : Nat
  deriving DecidableEq

/-- The object `static cartridge_t cartridge` before `parse_header` has run: all zero, and
the enumerator with value 0 is `CGB_SUPPORT`. -/
def cartridge_t.initial : cartridge_t :=
  { title := List.replicate CARTRIDGE_HEADER_TITLE_SIZE 0, mode := cgb_mode_t.CGB_SUPPORT,
    type := 0, rom_size := 0, ram_size := 0 }

/-- Function `static void parse_header(void)`: the object `cartridge` after the call. The
ROM size is computed in `int` and converted to `uint8_t` by the assignment; the result is
`none` where the C expression `(2 * MEMORY_ROM_BANK_SIZE) << code` is undefined because the
shifted value does not fit an `int`. The `switch` on the RAM-size byte has no `default`, so
other codes leave `ram_size` as it was. -/
def parse_header (s : Machine) (cartridge : cartridge_t) : Option cartridge_t :=
  let title := memory_read s cartridge.title CARTRIDGE_HEADER_TITLE CARTRIDGE_HEADER_TITLE_SIZE
  let cgb_flag := memory_read_8 s CARTRIDGE_HEADER_CGB_FLAG
  let mode :=
    if cgb_flag &&& CARTRIDGE_HEADER_CGB_SUPPORT ≠ 0 then cgb_mode_t.CGB_SUPPORT
    else if cgb_flag &&& CARTRIDGE_HEADER_CGB_ONLY ≠ 0 then cgb_mode_t.CGB_ONLY
    else cgb_mode_t.UNKNOWN_MODE
  let type := memory_read_8 s CARTRIDGE_HEADER_TYPE
  let code := memory_read_8 s CARTRIDGE_HEADER_ROM_SIZE
  if (2 * MEMORY_ROM_BANK_SIZE) <<< code < 2 ^ 31 then
    let rom_size := u8 (((2 * MEMORY_ROM_BANK_SIZE) <<< code) / MEMORY_ROM_BANK_SIZE)
    let ram_size :=
      match memory_read_8 s CARTRIDGE_HEADER_RAM_SIZE with
      | 0x0 => 0
      | 0x1 => 1
      | 0x2 => 1
      | 0x3 => 4
      | 0x4 => 16
      | 0x5 => 8
      | _ => cartridge.ram_size
    some { title := title, mode := mode, type := type, rom_size := rom_size,
           ram_size := ram_size }
  else none

/-! ## CPU execution engine (`cpu.c`) -/

/-- Function `void cpu_init(void)` -/
def cpu_init (s : Machine) : Machine :=
  let s := { s with pc := 0x100 }
  let s := s.set_af 0x01B0
  let s := s.set_bc 0x0013
  let s := s.set_de 0x00D8
  let s := s.set_hl 0x014D
  { s with sp := 0xFFFE }

/-- Function `bool cpu_is_running(void)` -/
def cpu_is_running (s : Machine) : Bool := s.running

/-- Function `uint64_t handle_cb_inst(uint8_t inst)`: the updated machine and the clock cycles. -/
def handle_cb_inst (s : Machine) (inst : Nat) : Machine × Nat :=
  match inst with
  | 0x37 => -- SWAP A
    let a := u8 (((s.a &&& 0x0f) <<< 4) ||| ((s.a &&& 0xf0) >>> 4))
    let f := 0
    let f := if a = 0 then SET_BIT f FLAG_Z else f
    ({ s with a := a, f := f }, 8)
  | 0x87 => -- RES 0, A
    ({ s with a := CLEAR_BIT s.a 0 }, 8)
  | _ => ({ s with running := false }, 0)

/-- The `switch (inst)` of `cpu_execute_inst`: the updated machine and `clock_cycles`. -/
def exec_inst (s : Machine) (inst : Nat) : Machine × Nat :=
  match inst with
  | 0x00 => -- NOP
    ({ s with pc := u16 (s.pc + 1) }, 4)
  | 0x01 => -- LD BC, nnnn
    let s1 := s.set_bc (memory_read_16 s (s.pc + 1))
    ({ s1 with pc := u16 (s1.pc + 3) }, 12)
  | 0x03 => -- INC BC
    let s1 := s.set_bc (s.bc + 1)
    ({ s1 with pc := u16 (s1.pc + 1) }, 8)
  | 0x04 => -- INC B
    let b := u8 (s.b + 1)
    let f := CLEAR_BIT s.f FLAG_N
    let f := if b = 0 then SET_BIT f FLAG_Z else CLEAR_BIT f FLAG_Z
    let f := if HAS_HALF_CARRY_ON_ADD (int_sub b 1) 1 ≠ 0 then SET_BIT f FLAG_H
             else CLEAR_BIT f FLAG_H
    ({ s with b := b, f := f, pc := u16 (s.pc + 1) }, 4)
  | 0x05 => -- DEC B
    let b := u8 (s.b + 255)
    let f := SET_BIT s.f FLAG_N
    let f := if b = 0 then SET_BIT f FLAG_Z else CLEAR_BIT f FLAG_Z
    let f := if HAS_HALF_CARRY_ON_SUB (int_add b 1) b ≠ 0 then SET_BIT f FLAG_H
             else CLEAR_BIT f FLAG_H
    ({ s with b := b, f := f, pc := u16 (s.pc + 1) }, 4)
  | 0x06 => -- LD B, nn
    ({ s with b := memory_read_8 s (s.pc + 1), pc := u16 (s.pc + 2) }, 8)
  | 0x0b => -- DEC BC
    let s1 := s.set_bc (s.bc + 65535)
    ({ s1 with pc := u16 (s1.pc + 1) }, 8)
  | 0x0c => -- INC C
    let c := u8 (s.c + 1)
    let f := CLEAR_BIT s.f FLAG_N
    let f := if c = 0 then SET_BIT f FLAG_Z else CLEAR_BIT f FLAG_Z
    let f := if HAS_HALF_CARRY_ON_ADD (int_sub c 1) 1 ≠ 0 then SET_BIT f FLAG_H
             else CLEAR_BIT f FLAG_H
    ({ s with c := c, f := f, pc := u16 (s.pc + 1) }, 4)
  | 0x0d => -- DEC C
    let c := u8 (s.c + 255)
    let f := SET_BIT s.f FLAG_N
    let f := if c = 0 then SET_BIT f FLAG_Z else CLEAR_BIT f FLAG_Z
    let f := if HAS_HALF_CARRY_ON_SUB (int_add c 1) c ≠ 0 then SET_BIT f FLAG_H
             else CLEAR_BIT f FLAG_H
    ({ s with c := c, f := f, pc := u16 (s.pc + 1) }, 4)
  | 0x0e => -- LD C, nn
    ({ s with c := memory_read_8 s (s.pc + 1), pc := u16 (s.pc + 2) }, 8)
  | 0x11 => -- LD DE, nnnn
    let s1 := s.set_de (memory_read_16 s (s.pc + 1))
    ({ s1 with pc := u16 (s1.pc + 3) }, 12)
  | 0x12 => -- LD (DE), A
    let s1 := memory_write_8 s s.de s.a
    ({ s1 with pc := u16 (s1.pc + 1) }, 8)
  | 0x13 => -- INC DE
    let s1 := s.set_de (s.de + 1)
    ({ s1 with pc := u16 (s1.pc + 1) }, 8)
  | 0x14 => -- INC D
    let d := u8 (s.d + 1)
    let f := CLEAR_BIT s.f FLAG_N
    let f := if d = 0 then SET_BIT f FLAG_Z else CLEAR_BIT f FLAG_Z
    let f := if HAS_HALF_CARRY_ON_ADD (int_sub d 1) 1 ≠ 0 then SET_BIT f FLAG_H
             else CLEAR_BIT f FLAG_H
    ({ s with d := d, f := f, pc := u16 (s.pc + 1) }, 4)
  | 0x15 => -- DEC D
    let d := u8 (s.d + 255)
    let f := SET_BIT s.f FLAG_N
    let f := if d = 0 then SET_BIT f FLAG_Z else CLEAR_BIT f FLAG_Z
    let f := if HAS_HALF_CARRY_ON_SUB (int_add d 1) d ≠ 0 then SET_BIT f FLAG_H
             else CLEAR_BIT f FLAG_H
    ({ s with d := d, f := f, pc := u16 (s.pc + 1) }, 4)
  | 0x16 => -- LD D, nn
    ({ s with d := memory_read_8 s (s.pc + 1), pc := u16 (s.pc + 2) }, 8)
  | 0x19 => -- ADD HL, DE
    let s1 := s.set_hl (s.hl + s.de)
    ({ s1 with pc := u16 (s1.pc + 1) }, 8)
  | 0x1a => -- LD A, (DE)
    ({ s with a := memory_read_8 s s.de, pc := u16 (s.pc + 1) }, 8)
  | 0x1c => -- INC E
    let e := u8 (s.e + 1)
    let f := CLEAR_BIT s.f FLAG_N
    let f := if e = 0 then SET_BIT f FLAG_Z else CLEAR_BIT f FLAG_Z
    let f := if HAS_HALF_CARRY_ON_ADD (int_sub e 1) 1 ≠ 0 then SET_BIT f FLAG_H
             else CLEAR_BIT f FLAG_H
    ({ s with e := e, f := f, pc := u16 (s.pc + 1) }, 4)
  | 0x18 => -- JR nn
    let pc := u16 (int_add s.pc (int8_cast (memory_read_8 s (s.pc + 1))))
    ({ s with pc := u16 (pc + 2) }, 12)
  | 0x20 => -- JR NZ,nn
    if CHECK_BIT s.f FLAG_Z = 0 then
      let pc := u16 (int_add s.pc (int8_cast (memory_read_8 s (s.pc + 1))))
      ({ s with pc := u16 (pc + 2) }, 12)
    else
      ({ s with pc := u16 (s.pc + 2) }, 8)
  | 0x21 => -- LD HL, nnnn
    let s1 := s.set_hl (memory_read_16 s (s.pc + 1))
    ({ s1 with pc := u16 (s1.pc + 3) }, 12)
  | 0x22 => -- LDI (HL), A
    let s1 := memory_write_8 s s.hl s.a
    let s2 := s1.set_hl (s1.hl + 1)
    ({ s2 with pc := u16 (s2.pc + 1) }, 8)
  | 0x23 => -- INC HL
    let s1 := s.set_hl (s.hl + 1)
    ({ s1 with pc := u16 (s1.pc + 1) }, 8)
  | 0x28 => -- JR Z,nn
    if CHECK_BIT s.f FLAG_Z ≠ 0 then
      let pc := u16 (int_add s.pc (int8_cast (memory_read_8 s (s.pc + 1))))
      ({ s with pc := u16 (pc + 2) }, 12)
    else
      ({ s with pc := u16 (s.pc + 2) }, 8)
  | 0x2a => -- LDI A, (HL)
    let s1 := { s with a := memory_read_8 s s.hl }
    let s2 := s1.set_hl (s1.hl + 1)
    ({ s2 with pc := u16 (s2.pc + 1) }, 8)
  | 0x2f => -- CPL
    let a := u8 (s.a ^^^ 0xff)
    let f := SET_BIT s.f FLAG_N
    let f := SET_BIT f FLAG_H
    ({ s with a := a, f := f, pc := u16 (s.pc + 1) }, 4)
  | 0x30 => -- JR NC, nn
    if CHECK_BIT s.f FLAG_C = 0 then
      let pc := u16 (int_add s.pc (int8_cast (memory_read_8 s (s.pc + 1))))
      ({ s with pc := u16 (pc + 2) }, 12)
    else
      ({ s with pc := u16 (s.pc + 2) }, 8)
  | 0x31 => -- LD SP, nnnn
    ({ s with sp := memory_read_16 s (s.pc + 1), pc := u16 (s.pc + 3) }, 12)
  | 0x32 => -- LDD (HL), A
    let s1 := memory_write_8 s s.hl s.a
    let s2 := s1.set_hl (s1.hl + 65535)
    ({ s2 with pc := u16 (s2.pc + 1) }, 8)
  | 0x36 => -- LD (HL), nn
    let value := memory_read_8 s (s.pc + 1)
    let s1 := memory_write_8 s s.hl value
    ({ s1 with pc := u16 (s1.pc + 2) }, 12)
  | 0x3e => -- LD A, nn
    ({ s with a := memory_read_8 s (s.pc + 1), pc := u16 (s.pc + 2) }, 8)
  | 0x3f => -- CCF
    let f := CLEAR_BIT s.f FLAG_N
    let f := CLEAR_BIT f FLAG_H
    let f := FLIP_BIT f FLAG_C
    ({ s with f := f, pc := u16 (s.pc + 1) }, 4)
  | 0x40 => -- LD B, B
    ({ s with b := s.b, pc := u16 (s.pc + 1) }, 4)
  | 0x47 => -- LD B, A
    ({ s with b := s.a, pc := u16 (s.pc + 1) }, 4)
  | 0x4f => -- LD C, A
    ({ s with c := s.a, pc := u16 (s.pc + 1) }, 4)
  | 0x50 => -- LD D, B
    ({ s with d := s.b, pc := u16 (s.pc + 1) }, 4)
  | 0x56 => -- LD D, (HL)
    ({ s with d := memory_read_8 s s.hl, pc := u16 (s.pc + 1) }, 8)
  | 0x5e => -- LD E, (HL)
    ({ s with e := memory_read_8 s s.hl, pc := u16 (s.pc + 1) }, 8)
  | 0x5f => -- LD E, A
    ({ s with e := s.a, pc := u16 (s.pc + 1) }, 4)
  | 0x70 => -- LD (HL), B
    let s1 := memory_write_8 s s.hl s.b
    ({ s1 with pc := u16 (s1.pc + 1) }, 8)
  | 0x78 => -- LD A, B
    ({ s with a := s.b, pc := u16 (s.pc + 1) }, 4)
  | 0x79 => -- commented "LD C, A" in the source; the statement is registers.c = registers.a
    ({ s with c := s.a, pc := u16 (s.pc + 1) }, 4)
  | 0x7c => -- LD A, H
    ({ s with a := s.h, pc := u16 (s.pc + 1) }, 4)
  | 0x7d => -- LD A, L
    ({ s with a := s.l, pc := u16 (s.pc + 1) }, 4)
  | 0x7e => -- LD A, (HL)
    ({ s with a := memory_read_8 s s.hl, pc := u16 (s.pc + 1) }, 8)
  | 0x7f => -- LD A, A
    ({ s with a := s.a, pc := u16 (s.pc + 1) }, 4)
  | 0x80 => -- ADD A, B
    let f := 0
    let f := if HAS_HALF_CARRY_ON_ADD s.a s.b ≠ 0 then SET_BIT f FLAG_H else f
    let f := if u16 s.a + u16 s.b > 0xff then SET_BIT f FLAG_C else f
    let a := u8 (s.a + s.b)
    let f := if a = 0 then SET_BIT f FLAG_Z else f
    ({ s with a := a, f := f, pc := u16 (s.pc + 1) }, 4)
  | 0x81 => -- ADD A, C
    let f := 0
    let f := if HAS_HALF_CARRY_ON_ADD s.a s.c ≠ 0 then SET_BIT f FLAG_H else f
    let f := if u16 s.a + u16 s.c > 0xff then SET_BIT f FLAG_C else f
    let a := u8 (s.a + s.c)
    let f := if a = 0 then SET_BIT f FLAG_Z else f
    ({ s with a := a, f := f, pc := u16 (s.pc + 1) }, 4)
  | 0x87 => -- ADD A, A
    let f := 0
    let f := if HAS_HALF_CARRY_ON_ADD s.a s.a ≠ 0 then SET_BIT f FLAG_H else f
    let f := if u16 s.a + u16 s.a > 0xff then SET_BIT f FLAG_C else f
    let a := u8 (s.a + s.a)
    let f := if a = 0 then SET_BIT f FLAG_Z else f
    ({ s with a := a, f := f, pc := u16 (s.pc + 1) }, 4)
  | 0xa1 => -- AND A, C
    let a := u8 (s.a &&& s.c)
    let f := SET_BIT 0 FLAG_H
    let f := if a = 0 then SET_BIT f FLAG_Z else f
    ({ s with a := a, f := f, pc := u16 (s.pc + 1) }, 4)
  | 0xa7 => -- AND A, A
    let a := u8 (s.a &&& s.a)
    let f := SET_BIT 0 FLAG_H
    let f := if a = 0 then SET_BIT f FLAG_Z else f
    ({ s with a := a, f := f, pc := u16 (s.pc + 1) }, 4)
  | 0xa9 => -- XOR A, C
    let a := u8 (s.a ^^^ s.c)
    let f := 0
    let f := if a = 0 then SET_BIT f FLAG_Z else f
    ({ s with a := a, f := f, pc := u16 (s.pc + 1) }, 4)
  | 0xaf => -- XOR A, A
    let a := 0
    let f := 0
    let f := if a = 0 then SET_BIT f FLAG_Z else f
    ({ s with a := a, f := f, pc := u16 (s.pc + 1) }, 4)
  | 0xb0 => -- OR B, A
    let a := u8 (s.a ||| s.b)
    let f := 0
    let f := if a = 0 then SET_BIT f FLAG_Z else f
    ({ s with a := a, f := f, pc := u16 (s.pc + 1) }, 4)
  | 0xb1 => -- OR C, A
    let a := u8 (s.a ||| s.c)
    let f := 0
    let f := if a = 0 then SET_BIT f FLAG_Z else f
    ({ s with a := a, f := f, pc := u16 (s.pc + 1) }, 4)
  | 0xbf => -- CP A
    let cmp := int16_cast (int_sub s.a s.a)
    let f := SET_BIT s.f FLAG_N
    let f := if cmp = 0 then SET_BIT f FLAG_Z else CLEAR_BIT f FLAG_Z
    let f := if HAS_HALF_CARRY_ON_SUB s.a cmp ≠ 0 then SET_BIT f FLAG_H
             else CLEAR_BIT f FLAG_H
    let f := if int_neg cmp then SET_BIT f FLAG_C else CLEAR_BIT f FLAG_C
    ({ s with f := f, pc := u16 (s.pc + 1) }, 4)
  | 0xc1 => -- POP BC
    let s1 := s.set_bc (memory_read_16 s s.sp)
    ({ s1 with sp := u16 (s1.sp + 2), pc := u16 (s1.pc + 1) }, 12)
  | 0xc3 => -- JP nnnn
    ({ s with pc := memory_read_16 s (s.pc + 1) }, 16)
  | 0xc4 => -- CALL NZ, nnnn
    let call_addr := memory_read_16 s (s.pc + 1)
    if CHECK_BIT s.f FLAG_Z = 0 then
      let s1 := { s with sp := u16 (s.sp + 65534) }
      let s2 := memory_write_16 s1 s1.sp (s1.pc + 3)
      ({ s2 with pc := call_addr }, 24)
    else
      ({ s with pc := u16 (s.pc + 3) }, 12)
  | 0xc5 => -- PUSH BC
    let s1 := { s with sp := u16 (s.sp + 65534) }
    let s2 := memory_write_16 s1 s1.sp s1.bc
    ({ s2 with pc := u16 (s2.pc + 1) }, 16)
  | 0xc8 => -- RET Z
    if CHECK_BIT s.f FLAG_Z ≠ 0 then
      ({ s with pc := memory_read_16 s s.sp, sp := u16 (s.sp + 2) }, 20)
    else
      ({ s with pc := u16 (s.pc + 1) }, 8)
  | 0xc9 => -- RET
    ({ s with pc := memory_read_16 s s.sp, sp := u16 (s.sp + 2) }, 16)
  | 0xca => -- JP Z, nnnn
    if CHECK_BIT s.f FLAG_Z ≠ 0 then
      ({ s with pc := memory_read_16 s (s.pc + 1) }, 16)
    else
      ({ s with pc := u16 (s.pc + 3) }, 12)
  | 0xcb => -- CB nn
    let cb_inst := memory_read_8 s (s.pc + 1)
    let r := handle_cb_inst s cb_inst
    ({ r.1 with pc := u16 (r.1.pc + 2) }, r.2)
  | 0xcd => -- CALL nnnn
    let call_addr := memory_read_16 s (s.pc + 1)
    let s1 := { s with sp := u16 (s.sp + 65534) }
    let s2 := memory_write_16 s1 s1.sp (s1.pc + 3)
    ({ s2 with pc := call_addr }, 24)
  | 0xd1 => -- POP DE
    let s1 := s.set_de (memory_read_16 s s.sp)
    ({ s1 with sp := u16 (s1.sp + 2), pc := u16 (s1.pc + 1) }, 12)
  | 0xd5 => -- PUSH DE
    let s1 := { s with sp := u16 (s.sp + 65534) }
    let s2 := memory_write_16 s1 s1.sp s1.de
    ({ s2 with pc := u16 (s2.pc + 1) }, 16)
  | 0xe0 => -- LD (FF00+nn), A
    let offset := memory_read_8 s (s.pc + 1)
    let s1 := memory_write_8 s (MEMORY_IO_START_ADDR + offset) s.a
    ({ s1 with pc := u16 (s1.pc + 2) }, 12)
  | 0xe1 => -- POP HL
    let s1 := s.set_hl (memory_read_16 s s.sp)
    ({ s1 with sp := u16 (s1.sp + 2), pc := u16 (s1.pc + 1) }, 12)
  | 0xe2 => -- LD (FF00+C), A
    let s1 := memory_write_8 s (MEMORY_IO_START_ADDR + s.c) s.a
    ({ s1 with pc := u16 (s1.pc + 1) }, 8)
  | 0xe5 => -- PUSH HL
    let s1 := { s with sp := u16 (s.sp + 65534) }
    let s2 := memory_write_16 s1 s1.sp s1.hl
    ({ s2 with pc := u16 (s2.pc + 1) }, 16)
  | 0xe6 => -- AND nn
    let a := u8 (s.a &&& memory_read_8 s (s.pc + 1))
    let f := SET_BIT 0 FLAG_H
    let f := if a = 0 then SET_BIT f FLAG_Z else f
    ({ s with a := a, f := f, pc := u16 (s.pc + 2) }, 8)
  | 0xe9 => -- JP HL
    ({ s with pc := s.hl }, 4)
  | 0xea => -- LD (nnnn), A
    let addr := memory_read_16 s (s.pc + 1)
    let s1 := memory_write_8 s addr s.a
    ({ s1 with pc := u16 (s1.pc + 3) }, 16)
  | 0xef => -- RST 28
    let s1 := { s with sp := u16 (s.sp + 65534) }
    let s2 := memory_write_16 s1 s1.sp (s1.pc + 1)
    ({ s2 with pc := MEMORY_RST_28 }, 16)
  | 0xf0 => -- LD A, (FF00+nn)
    let offset := memory_read_8 s (s.pc + 1)
    ({ s with a := memory_read_8 s (MEMORY_IO_START_ADDR + offset), pc := u16 (s.pc + 2) }, 12)
  | 0xf1 => -- POP AF
    let s1 := s.set_af (memory_read_16 s s.sp)
    ({ s1 with sp := u16 (s1.sp + 2), pc := u16 (s1.pc + 1) }, 12)
  | 0xf3 => -- DI
    ({ s with ime := false, pc := u16 (s.pc + 1) }, 4)
  | 0xf5 => -- PUSH AF
    let s1 := { s with sp := u16 (s.sp + 65534) }
    let s2 := memory_write_16 s1 s1.sp s1.af
    ({ s2 with pc := u16 (s2.pc + 1) }, 16)
  | 0xfa => -- LD A, (nnnn)
    let value_addr := memory_read_16 s (s.pc + 1)
    ({ s with a := memory_read_8 s value_addr, pc := u16 (s.pc + 3) }, 16)
  | 0xfb => -- EI
    ({ s with ime := true, pc := u16 (s.pc + 1) }, 4)
  | 0xfe => -- CP nn
    let mem_val := memory_read_8 s (s.pc + 1)
    let sub := int16_cast (int_sub s.a mem_val)
    let f := SET_BIT s.f FLAG_N
    let f := if sub = 0 then SET_BIT f FLAG_Z else CLEAR_BIT f FLAG_Z
    let f := if HAS_HALF_CARRY_ON_SUB s.a sub ≠ 0 then SET_BIT f FLAG_H
             else CLEAR_BIT f FLAG_H
    let f := if int_neg sub then SET_BIT f FLAG_C else CLEAR_BIT f FLAG_C
    ({ s with f := f, pc := u16 (s.pc + 2) }, 8)
  | 0xff => -- RST 38
    let s1 := { s with sp := u16 (s.sp + 65534) }
    let s2 := memory_write_16 s1 s1.sp (s1.pc + 1)
    ({ s2 with pc := MEMORY_RST_38 }, 16)
  | _ => ({ s with running := false }, 0)

/-- The `case` labels of the `switch (inst)` in `cpu_execute_inst`, in source order. -/
def primary_case_labels : List Nat :=
  [0x00, 0x01, 0x03, 0x04, 0x05, 0x06, 0x0b, 0x0c, 0x0d, 0x0e, 0x11, 0x12, 0x13, 0x14, 0x15,
   0x16, 0x19, 0x1a, 0x1c, 0x18, 0x20, 0x21, 0x22, 0x23, 0x28, 0x2a, 0x2f, 0x30, 0x31, 0x32,
   0x36, 0x3e, 0x3f, 0x40, 0x47, 0x4f, 0x50, 0x56, 0x5e, 0x5f, 0x70, 0x78, 0x79, 0x7c, 0x7d,
   0x7e, 0x7f, 0x80, 0x81, 0x87, 0xa1, 0xa7, 0xa9, 0xaf, 0xb0, 0xb1, 0xbf, 0xc1, 0xc3, 0xc4,
   0xc5, 0xc8, 0xc9, 0xca, 0xcb, 0xcd, 0xd1, 0xd5, 0xe0, 0xe1, 0xe2, 0xe5, 0xe6, 0xe9, 0xea,
   0xef, 0xf0, 0xf1, 0xf3, 0xf5, 0xfa, 0xfb, 0xfe, 0xff]

/-- Function `uint64_t cpu_execute_inst(void)`: fetch the opcode at `pc`, run the switch, count
the instruction, return the clock cycles. -/
def cpu_execute_inst (s : Machine) : Machine × Nat :=
  let inst := memory_read_8 s s.pc
  let r := exec_inst s inst
  ({ r.1 with nb_exec_inst := u64 (r.1.nb_exec_inst + 1) }, r.2)

/-! ## Timer unit (`timer.c`) -/

/-- Function `static uint64_t get_clock_speed(void)` -/
def get_clock_speed (s : Machine) : Nat :=
  let select_clock := u8 (memory_read_8 s MEMORY_REG_TAC &&& MEMORY_TAC_INPUT_CLOCK_MASK)
  match select_clock with
  | 0 => 1024
  | 1 => 16
  | 2 => 64
  | 3 => 256
  | _ => 1

/-- Function `void timer_execute(uint64_t clock_cycles)`. The assignment `clock_speed = 0`
inside the threshold branch writes the local variable only and has no effect on the
state. -/
def timer_execute (s : Machine) (clock_cycles : Nat) : Machine :=
  let timer_on := memory_get_reg_value s MEMORY_REG_TAC MEMORY_TAC_TIMER_ENABLED
  if !timer_on then { s with tima_clock := 0 }
  else
    let s1 := { s with tima_clock := u64 (s.tima_clock + u64 clock_cycles) }
    let clock_speed := get_clock_speed s1
    if s1.tima_clock ≥ clock_speed then
      let timer_counter := memory_read_8 s1 MEMORY_REG_TIMA
      if timer_counter = 0xff then
        let tma_value := memory_read_8 s1 MEMORY_REG_TMA
        let s2 := memory_write_8 s1 MEMORY_REG_TIMA tma_value
        memory_write_reg_value s2 MEMORY_REG_IF MEMORY_IEF_TIMER true
      else
        memory_write_8 s1 MEMORY_REG_TIMA (timer_counter + 1)
    else s1

/-! ## Display timing unit (`ppu.c`)

Only the timing part of `ppu_execute` touches the machine state; the tile viewers and the
frame-rate report sit under `#ifdef DEBUG`. -/

/-- Function `void ppu_execute(uint64_t clock_cycles)`. The local `ly` is filled by a
one-byte `memory_read` at `MEMORY_REG_LY`; the buffer handed to the read is modelled with
the placeholder content 0, which the read always overwrites at that address. -/
def ppu_execute (s : Machine) (clock_cycles : Nat) : Machine :=
  let lcd_on := memory_get_reg_value s MEMORY_REG_LCDC MEMORY_LCDC_PPU_ENABLED
  let ly := (memory_read s [0] MEMORY_REG_LY 1).getD 0 0
  if !lcd_on then
    let s1 := memory_write_8 s MEMORY_REG_LY 0
    { s1 with scan_line_clock := 0 }
  else
    let s1 := { s with scan_line_clock := u64 (s.scan_line_clock + u64 clock_cycles) }
    if s1.scan_line_clock ≥ CLOCK_CYCLES_PER_SCANLINE then
      let s2 := { s1 with scan_line_clock := 0 }
      let ly := if ly = 153 then 0 else u8 (ly + 1)
      let s3 := memory_write_8 s2 MEMORY_REG_LY ly
      let s4 :=
        if ly < 144 then s3
        else if ly = 144 then memory_write_reg_value s3 MEMORY_REG_IF MEMORY_IEF_VBLANK true
        else s3
      if memory_read_8 s4 MEMORY_REG_LYC = ly then
        let s5 := memory_write_reg_value s4 MEMORY_REG_STAT MEMORY_STAT_COINCID_FLAG true
        if memory_get_reg_value s5 MEMORY_REG_STAT MEMORY_STAT_COINCID_INT then
          memory_write_reg_value s5 MEMORY_REG_IF MEMORY_IEF_LCD_STAT true
        else s5
      else
        memory_write_reg_value s4 MEMORY_REG_STAT MEMORY_STAT_COINCID_FLAG false
    else s1

/-! ## Sequences of core operations

The driver of `main.c` interleaves calls of the state-changing functions of the core. A
`CoreOp` names one such call with its arguments; `run_ops` performs a list of them in
order. -/

/-- One call of a state-changing function of the core. -/
inductive CoreOp where
  | cpu_step
  | timer_step (clock_cycles : Nat)
  | ppu_step (clock_cycles : Nat)
  | bus_write (buff : List Nat) (mem_start_addr size : Nat)
  | bus_write_8 (mem_start_addr val : Nat)
  | bus_write_16 (mem_start_addr val : Nat)
  | bus_write_reg (reg_addr bit : Nat) (value : Bool)

/-- The state after one call. -/
def CoreOp.apply (op : CoreOp) (s : Machine) : Machine :=
  match op with
  | .cpu_step => (cpu_execute_inst s).1
  | .timer_step c => timer_execute s c
  | .ppu_step c => ppu_execute s c
  | .bus_write buff a n => memory_write s buff a n
  | .bus_write_8 a v => memory_write_8 s a v
  | .bus_write_16 a v => memory_write_16 s a v
  | .bus_write_reg a b v => memory_write_reg_value s a b v

/-- The state after a list of calls, performed from left to right. -/
def run_ops (ops : List CoreOp) (s : Machine) : Machine :=
  ops.foldl (fun st op => op.apply st) s

/-- State `t` differs from `s` at most in the two peripheral accumulators `tima_clock` and
`scan_line_clock` and in the memory cells listed in `cells`. -/
def Machine.FramedBy (s : Machine) (cells : List Nat) (t : Machine) : Prop :=
  t = { s with tima_clock := t.tima_clock, scan_line_clock := t.scan_line_clock,
               memory := t.memory } ∧
  ∀ x, x ∉ cells → t.memory x = s.memory x

/-! ## Auxiliary facts about the bit macros -/

theorem CHECK_BIT_eq_testBit (x m : Nat) : CHECK_BIT x m = (x.testBit m).toNat := by
  unfold CHECK_BIT
  rw [Nat.and_one_is_mod, Nat.shiftRight_eq_div_pow, Nat.toNat_testBit]

theorem CHECK_BIT_zero_or_one (x m : Nat) : CHECK_BIT x m = 0 ∨ CHECK_BIT x m = 1 := by
  rw [CHECK_BIT_eq_testBit]; cases x.testBit m <;> simp

theorem CHECK_BIT_SET_BIT (f n m : Nat) (hn : n < 8) (hm : m < 8) :
    CHECK_BIT (SET_BIT f n) m = if m = n then 1 else CHECK_BIT f m := by
  have h8 : (256 : Nat) = 2 ^ 8 := by norm_num
  have hlt : 2 ^ n < 2 ^ 32 := Nat.pow_lt_pow_right (by norm_num) (by omega)
  simp only [CHECK_BIT_eq_testBit, SET_BIT, u8, h8, Nat.one_shiftLeft, Nat.mod_eq_of_lt hlt,
    Nat.testBit_mod_two_pow, Nat.testBit_or, Nat.testBit_two_pow, hm, decide_True, Bool.true_and]
  by_cases h : m = n
  · subst h; simp
  · have h2 : ¬ n = m := fun e => h e.symm
    simp [h, h2]

theorem CHECK_BIT_CLEAR_BIT (f n m : Nat) (hn : n < 8) (hm : m < 8) :
    CHECK_BIT (CLEAR_BIT f n) m = if m = n then 0 else CHECK_BIT f m := by
  have h8 : (256 : Nat) = 2 ^ 8 := by norm_num
  have hlt : 2 ^ n < 2 ^ 32 := Nat.pow_lt_pow_right (by norm_num) (by omega)
  have hmask : int_not (1 <<< n) = 2 ^ 32 - (2 ^ n + 1) := by
    unfold int_not
    rw [Nat.one_shiftLeft, Nat.mod_eq_of_lt hlt]
    omega
  have hm32 : m < 32 := by omega
  simp only [CHECK_BIT_eq_testBit, CLEAR_BIT, u8, h8, hmask,
    Nat.testBit_mod_two_pow, Nat.testBit_and, Nat.testBit_two_pow_sub_succ hlt,
    Nat.testBit_two_pow, hm, hm32, decide_True, Bool.true_and]
  by_cases h : m = n
  · subst h; simp
  · have h2 : ¬ n = m := fun e => h e.symm
    simp [h, h2]

theorem SET_BIT_lt (f n : Nat) : SET_BIT f n < 256 := Nat.mod_lt _ (by norm_num)

theorem CLEAR_BIT_lt (f n : Nat) : CLEAR_BIT f n < 256 := Nat.mod_lt _ (by norm_num)

/-- Setting one of the bits 4..7 leaves the low nibble of the byte alone. -/
theorem SET_BIT_low_nibble (f n : Nat) (hn : 4 ≤ n) (hn8 : n < 8) :
    SET_BIT f n % 16 = f % 16 := by
  apply Nat.eq_of_testBit_eq
  intro i
  have h8 : (256 : Nat) = 2 ^ 8 := by norm_num
  have h16 : (16 : Nat) = 2 ^ 4 := by norm_num
  have hlt : 2 ^ n < 2 ^ 32 := Nat.pow_lt_pow_right (by norm_num) (by omega)
  simp only [SET_BIT, u8, h8, h16, Nat.one_shiftLeft, Nat.mod_eq_of_lt hlt,
    Nat.testBit_mod_two_pow, Nat.testBit_or, Nat.testBit_two_pow]
  by_cases hi : i < 4
  · have h1 : ¬ n = i := by omega
    have h2 : i < 8 := by omega
    simp [hi, h1, h2]
  · simp [hi]

/-! ## Auxiliary facts about well-formed states -/

/-- A state whose memory is blank is well formed as soon as its registers are in range. -/
theorem WF_of_blank_memory (s : Machine) (hm : s.memory = fun _ => 0)
    (hr : s.f < 256 ∧ s.a < 256 ∧ s.c < 256 ∧ s.b < 256 ∧ s.e < 256 ∧ s.d < 256 ∧
      s.l < 256 ∧ s.h < 256 ∧ s.sp < 65536 ∧ s.pc < 65536 ∧ s.nb_exec_inst < 2 ^ 64) :
    s.WF := by
  obtain ⟨h1, h2, h3, h4, h5, h6, h7, h8, h9, h10, h11⟩ := hr
  exact ⟨h1, h2, h3, h4, h5, h6, h7, h8, h9, h10, fun addr => by rw [hm]; exact Nat.zero_lt_succ 255, h11⟩

theorem WF_memory_write_8 (s : Machine) (addr val : Nat) (h : s.WF) :
    (memory_write_8 s addr val).WF := by
  refine ⟨h.f_lt, h.a_lt, h.c_lt, h.b_lt, h.e_lt, h.d_lt, h.l_lt, h.h_lt, h.sp_lt, h.pc_lt,
    fun x => ?_, h.nb_lt⟩
  show (if x = u16 addr then u8 val else s.memory x) < 256
  split
  · exact Nat.mod_lt _ (by norm_num)
  · exact h.mem_lt x

/-! ## Auxiliary facts about the memory bus -/

theorem memory_write_16_sp (s : Machine) (addr val : Nat) :
    (memory_write_16 s addr val).sp = s.sp := by
  unfold memory_write_16 memory_write
  split <;> rfl

theorem memory_write_16_b (s : Machine) (addr val : Nat) :
    (memory_write_16 s addr val).b = s.b := by
  unfold memory_write_16 memory_write
  split <;> rfl

theorem memory_write_16_c (s : Machine) (addr val : Nat) :
    (memory_write_16 s addr val).c = s.c := by
  unfold memory_write_16 memory_write
  split <;> rfl

theorem memory_write_16_nb_exec_inst (s : Machine) (addr val : Nat) :
    (memory_write_16 s addr val).nb_exec_inst = s.nb_exec_inst := by
  unfold memory_write_16 memory_write
  split <;> rfl

/-- Changing the stack pointer does not change the pair BC. -/
theorem bc_with_sp (s : Machine) (x : Nat) : ({ s with sp := x } : Machine).bc = s.bc := rfl

theorem memory_write_16_pc (s : Machine) (addr val : Nat) :
    (memory_write_16 s addr val).pc = s.pc := by
  unfold memory_write_16 memory_write
  split <;> rfl

/-- A 16-bit write whose two bytes lie below the guard of `memory_write` stores the low
byte at `addr` and the high byte at `addr + 1`, and nothing else. -/
theorem memory_write_16_memory (s : Machine) (addr val : Nat) (h : addr < 0xFFFE) :
    (memory_write_16 s addr val).memory =
      fun x => if x = addr then u16 val % 256 else if x = addr + 1 then u16 val / 256
        else s.memory x := by
  have ha : u16 addr = addr := Nat.mod_eq_of_lt (by omega)
  have hg : ¬ (u16 addr + u16 2 ≥ MEMORY_SIZE) := by
    rw [ha]; unfold u16 MEMORY_SIZE; omega
  unfold memory_write_16 memory_write
  rw [if_neg hg]
  funext x
  show (if u16 addr ≤ x ∧ x < u16 addr + u16 2 then
    [u16 val % 256, u16 val / 256].getD (x - u16 addr) 0 else s.memory x) = _
  rw [ha]
  have h2 : u16 2 = 2 := rfl
  rw [h2]
  by_cases h1 : x = addr
  · subst h1
    simp
  · by_cases h3 : x = addr + 1
    · subst h3
      simp
    · have h4 : ¬ (addr ≤ x ∧ x < addr + 2) := by omega
      simp [h1, h3, h4]

/-- A 16-bit write at an address rejected by the guard of `memory_write` is dropped. -/
theorem memory_write_16_dropped (s : Machine) (addr val : Nat) (h : 0xFFFE ≤ u16 addr) :
    memory_write_16 s addr val = s := by
  have hg : u16 addr + u16 2 ≥ MEMORY_SIZE := by
    have h2 : u16 2 = 2 := rfl
    rw [h2]; unfold MEMORY_SIZE; omega
  unfold memory_write_16 memory_write
  rw [if_pos hg]

/-- A 16-bit read whose two bytes lie below the guard of `memory_read` is the
little-endian word at `addr`. -/
theorem memory_read_16_in_range (s : Machine) (addr : Nat) (h : addr < 0xFFFE) :
    memory_read_16 s addr = s.memory addr + 256 * s.memory (addr + 1) := by
  have ha : u16 addr = addr := Nat.mod_eq_of_lt (by omega)
  have hg : ¬ (u16 addr + u16 2 ≥ MEMORY_SIZE) := by
    rw [ha]; unfold u16 MEMORY_SIZE; omega
  unfold memory_read_16 memory_read
  rw [if_neg hg, ha]
  rfl

/-- A 16-bit read at an address rejected by the guard of `memory_read` leaves the
zero-initialised buffer alone: the result is 0. -/
theorem memory_read_16_dropped (s : Machine) (addr : Nat) (h : 0xFFFE ≤ u16 addr) :
    memory_read_16 s addr = 0 := by
  have hg : u16 addr + u16 2 ≥ MEMORY_SIZE := by
    have h2 : u16 2 = 2 := rfl
    rw [h2]; unfold MEMORY_SIZE; omega
  unfold memory_read_16 memory_read
  rw [if_pos hg]
  rfl

/-! ## Instruction dispatch -/

/-- One step of the engine when the opcode fetched at `pc` is `op`. -/
theorem cpu_execute_inst_eq (s : Machine) (op : Nat) (h : memory_read_8 s s.pc = op) :
    cpu_execute_inst s =
      ({ (exec_inst s op).1 with nb_exec_inst := u64 ((exec_inst s op).1.nb_exec_inst + 1) },
        (exec_inst s op).2) := by
  simp only [cpu_execute_inst, h]

/-! ## C1: 8-bit increment -/

theorem inc_dec_flags_gen (f0 f : Nat) (P Q : Prop) [Decidable P] [Decidable Q]
    (hN : CHECK_BIT f FLAG_C = CHECK_BIT f0 FLAG_C) :
    let f2 := if P then SET_BIT f FLAG_Z else CLEAR_BIT f FLAG_Z
    let f3 := if Q then SET_BIT f2 FLAG_H else CLEAR_BIT f2 FLAG_H
    (CHECK_BIT f3 FLAG_Z = 1 ↔ P) ∧ CHECK_BIT f3 FLAG_N = CHECK_BIT f FLAG_N ∧
      (CHECK_BIT f3 FLAG_H = 1 ↔ Q) ∧ CHECK_BIT f3 FLAG_C = CHECK_BIT f0 FLAG_C := by
  intro f2 f3
  rw [← hN]
  simp only [f3, f2]
  split_ifs <;>
    simp [CHECK_BIT_SET_BIT, CHECK_BIT_CLEAR_BIT, FLAG_Z, FLAG_N, FLAG_H, FLAG_C, *]

set_option maxRecDepth 100000 in
theorem inc_half_carry (v : Nat) (hv : v < 256) :
    HAS_HALF_CARRY_ON_ADD (int_sub (u8 (v + 1)) 1) 1 = (v &&& 0xF) &&& (1 &&& 0xF) := by
  revert v; decide

theorem inc_flags (f v : Nat) (hv : v < 256) :
    let r := u8 (v + 1)
    let f1 := CLEAR_BIT f FLAG_N
    let f2 := if r = 0 then SET_BIT f1 FLAG_Z else CLEAR_BIT f1 FLAG_Z
    let f3 := if HAS_HALF_CARRY_ON_ADD (int_sub r 1) 1 ≠ 0 then SET_BIT f2 FLAG_H
              else CLEAR_BIT f2 FLAG_H
    (CHECK_BIT f3 FLAG_Z = 1 ↔ (v + 1) % 256 = 0) ∧ CHECK_BIT f3 FLAG_N = 0 ∧
      (CHECK_BIT f3 FLAG_H = 1 ↔ (v &&& 0xF) &&& (1 &&& 0xF) ≠ 0) ∧
      CHECK_BIT f3 FLAG_C = CHECK_BIT f FLAG_C := by
  have h := inc_dec_flags_gen f (CLEAR_BIT f FLAG_N) (u8 (v + 1) = 0)
    (HAS_HALF_CARRY_ON_ADD (int_sub (u8 (v + 1)) 1) 1 ≠ 0)
    (by simp [CHECK_BIT_CLEAR_BIT, FLAG_C, FLAG_N])
  have hn : CHECK_BIT (CLEAR_BIT f FLAG_N) FLAG_N = 0 := by
    simp [CHECK_BIT_CLEAR_BIT, FLAG_N]
  have hq : HAS_HALF_CARRY_ON_ADD (int_sub (u8 (v + 1)) 1) 1 ≠ 0 ↔
      (v &&& 0xF) &&& (1 &&& 0xF) ≠ 0 := by
    have e := inc_half_carry v hv
    exact ⟨fun h1 h2 => h1 (e.trans h2), fun h1 h2 => h1 (e.symm.trans h2)⟩
  exact ⟨h.1, h.2.1.trans hn, h.2.2.1.trans hq, h.2.2.2⟩

/-- C1. INC B (0x04), INC C (0x0C), INC D (0x14), INC E (0x1C): with `reg` the register the
opcode names and `v = reg s` its value before the step, the register afterwards holds
`(v + 1) mod 256`; Zero is set iff that result is 0; Subtract is cleared; Half-Carry is set
iff `(v & 0xF) & (1 & 0xF)` is non-zero; Carry is unchanged; PC has advanced by 1 (as a
16-bit counter) and the step returns 4 cycles. In particular INC on 0xFF yields 0x00 with
Zero = 1, Subtract = 0, Half-Carry = 1. -/
theorem inc_r8_contract (s : Machine) (hwf : s.WF) (op : Nat) (reg : Machine → Nat)
    (hsel : (op = 0x04 ∧ reg = Machine.b) ∨ (op = 0x0C ∧ reg = Machine.c) ∨
            (op = 0x14 ∧ reg = Machine.d) ∨ (op = 0x1C ∧ reg = Machine.e))
    (hop : memory_read_8 s s.pc = op) :
    reg (cpu_execute_inst s).1 = (reg s + 1) % 256 ∧
    (CHECK_BIT (cpu_execute_inst s).1.f FLAG_Z = 1 ↔ (reg s + 1) % 256 = 0) ∧
    CHECK_BIT (cpu_execute_inst s).1.f FLAG_N = 0 ∧
    (CHECK_BIT (cpu_execute_inst s).1.f FLAG_H = 1 ↔ (reg s &&& 0xF) &&& (1 &&& 0xF) ≠ 0) ∧
    CHECK_BIT (cpu_execute_inst s).1.f FLAG_C = CHECK_BIT s.f FLAG_C ∧
    (cpu_execute_inst s).1.pc = (s.pc + 1) % 65536 ∧
    (cpu_execute_inst s).2 = 4 ∧
    (reg s = 0xFF → reg (cpu_execute_inst s).1 = 0x00 ∧
      CHECK_BIT (cpu_execute_inst s).1.f FLAG_Z = 1 ∧
      CHECK_BIT (cpu_execute_inst s).1.f FLAG_N = 0 ∧
      CHECK_BIT (cpu_execute_inst s).1.f FLAG_H = 1) := by
  have key : ∀ v f' r', r' = (v + 1) % 256 →
      ((CHECK_BIT f' FLAG_Z = 1 ↔ (v + 1) % 256 = 0) ∧ CHECK_BIT f' FLAG_N = 0 ∧
        (CHECK_BIT f' FLAG_H = 1 ↔ (v &&& 0xF) &&& (1 &&& 0xF) ≠ 0) ∧
        CHECK_BIT f' FLAG_C = CHECK_BIT s.f FLAG_C) →
      (v = 0xFF → r' = 0x00 ∧ CHECK_BIT f' FLAG_Z = 1 ∧ CHECK_BIT f' FLAG_N = 0 ∧
        CHECK_BIT f' FLAG_H = 1) := by
    intro v f' r' hr' ⟨hz, hn, hh, _⟩ hv
    subst hv
    exact ⟨hr', hz.2 (by decide), hn, hh.2 (by decide)⟩
  rcases hsel with ⟨rfl, rfl⟩ | ⟨rfl, rfl⟩ | ⟨rfl, rfl⟩ | ⟨rfl, rfl⟩
  · rw [cpu_execute_inst_eq s _ hop]
    have h := inc_flags s.f s.b hwf.b_lt
    exact ⟨rfl, h.1, h.2.1, h.2.2.1, h.2.2.2, rfl, rfl, key s.b _ _ rfl h⟩
  · rw [cpu_execute_inst_eq s _ hop]
    have h := inc_flags s.f s.c hwf.c_lt
    exact ⟨rfl, h.1, h.2.1, h.2.2.1, h.2.2.2, rfl, rfl, key s.c _ _ rfl h⟩
  · rw [cpu_execute_inst_eq s _ hop]
    have h := inc_flags s.f s.d hwf.d_lt
    exact ⟨rfl, h.1, h.2.1, h.2.2.1, h.2.2.2, rfl, rfl, key s.d _ _ rfl h⟩
  · rw [cpu_execute_inst_eq s _ hop]
    have h := inc_flags s.f s.e hwf.e_lt
    exact ⟨rfl, h.1, h.2.1, h.2.2.1, h.2.2.2, rfl, rfl, key s.e _ _ rfl h⟩

/-- INC B at `pc = 0x100` with `B = 0xFF` and all four flags set beforehand: `B` becomes 0,
Zero = 1, Subtract = 0, Half-Carry = 1, Carry stays 1. -/
theorem inc_r8_contract_witness :
    (memory_write_8 { Machine.initial with b := 0xFF, f := 0xF0, pc := 0x100 } 0x100 0x04).WF ∧
    memory_read_8
      (memory_write_8 { Machine.initial with b := 0xFF, f := 0xF0, pc := 0x100 } 0x100 0x04)
      0x100 = 0x04 ∧
    (cpu_execute_inst
      (memory_write_8 { Machine.initial with b := 0xFF, f := 0xF0, pc := 0x100 }
        0x100 0x04)).1.b = 0x00 ∧
    CHECK_BIT (cpu_execute_inst
      (memory_write_8 { Machine.initial with b := 0xFF, f := 0xF0, pc := 0x100 }
        0x100 0x04)).1.f FLAG_Z = 1 ∧
    CHECK_BIT (cpu_execute_inst
      (memory_write_8 { Machine.initial with b := 0xFF, f := 0xF0, pc := 0x100 }
        0x100 0x04)).1.f FLAG_N = 0 ∧
    CHECK_BIT (cpu_execute_inst
      (memory_write_8 { Machine.initial with b := 0xFF, f := 0xF0, pc := 0x100 }
        0x100 0x04)).1.f FLAG_H = 1 :=
  ⟨WF_memory_write_8 _ _ _ (WF_of_blank_memory _ rfl (by decide)), by decide,
    (inc_r8_contract
      (memory_write_8 { Machine.initial with b := 0xFF, f := 0xF0, pc := 0x100 } 0x100 0x04)
      (WF_memory_write_8 _ _ _ (WF_of_blank_memory _ rfl (by decide)))
      0x04 Machine.b (Or.inl ⟨rfl, rfl⟩) (by decide)).2.2.2.2.2.2.2 rfl⟩

/-! ## C2: 8-bit decrement -/

set_option maxRecDepth 100000 in
theorem dec_half_carry (v : Nat) (hv : v < 256) :
    HAS_HALF_CARRY_ON_SUB (int_add (u8 (v + 255)) 1) (u8 (v + 255)) =
      (u8 (v + 255) &&& int_not (u8 (v + 255) + 1)) &&& 0xF := by
  revert v; decide

theorem dec_flags (f v : Nat) (hv : v < 256) :
    let r := u8 (v + 255)
    let f1 := SET_BIT f FLAG_N
    let f2 := if r = 0 then SET_BIT f1 FLAG_Z else CLEAR_BIT f1 FLAG_Z
    let f3 := if HAS_HALF_CARRY_ON_SUB (int_add r 1) r ≠ 0 then SET_BIT f2 FLAG_H
              else CLEAR_BIT f2 FLAG_H
    (CHECK_BIT f3 FLAG_Z = 1 ↔ r = 0) ∧ CHECK_BIT f3 FLAG_N = 1 ∧
      (CHECK_BIT f3 FLAG_H = 1 ↔ (r &&& int_not (r + 1)) &&& 0xF ≠ 0) ∧
      CHECK_BIT f3 FLAG_C = CHECK_BIT f FLAG_C := by
  have h := inc_dec_flags_gen f (SET_BIT f FLAG_N) (u8 (v + 255) = 0)
    (HAS_HALF_CARRY_ON_SUB (int_add (u8 (v + 255)) 1) (u8 (v + 255)) ≠ 0)
    (by simp [CHECK_BIT_SET_BIT, FLAG_C, FLAG_N])
  have hn : CHECK_BIT (SET_BIT f FLAG_N) FLAG_N = 1 := by
    simp [CHECK_BIT_SET_BIT, FLAG_N]
  have hq : HAS_HALF_CARRY_ON_SUB (int_add (u8 (v + 255)) 1) (u8 (v + 255)) ≠ 0 ↔
      (u8 (v + 255) &&& int_not (u8 (v + 255) + 1)) &&& 0xF ≠ 0 := by
    have e := dec_half_carry v hv
    exact ⟨fun h1 h2 => h1 (e.trans h2), fun h1 h2 => h1 (e.symm.trans h2)⟩
  exact ⟨h.1, h.2.1.trans hn, h.2.2.1.trans hq, h.2.2.2⟩

/-- C2. DEC B (0x05), DEC C (0x0D), DEC D (0x15): with `reg` the register the opcode names,
`v = reg s` its value before the step and `r = (v - 1) mod 256`, the register afterwards
holds `r`; Zero is set iff `r` is 0; Subtract is set; Half-Carry is set iff
`(r & ~op1) & 0xF` is non-zero, where `op1 = r + 1` and `~` is the complement of a C `int`;
Carry is unchanged; PC has advanced by 1 (as a 16-bit counter) and the step returns
4 cycles. In particular DEC on 0x01 yields 0x00 with Zero = 1, Subtract = 1,
Half-Carry = 0. -/
theorem dec_r8_contract (s : Machine) (hwf : s.WF) (op : Nat) (reg : Machine → Nat)
    (hsel : (op = 0x05 ∧ reg = Machine.b) ∨ (op = 0x0D ∧ reg = Machine.c) ∨
            (op = 0x15 ∧ reg = Machine.d))
    (hop : memory_read_8 s s.pc = op) :
    ((reg (cpu_execute_inst s).1 : Int) = ((reg s : Int) - 1) % 256) ∧
    (CHECK_BIT (cpu_execute_inst s).1.f FLAG_Z = 1 ↔ reg (cpu_execute_inst s).1 = 0) ∧
    CHECK_BIT (cpu_execute_inst s).1.f FLAG_N = 1 ∧
    (CHECK_BIT (cpu_execute_inst s).1.f FLAG_H = 1 ↔
      (reg (cpu_execute_inst s).1 &&& int_not (reg (cpu_execute_inst s).1 + 1)) &&& 0xF ≠ 0) ∧
    CHECK_BIT (cpu_execute_inst s).1.f FLAG_C = CHECK_BIT s.f FLAG_C ∧
    (cpu_execute_inst s).1.pc = (s.pc + 1) % 65536 ∧
    (cpu_execute_inst s).2 = 4 ∧
    (reg s = 0x01 → reg (cpu_execute_inst s).1 = 0x00 ∧
      CHECK_BIT (cpu_execute_inst s).1.f FLAG_Z = 1 ∧
      CHECK_BIT (cpu_execute_inst s).1.f FLAG_N = 1 ∧
      CHECK_BIT (cpu_execute_inst s).1.f FLAG_H = 0) := by
  have hint : ∀ v : Nat, v < 256 → ((u8 (v + 255) : Nat) : Int) = ((v : Int) - 1) % 256 := by
    intro v hv
    unfold u8
    omega
  have key : ∀ v f', 
      ((CHECK_BIT f' FLAG_Z = 1 ↔ u8 (v + 255) = 0) ∧ CHECK_BIT f' FLAG_N = 1 ∧
        (CHECK_BIT f' FLAG_H = 1 ↔
          (u8 (v + 255) &&& int_not (u8 (v + 255) + 1)) &&& 0xF ≠ 0) ∧
        CHECK_BIT f' FLAG_C = CHECK_BIT s.f FLAG_C) →
      (v = 0x01 → u8 (v + 255) = 0x00 ∧ CHECK_BIT f' FLAG_Z = 1 ∧ CHECK_BIT f' FLAG_N = 1 ∧
        CHECK_BIT f' FLAG_H = 0) := by
    intro v f' ⟨hz, hn, hh, _⟩ hv
    subst hv
    refine ⟨by decide, hz.2 (by decide), hn, ?_⟩
    rcases CHECK_BIT_zero_or_one f' FLAG_H with h0 | h1
    · exact h0
    · exact absurd (hh.1 h1) (by decide)
  rcases hsel with ⟨rfl, rfl⟩ | ⟨rfl, rfl⟩ | ⟨rfl, rfl⟩
  · rw [cpu_execute_inst_eq s _ hop]
    have h := dec_flags s.f s.b hwf.b_lt
    exact ⟨hint s.b hwf.b_lt, h.1, h.2.1, h.2.2.1, h.2.2.2, rfl, rfl, key s.b _ h⟩
  · rw [cpu_execute_inst_eq s _ hop]
    have h := dec_flags s.f s.c hwf.c_lt
    exact ⟨hint s.c hwf.c_lt, h.1, h.2.1, h.2.2.1, h.2.2.2, rfl, rfl, key s.c _ h⟩
  · rw [cpu_execute_inst_eq s _ hop]
    have h := dec_flags s.f s.d hwf.d_lt
    exact ⟨hint s.d hwf.d_lt, h.1, h.2.1, h.2.2.1, h.2.2.2, rfl, rfl, key s.d _ h⟩

/-- DEC C at `pc = 0x100` with `C = 0x01` and the flag register cleared beforehand: `C`
becomes 0, Zero = 1, Subtract = 1, Half-Carry = 0. -/
theorem dec_r8_contract_witness :
    (memory_write_8 { Machine.initial with c := 0x01, pc := 0x100 } 0x100 0x0D).WF ∧
    memory_read_8 (memory_write_8 { Machine.initial with c := 0x01, pc := 0x100 } 0x100 0x0D)
      0x100 = 0x0D ∧
    (cpu_execute_inst
      (memory_write_8 { Machine.initial with c := 0x01, pc := 0x100 } 0x100 0x0D)).1.c = 0x00 ∧
    CHECK_BIT (cpu_execute_inst
      (memory_write_8 { Machine.initial with c := 0x01, pc := 0x100 } 0x100 0x0D)).1.f
      FLAG_Z = 1 ∧
    CHECK_BIT (cpu_execute_inst
      (memory_write_8 { Machine.initial with c := 0x01, pc := 0x100 } 0x100 0x0D)).1.f
      FLAG_N = 1 ∧
    CHECK_BIT (cpu_execute_inst
      (memory_write_8 { Machine.initial with c := 0x01, pc := 0x100 } 0x100 0x0D)).1.f
      FLAG_H = 0 :=
  ⟨WF_memory_write_8 _ _ _ (WF_of_blank_memory _ rfl (by decide)), by decide,
    (dec_r8_contract
      (memory_write_8 { Machine.initial with c := 0x01, pc := 0x100 } 0x100 0x0D)
      (WF_memory_write_8 _ _ _ (WF_of_blank_memory _ rfl (by decide)))
      0x0D Machine.c (Or.inr (Or.inl ⟨rfl, rfl⟩)) (by decide)).2.2.2.2.2.2.2 rfl⟩

/-! ## C3: 8-bit add -/

/-- The flag byte built from zero by conditionally setting Half-Carry, Carry and Zero. -/
theorem add_flags_gen (PH PC PZ : Prop) [Decidable PH] [Decidable PC] [Decidable PZ] :
    let f1 := if PH then SET_BIT 0 FLAG_H else 0
    let f2 := if PC then SET_BIT f1 FLAG_C else f1
    let f3 := if PZ then SET_BIT f2 FLAG_Z else f2
    (CHECK_BIT f3 FLAG_H = 1 ↔ PH) ∧ (CHECK_BIT f3 FLAG_C = 1 ↔ PC) ∧
      (CHECK_BIT f3 FLAG_Z = 1 ↔ PZ) ∧ CHECK_BIT f3 FLAG_N = 0 ∧ f3 % 16 = 0 ∧ f3 < 256 := by
  intro f1 f2 f3
  simp only [f3, f2, f1]
  by_cases hH : PH <;> by_cases hC : PC <;> by_cases hZ : PZ <;>
    simp only [hH, hC, hZ, if_true, if_false, iff_true, iff_false] <;> decide

/-- C3. ADD A,B (0x80), ADD A,C (0x81), ADD A,A (0x87): with `a` the accumulator and `r` the
source register before the step, afterwards `A = (a + r) mod 256` and the flag register is
exactly: Half-Carry set iff `(a & 0xF) & (r & 0xF)` is non-zero, Carry set iff
`a + r > 0xFF`, Zero set iff `(a + r) mod 256 = 0`, Subtract clear, low nibble zero;
PC has advanced by 1 (as a 16-bit counter) and the step returns 4 cycles. -/
theorem add_a_r8_contract (s : Machine) (hwf : s.WF) (op r : Nat)
    (hsel : (op = 0x80 ∧ r = s.b) ∨ (op = 0x81 ∧ r = s.c) ∨ (op = 0x87 ∧ r = s.a))
    (hop : memory_read_8 s s.pc = op) :
    (cpu_execute_inst s).1.a = (s.a + r) % 256 ∧
    (CHECK_BIT (cpu_execute_inst s).1.f FLAG_H = 1 ↔ (s.a &&& 0xF) &&& (r &&& 0xF) ≠ 0) ∧
    (CHECK_BIT (cpu_execute_inst s).1.f FLAG_C = 1 ↔ s.a + r > 0xFF) ∧
    (CHECK_BIT (cpu_execute_inst s).1.f FLAG_Z = 1 ↔ (s.a + r) % 256 = 0) ∧
    CHECK_BIT (cpu_execute_inst s).1.f FLAG_N = 0 ∧
    (cpu_execute_inst s).1.f % 16 = 0 ∧
    (cpu_execute_inst s).1.f < 256 ∧
    (cpu_execute_inst s).1.pc = (s.pc + 1) % 65536 ∧
    (cpu_execute_inst s).2 = 4 := by
  have hu : ∀ x, x < 256 → u16 x = x := fun x hx => Nat.mod_eq_of_lt (by omega)
  have key : ∀ x, x < 256 →
      let f1 := if HAS_HALF_CARRY_ON_ADD s.a x ≠ 0 then SET_BIT 0 FLAG_H else 0
      let f2 := if u16 s.a + u16 x > 0xff then SET_BIT f1 FLAG_C else f1
      let f3 := if u8 (s.a + x) = 0 then SET_BIT f2 FLAG_Z else f2
      (CHECK_BIT f3 FLAG_H = 1 ↔ (s.a &&& 0xF) &&& (x &&& 0xF) ≠ 0) ∧
      (CHECK_BIT f3 FLAG_C = 1 ↔ s.a + x > 0xFF) ∧
      (CHECK_BIT f3 FLAG_Z = 1 ↔ (s.a + x) % 256 = 0) ∧
      CHECK_BIT f3 FLAG_N = 0 ∧ f3 % 16 = 0 ∧ f3 < 256 := by
    intro x hx
    have h := add_flags_gen (HAS_HALF_CARRY_ON_ADD s.a x ≠ 0) (u16 s.a + u16 x > 0xff)
      (u8 (s.a + x) = 0)
    have hc : u16 s.a + u16 x > 0xff ↔ s.a + x > 0xFF := by
      rw [hu s.a hwf.a_lt, hu x hx]
    exact ⟨h.1, h.2.1.trans hc, h.2.2.1, h.2.2.2.1, h.2.2.2.2.1, h.2.2.2.2.2⟩
  rcases hsel with ⟨rfl, rfl⟩ | ⟨rfl, rfl⟩ | ⟨rfl, rfl⟩
  · rw [cpu_execute_inst_eq s _ hop]
    have h := key s.b hwf.b_lt
    exact ⟨rfl, h.1, h.2.1, h.2.2.1, h.2.2.2.1, h.2.2.2.2.1, h.2.2.2.2.2, rfl, rfl⟩
  · rw [cpu_execute_inst_eq s _ hop]
    have h := key s.c hwf.c_lt
    exact ⟨rfl, h.1, h.2.1, h.2.2.1, h.2.2.2.1, h.2.2.2.2.1, h.2.2.2.2.2, rfl, rfl⟩
  · rw [cpu_execute_inst_eq s _ hop]
    have h := key s.a hwf.a_lt
    exact ⟨rfl, h.1, h.2.1, h.2.2.1, h.2.2.2.1, h.2.2.2.2.1, h.2.2.2.2.2, rfl, rfl⟩

/-- ADD A,B at `pc = 0x100` with `A = 0xF1`, `B = 0x0F`: the sum wraps to 0x00, and the
flag register becomes 0xB0 (Zero, Half-Carry and Carry set). -/
theorem add_a_r8_contract_witness :
    (memory_write_8 { Machine.initial with a := 0xF1, b := 0x0F, f := 0x4F, pc := 0x100 }
      0x100 0x80).WF ∧
    memory_read_8
      (memory_write_8 { Machine.initial with a := 0xF1, b := 0x0F, f := 0x4F, pc := 0x100 }
        0x100 0x80) 0x100 = 0x80 ∧
    (cpu_execute_inst
      (memory_write_8 { Machine.initial with a := 0xF1, b := 0x0F, f := 0x4F, pc := 0x100 }
        0x100 0x80)).1.a = (0xF1 + 0x0F) % 256 ∧
    (cpu_execute_inst
      (memory_write_8 { Machine.initial with a := 0xF1, b := 0x0F, f := 0x4F, pc := 0x100 }
        0x100 0x80)).1.f % 16 = 0 :=
  ⟨WF_memory_write_8 _ _ _ (WF_of_blank_memory _ rfl (by decide)), by decide,
    (add_a_r8_contract
      (memory_write_8 { Machine.initial with a := 0xF1, b := 0x0F, f := 0x4F, pc := 0x100 }
        0x100 0x80)
      (WF_memory_write_8 _ _ _ (WF_of_blank_memory _ rfl (by decide)))
      0x80 0x0F (Or.inl ⟨rfl, rfl⟩) (by decide)).1,
    (add_a_r8_contract
      (memory_write_8 { Machine.initial with a := 0xF1, b := 0x0F, f := 0x4F, pc := 0x100 }
        0x100 0x80)
      (WF_memory_write_8 _ _ _ (WF_of_blank_memory _ rfl (by decide)))
      0x80 0x0F (Or.inl ⟨rfl, rfl⟩) (by decide)).2.2.2.2.2.1⟩

/-! ## C4: compare -/

theorem cp_flags_gen (f : Nat) (PZ PH PC : Prop) [Decidable PZ] [Decidable PH]
    [Decidable PC] :
    let f1 := SET_BIT f FLAG_N
    let f2 := if PZ then SET_BIT f1 FLAG_Z else CLEAR_BIT f1 FLAG_Z
    let f3 := if PH then SET_BIT f2 FLAG_H else CLEAR_BIT f2 FLAG_H
    let f4 := if PC then SET_BIT f3 FLAG_C else CLEAR_BIT f3 FLAG_C
    CHECK_BIT f4 FLAG_N = 1 ∧ (CHECK_BIT f4 FLAG_Z = 1 ↔ PZ) ∧
      (CHECK_BIT f4 FLAG_H = 1 ↔ PH) ∧ (CHECK_BIT f4 FLAG_C = 1 ↔ PC) := by
  intro f1 f2 f3 f4
  simp only [f4, f3, f2, f1]
  split_ifs <;>
    simp [CHECK_BIT_SET_BIT, CHECK_BIT_CLEAR_BIT, FLAG_Z, FLAG_N, FLAG_H, FLAG_C, *]

/-- On bytes the difference fits an `int16_t`: the round trip through `int16_t` is the
identity on the `int` difference. -/
theorem int16_cast_int_sub (a n : Nat) (ha : a < 256) (hn : n < 256) :
    int16_cast (int_sub a n) = int_sub a n := by
  unfold int16_cast int_sub
  norm_num
  split <;> omega

theorem int_sub_eq_zero_iff (a n : Nat) (ha : a < 256) (hn : n < 256) :
    int_sub a n = 0 ↔ a = n := by
  unfold int_sub
  norm_num
  omega

theorem int_neg_int_sub_iff (a n : Nat) (ha : a < 256) (hn : n < 256) :
    int_neg (int_sub a n) = true ↔ a < n := by
  unfold int_neg int_sub
  norm_num
  omega

/-- The bit pattern `int_sub a n` is the two's-complement representation of `a - n`. -/
theorem int_sub_twos_complement (a n : Nat) :
    ((int_sub a n : Nat) : Int) = ((a : Int) - (n : Int)) % 2 ^ 32 := by
  unfold int_sub
  norm_num
  omega

/-- The bit pattern `int_not a` is the two's-complement representation of `-a - 1`. -/
theorem int_not_twos_complement (a : Nat) :
    ((int_not a : Nat) : Int) = (-(a : Int) - 1) % 2 ^ 32 := by
  unfold int_not
  norm_num
  omega

/-- C4. CP nn (0xFE) with immediate byte `n` and accumulator `a`, `d = a - n` as a signed
integer: the accumulator is still `a`; Subtract is set; Zero is set iff `a = n`; Carry is
set iff `a < n`; Half-Carry is set iff `(d & ~a) & 0xF` is non-zero, `d` and `~a` being
the two's-complement patterns of `a - n` and `-a - 1`; PC has advanced by 2 (as a 16-bit
counter) and the step returns 8 cycles. CP A (0xBF) always gives Zero = 1, Subtract = 1,
Half-Carry = 0, Carry = 0. -/
theorem cp_contract (s : Machine) (hwf : s.WF) :
    (memory_read_8 s s.pc = 0xFE → ∀ n, n = memory_read_8 s (s.pc + 1) →
      (cpu_execute_inst s).1.a = s.a ∧
      CHECK_BIT (cpu_execute_inst s).1.f FLAG_N = 1 ∧
      (CHECK_BIT (cpu_execute_inst s).1.f FLAG_Z = 1 ↔ s.a = n) ∧
      (CHECK_BIT (cpu_execute_inst s).1.f FLAG_C = 1 ↔ s.a < n) ∧
      ((int_sub s.a n : Int) = ((s.a : Int) - (n : Int)) % 2 ^ 32) ∧
      ((int_not s.a : Int) = (-(s.a : Int) - 1) % 2 ^ 32) ∧
      (CHECK_BIT (cpu_execute_inst s).1.f FLAG_H = 1 ↔
        (int_sub s.a n &&& int_not s.a) &&& 0xF ≠ 0) ∧
      (cpu_execute_inst s).1.pc = (s.pc + 2) % 65536 ∧
      (cpu_execute_inst s).2 = 8) ∧
    (memory_read_8 s s.pc = 0xBF →
      CHECK_BIT (cpu_execute_inst s).1.f FLAG_Z = 1 ∧
      CHECK_BIT (cpu_execute_inst s).1.f FLAG_N = 1 ∧
      CHECK_BIT (cpu_execute_inst s).1.f FLAG_H = 0 ∧
      CHECK_BIT (cpu_execute_inst s).1.f FLAG_C = 0) := by
  have hnot : ∀ {p : Prop} {x : Nat}, (CHECK_BIT x FLAG_H = 1 ↔ p) → ¬ p →
      CHECK_BIT x FLAG_H = 0 := by
    intro p x h hp
    rcases CHECK_BIT_zero_or_one x FLAG_H with h0 | h1
    · exact h0
    · exact absurd (h.1 h1) hp
  have hnotc : ∀ {p : Prop} {x : Nat}, (CHECK_BIT x FLAG_C = 1 ↔ p) → ¬ p →
      CHECK_BIT x FLAG_C = 0 := by
    intro p x h hp
    rcases CHECK_BIT_zero_or_one x FLAG_C with h0 | h1
    · exact h0
    · exact absurd (h.1 h1) hp
  constructor
  · intro hop n hn
    have hn256 : n < 256 := by rw [hn]; exact hwf.mem_lt _
    rw [cpu_execute_inst_eq s _ hop]
    have h := cp_flags_gen s.f (int16_cast (int_sub s.a (memory_read_8 s (s.pc + 1))) = 0)
      (HAS_HALF_CARRY_ON_SUB s.a (int16_cast (int_sub s.a (memory_read_8 s (s.pc + 1)))) ≠ 0)
      (int_neg (int16_cast (int_sub s.a (memory_read_8 s (s.pc + 1)))) = true)
    have hcast : int16_cast (int_sub s.a (memory_read_8 s (s.pc + 1))) = int_sub s.a n := by
      rw [← hn]; exact int16_cast_int_sub s.a n hwf.a_lt hn256
    have hz : int16_cast (int_sub s.a (memory_read_8 s (s.pc + 1))) = 0 ↔ s.a = n := by
      rw [hcast]; exact int_sub_eq_zero_iff s.a n hwf.a_lt hn256
    have hc : int_neg (int16_cast (int_sub s.a (memory_read_8 s (s.pc + 1)))) = true ↔
        s.a < n := by
      rw [hcast]; exact int_neg_int_sub_iff s.a n hwf.a_lt hn256
    have hh : HAS_HALF_CARRY_ON_SUB s.a
          (int16_cast (int_sub s.a (memory_read_8 s (s.pc + 1)))) ≠ 0 ↔
        (int_sub s.a n &&& int_not s.a) &&& 0xF ≠ 0 := by
      rw [hcast]; exact Iff.rfl
    exact ⟨rfl, h.1, h.2.1.trans hz, h.2.2.2.trans hc,
      int_sub_twos_complement s.a n, int_not_twos_complement s.a,
      h.2.2.1.trans hh, rfl, rfl⟩
  · intro hop
    rw [cpu_execute_inst_eq s _ hop]
    have h := cp_flags_gen s.f (int16_cast (int_sub s.a s.a) = 0)
      (HAS_HALF_CARRY_ON_SUB s.a (int16_cast (int_sub s.a s.a)) ≠ 0)
      (int_neg (int16_cast (int_sub s.a s.a)) = true)
    have hcast : int16_cast (int_sub s.a s.a) = 0 := by
      rw [int16_cast_int_sub s.a s.a hwf.a_lt hwf.a_lt]
      exact (int_sub_eq_zero_iff s.a s.a hwf.a_lt hwf.a_lt).2 rfl
    have hh : ¬ (HAS_HALF_CARRY_ON_SUB s.a (int16_cast (int_sub s.a s.a)) ≠ 0) := by
      rw [hcast]; simp [HAS_HALF_CARRY_ON_SUB]
    have hc : ¬ (int_neg (int16_cast (int_sub s.a s.a)) = true) := by
      rw [hcast]; decide
    exact ⟨h.2.1.2 hcast, h.1, hnot h.2.2.1 hh, hnotc h.2.2.2 hc⟩

/-- CP 0x10 at `pc = 0x100` with `A = 0x05` (so `a < n`): Carry is set, Zero is clear,
Subtract is set and the accumulator is untouched; CP A at `pc = 0x100` clears Carry and
Half-Carry and sets Zero and Subtract whatever the flags were. -/
theorem cp_contract_witness :
    ((memory_write_8 (memory_write_8 { Machine.initial with a := 0x05, pc := 0x100 }
        0x100 0xFE) 0x101 0x10).WF ∧
      (cpu_execute_inst (memory_write_8 (memory_write_8
        { Machine.initial with a := 0x05, pc := 0x100 } 0x100 0xFE) 0x101 0x10)).1.a = 0x05 ∧
      CHECK_BIT (cpu_execute_inst (memory_write_8 (memory_write_8
        { Machine.initial with a := 0x05, pc := 0x100 } 0x100 0xFE) 0x101 0x10)).1.f
        FLAG_N = 1 ∧
      CHECK_BIT (cpu_execute_inst (memory_write_8 (memory_write_8
        { Machine.initial with a := 0x05, pc := 0x100 } 0x100 0xFE) 0x101 0x10)).1.f
        FLAG_C = 1) ∧
    ((memory_write_8 { Machine.initial with a := 0x42, f := 0x30, pc := 0x100 }
        0x100 0xBF).WF ∧
      CHECK_BIT (cpu_execute_inst (memory_write_8
        { Machine.initial with a := 0x42, f := 0x30, pc := 0x100 } 0x100 0xBF)).1.f
        FLAG_Z = 1 ∧
      CHECK_BIT (cpu_execute_inst (memory_write_8
        { Machine.initial with a := 0x42, f := 0x30, pc := 0x100 } 0x100 0xBF)).1.f
        FLAG_N = 1 ∧
      CHECK_BIT (cpu_execute_inst (memory_write_8
        { Machine.initial with a := 0x42, f := 0x30, pc := 0x100 } 0x100 0xBF)).1.f
        FLAG_H = 0 ∧
      CHECK_BIT (cpu_execute_inst (memory_write_8
        { Machine.initial with a := 0x42, f := 0x30, pc := 0x100 } 0x100 0xBF)).1.f
        FLAG_C = 0) :=
  ⟨⟨WF_memory_write_8 _ _ _ (WF_memory_write_8 _ _ _ (WF_of_blank_memory _ rfl (by decide))),
      ((cp_contract _
        (WF_memory_write_8 _ _ _
          (WF_memory_write_8 _ _ _ (WF_of_blank_memory _ rfl (by decide))))).1
        (by decide) 0x10 (by decide)).1,
      ((cp_contract _
        (WF_memory_write_8 _ _ _
          (WF_memory_write_8 _ _ _ (WF_of_blank_memory _ rfl (by decide))))).1
        (by decide) 0x10 (by decide)).2.1,
      ((cp_contract _
        (WF_memory_write_8 _ _ _
          (WF_memory_write_8 _ _ _ (WF_of_blank_memory _ rfl (by decide))))).1
        (by decide) 0x10 (by decide)).2.2.2.1.2 (by decide)⟩,
    ⟨WF_memory_write_8 _ _ _ (WF_of_blank_memory _ rfl (by decide)),
      (cp_contract _ (WF_memory_write_8 _ _ _ (WF_of_blank_memory _ rfl (by decide)))).2
        (by decide)⟩⟩

/-! ## C5: logical AND / XOR / OR with the accumulator -/

theorem and_flags_gen (PZ : Prop) [Decidable PZ] :
    let f1 := SET_BIT 0 FLAG_H
    let f2 := if PZ then SET_BIT f1 FLAG_Z else f1
    (CHECK_BIT f2 FLAG_Z = 1 ↔ PZ) ∧ (CHECK_BIT f2 FLAG_H = 1 ↔ true = true) ∧
      CHECK_BIT f2 FLAG_N = 0 ∧ CHECK_BIT f2 FLAG_C = 0 ∧ f2 % 16 = 0 ∧ f2 < 256 := by
  intro f1 f2
  simp only [f2, f1]
  by_cases hZ : PZ <;> simp only [hZ, if_true, if_false, iff_true, iff_false] <;> decide

theorem or_xor_flags_gen (PZ : Prop) [Decidable PZ] :
    let f2 := if PZ then SET_BIT 0 FLAG_Z else 0
    (CHECK_BIT f2 FLAG_Z = 1 ↔ PZ) ∧ (CHECK_BIT f2 FLAG_H = 1 ↔ false = true) ∧
      CHECK_BIT f2 FLAG_N = 0 ∧ CHECK_BIT f2 FLAG_C = 0 ∧ f2 % 16 = 0 ∧ f2 < 256 := by
  intro f2
  simp only [f2]
  by_cases hZ : PZ <;> simp only [hZ, if_true, if_false, iff_true, iff_false] <;> decide

theorem u8_and (a x : Nat) (ha : a < 256) : u8 (a &&& x) = a &&& x :=
  Nat.mod_eq_of_lt (Nat.lt_of_le_of_lt Nat.and_le_left ha)

theorem u8_or (a x : Nat) (ha : a < 256) (hx : x < 256) : u8 (a ||| x) = a ||| x :=
  Nat.mod_eq_of_lt (Nat.or_lt_two_pow (n := 8) ha hx)

theorem u8_xor (a x : Nat) (ha : a < 256) (hx : x < 256) : u8 (a ^^^ x) = a ^^^ x :=
  Nat.mod_eq_of_lt (Nat.xor_lt_two_pow (n := 8) ha hx)

/-- C5. AND (0xA1 with C, 0xA7 with A, 0xE6 with the immediate byte), XOR (0xA9 with C,
0xAF with A), OR (0xB0 with B, 0xB1 with C): with `x` the operand and `g` the bitwise
operation the opcode names, afterwards `A = g a x` and the flag register is exactly:
Zero set iff the new `A` is 0, Half-Carry set iff the instruction is an AND, Subtract
and Carry clear, low nibble zero. -/
theorem logic_contract (s : Machine) (hwf : s.WF) (op x : Nat) (g : Nat → Nat → Nat)
    (isAnd : Bool)
    (hsel :
      (op = 0xA1 ∧ x = s.c ∧ g = (fun p q => p &&& q) ∧ isAnd = true) ∨
      (op = 0xA7 ∧ x = s.a ∧ g = (fun p q => p &&& q) ∧ isAnd = true) ∨
      (op = 0xE6 ∧ x = memory_read_8 s (s.pc + 1) ∧ g = (fun p q => p &&& q) ∧
        isAnd = true) ∨
      (op = 0xA9 ∧ x = s.c ∧ g = (fun p q => p ^^^ q) ∧ isAnd = false) ∨
      (op = 0xAF ∧ x = s.a ∧ g = (fun p q => p ^^^ q) ∧ isAnd = false) ∨
      (op = 0xB0 ∧ x = s.b ∧ g = (fun p q => p ||| q) ∧ isAnd = false) ∨
      (op = 0xB1 ∧ x = s.c ∧ g = (fun p q => p ||| q) ∧ isAnd = false))
    (hop : memory_read_8 s s.pc = op) :
    (cpu_execute_inst s).1.a = g s.a x ∧
    (CHECK_BIT (cpu_execute_inst s).1.f FLAG_Z = 1 ↔ (cpu_execute_inst s).1.a = 0) ∧
    (CHECK_BIT (cpu_execute_inst s).1.f FLAG_H = 1 ↔ isAnd = true) ∧
    CHECK_BIT (cpu_execute_inst s).1.f FLAG_N = 0 ∧
    CHECK_BIT (cpu_execute_inst s).1.f FLAG_C = 0 ∧
    (cpu_execute_inst s).1.f % 16 = 0 ∧
    (cpu_execute_inst s).1.f < 256 := by
  rcases hsel with ⟨rfl, rfl, rfl, rfl⟩ | ⟨rfl, rfl, rfl, rfl⟩ | ⟨rfl, rfl, rfl, rfl⟩ |
    ⟨rfl, rfl, rfl, rfl⟩ | ⟨rfl, rfl, rfl, rfl⟩ | ⟨rfl, rfl, rfl, rfl⟩ | ⟨rfl, rfl, rfl, rfl⟩
  · rw [cpu_execute_inst_eq s _ hop]
    exact ⟨u8_and s.a s.c hwf.a_lt, and_flags_gen (u8 (s.a &&& s.c) = 0)⟩
  · rw [cpu_execute_inst_eq s _ hop]
    exact ⟨u8_and s.a s.a hwf.a_lt, and_flags_gen (u8 (s.a &&& s.a) = 0)⟩
  · rw [cpu_execute_inst_eq s _ hop]
    exact ⟨u8_and s.a _ hwf.a_lt,
      and_flags_gen (u8 (s.a &&& memory_read_8 s (s.pc + 1)) = 0)⟩
  · rw [cpu_execute_inst_eq s _ hop]
    exact ⟨u8_xor s.a s.c hwf.a_lt hwf.c_lt, or_xor_flags_gen (u8 (s.a ^^^ s.c) = 0)⟩
  · rw [cpu_execute_inst_eq s _ hop]
    exact ⟨(Nat.xor_self s.a).symm, or_xor_flags_gen ((0 : Nat) = 0)⟩
  · rw [cpu_execute_inst_eq s _ hop]
    exact ⟨u8_or s.a s.b hwf.a_lt hwf.b_lt, or_xor_flags_gen (u8 (s.a ||| s.b) = 0)⟩
  · rw [cpu_execute_inst_eq s _ hop]
    exact ⟨u8_or s.a s.c hwf.a_lt hwf.c_lt, or_xor_flags_gen (u8 (s.a ||| s.c) = 0)⟩

/-- AND 0x0F at `pc = 0x100` with `A = 0xF0`: the result is 0, so the flag register holds
Zero and Half-Carry only; the step is taken from a state with all flag bits set. -/
theorem logic_contract_witness :
    (memory_write_8 (memory_write_8 { Machine.initial with a := 0xF0, f := 0xFF, pc := 0x100 }
        0x100 0xE6) 0x101 0x0F).WF ∧
    memory_read_8 (memory_write_8 (memory_write_8
        { Machine.initial with a := 0xF0, f := 0xFF, pc := 0x100 } 0x100 0xE6) 0x101 0x0F)
      0x100 = 0xE6 ∧
    (cpu_execute_inst (memory_write_8 (memory_write_8
        { Machine.initial with a := 0xF0, f := 0xFF, pc := 0x100 } 0x100 0xE6)
        0x101 0x0F)).1.a = 0xF0 &&& 0x0F ∧
    CHECK_BIT (cpu_execute_inst (memory_write_8 (memory_write_8
        { Machine.initial with a := 0xF0, f := 0xFF, pc := 0x100 } 0x100 0xE6)
        0x101 0x0F)).1.f FLAG_H = 1 ∧
    CHECK_BIT (cpu_execute_inst (memory_write_8 (memory_write_8
        { Machine.initial with a := 0xF0, f := 0xFF, pc := 0x100 } 0x100 0xE6)
        0x101 0x0F)).1.f FLAG_C = 0 :=
  ⟨WF_memory_write_8 _ _ _ (WF_memory_write_8 _ _ _ (WF_of_blank_memory _ rfl (by decide))),
    by decide,
    (logic_contract _
      (WF_memory_write_8 _ _ _ (WF_memory_write_8 _ _ _ (WF_of_blank_memory _ rfl (by decide))))
      0xE6 0x0F (fun p q => p &&& q) true
      (Or.inr (Or.inr (Or.inl ⟨rfl, by decide, rfl, rfl⟩))) (by decide)).1,
    (logic_contract _
      (WF_memory_write_8 _ _ _ (WF_memory_write_8 _ _ _ (WF_of_blank_memory _ rfl (by decide))))
      0xE6 0x0F (fun p q => p &&& q) true
      (Or.inr (Or.inr (Or.inl ⟨rfl, by decide, rfl, rfl⟩))) (by decide)).2.2.1.2 rfl,
    (logic_contract _
      (WF_memory_write_8 _ _ _ (WF_memory_write_8 _ _ _ (WF_of_blank_memory _ rfl (by decide))))
      0xE6 0x0F (fun p q => p &&& q) true
      (Or.inr (Or.inr (Or.inl ⟨rfl, by decide, rfl, rfl⟩))) (by decide)).2.2.2.2.1⟩

/-! ## C6: unconditional relative jump -/

/-- The program counter computed by the two statements `pc += (int8_t)d; pc += 2;`. -/
theorem jr_target (p d : Nat) (hd : d < 256) :
    ((u16 (u16 (int_add p (int8_cast d)) + 2) : Nat) : Int) =
      ((p : Int) + 2 + (if d < 128 then (d : Int) else (d : Int) - 256)) % 65536 := by
  unfold u16 int_add int8_cast
  norm_num
  split <;> omega

/-- C6. JR (0x18) at `PC = p` with displacement byte `d` at `p + 1`: afterwards
`PC = (p + 2 + signed8(d)) mod 65536`, the step returns 12 cycles, and no other register,
no flag, no memory cell changes (nor does the running state); with `d = 0xFE` (-2) the
PC is unchanged after the step. -/
theorem jr_contract (s : Machine) (hwf : s.WF) (hop : memory_read_8 s s.pc = 0x18) :
    ∀ d, d = memory_read_8 s (s.pc + 1) →
    (((cpu_execute_inst s).1.pc : Int) =
      ((s.pc : Int) + 2 + (if d < 128 then (d : Int) else (d : Int) - 256)) % 65536) ∧
    (cpu_execute_inst s).2 = 12 ∧
    (cpu_execute_inst s).1.a = s.a ∧ (cpu_execute_inst s).1.f = s.f ∧
    (cpu_execute_inst s).1.b = s.b ∧ (cpu_execute_inst s).1.c = s.c ∧
    (cpu_execute_inst s).1.d = s.d ∧ (cpu_execute_inst s).1.e = s.e ∧
    (cpu_execute_inst s).1.h = s.h ∧ (cpu_execute_inst s).1.l = s.l ∧
    (cpu_execute_inst s).1.sp = s.sp ∧ (cpu_execute_inst s).1.ime = s.ime ∧
    (cpu_execute_inst s).1.memory = s.memory ∧
    (cpu_execute_inst s).1.running = s.running ∧
    (d = 0xFE → (cpu_execute_inst s).1.pc = s.pc) := by
  intro d hd
  have hd256 : d < 256 := by rw [hd]; exact hwf.mem_lt _
  have hpc : ((cpu_execute_inst s).1.pc : Int) =
      ((s.pc : Int) + 2 + (if d < 128 then (d : Int) else (d : Int) - 256)) % 65536 := by
    rw [cpu_execute_inst_eq s _ hop]
    show ((u16 (u16 (int_add s.pc (int8_cast (memory_read_8 s (s.pc + 1)))) + 2) : Nat)
      : Int) = _
    rw [← hd]
    exact jr_target s.pc d hd256
  refine ⟨hpc, ?_, ?_, ?_, ?_, ?_, ?_, ?_, ?_, ?_, ?_, ?_, ?_, ?_, ?_⟩
  all_goals first
    | (rw [cpu_execute_inst_eq s _ hop]; rfl)
    | (intro hfe
       subst hfe
       have hlt := hwf.pc_lt
       simp only [show ¬ ((254 : Nat) < 128) by decide, if_false] at hpc
       omega)

/-- JR with displacement 0xFE at `pc = 0x150`: a self-loop, PC is 0x150 again and the step
costs 12 cycles. -/
theorem jr_contract_witness :
    (memory_write_8 (memory_write_8 { Machine.initial with pc := 0x150 } 0x150 0x18)
      0x151 0xFE).WF ∧
    memory_read_8 (memory_write_8 (memory_write_8 { Machine.initial with pc := 0x150 }
      0x150 0x18) 0x151 0xFE) 0x150 = 0x18 ∧
    (cpu_execute_inst (memory_write_8 (memory_write_8 { Machine.initial with pc := 0x150 }
      0x150 0x18) 0x151 0xFE)).2 = 12 ∧
    (cpu_execute_inst (memory_write_8 (memory_write_8 { Machine.initial with pc := 0x150 }
      0x150 0x18) 0x151 0xFE)).1.pc = 0x150 :=
  ⟨WF_memory_write_8 _ _ _ (WF_memory_write_8 _ _ _ (WF_of_blank_memory _ rfl (by decide))),
    by decide,
    (jr_contract _
      (WF_memory_write_8 _ _ _ (WF_memory_write_8 _ _ _ (WF_of_blank_memory _ rfl (by decide))))
      (by decide) 0xFE (by decide)).2.1,
    (jr_contract _
      (WF_memory_write_8 _ _ _ (WF_memory_write_8 _ _ _ (WF_of_blank_memory _ rfl (by decide))))
      (by decide) 0xFE (by decide)).2.2.2.2.2.2.2.2.2.2.2.2.2.2 rfl⟩

/-! ## C7: conditional control transfers -/

theorem CHECK_BIT_ne_zero_iff (x m : Nat) : CHECK_BIT x m ≠ 0 ↔ CHECK_BIT x m = 1 := by
  rcases CHECK_BIT_zero_or_one x m with h | h <;> simp [h]

/-- A conditional relative jump whose switch case is `if c then taken else not taken`. -/
theorem cond_jr_step (s : Machine) (hwf : s.WF) (op : Nat) (c : Prop) [Decidable c]
    (hop : memory_read_8 s s.pc = op)
    (hex : exec_inst s op =
      if c then
        ({ s with pc := u16 (u16 (int_add s.pc (int8_cast (memory_read_8 s (s.pc + 1)))) + 2) },
          12)
      else ({ s with pc := u16 (s.pc + 2) }, 8)) :
    (c → (cpu_execute_inst s).2 = 12 ∧
      ∀ d, d = memory_read_8 s (s.pc + 1) →
        (((cpu_execute_inst s).1.pc : Int) =
          ((s.pc : Int) + 2 + (if d < 128 then (d : Int) else (d : Int) - 256)) % 65536)) ∧
    (¬ c → (cpu_execute_inst s).2 = 8 ∧ (cpu_execute_inst s).1.pc = (s.pc + 2) % 65536 ∧
      (cpu_execute_inst s).1.sp = s.sp ∧ (cpu_execute_inst s).1.memory = s.memory) := by
  rw [cpu_execute_inst_eq s _ hop, hex]
  constructor
  · intro hc
    rw [if_pos hc]
    refine ⟨rfl, ?_⟩
    intro d hd
    rw [hd]
    exact jr_target s.pc _ (hwf.mem_lt _)
  · intro hc
    rw [if_neg hc]
    exact ⟨rfl, rfl, rfl, rfl⟩

theorem jp_z_step (s : Machine) (hop : memory_read_8 s s.pc = 0xCA) :
    (CHECK_BIT s.f FLAG_Z ≠ 0 → (cpu_execute_inst s).2 = 16 ∧
      (cpu_execute_inst s).1.pc = memory_read_16 s (s.pc + 1)) ∧
    (¬ CHECK_BIT s.f FLAG_Z ≠ 0 → (cpu_execute_inst s).2 = 12 ∧
      (cpu_execute_inst s).1.pc = (s.pc + 3) % 65536 ∧
      (cpu_execute_inst s).1.sp = s.sp ∧ (cpu_execute_inst s).1.memory = s.memory) := by
  have hex : exec_inst s 0xCA =
      if CHECK_BIT s.f FLAG_Z ≠ 0 then ({ s with pc := memory_read_16 s (s.pc + 1) }, 16)
      else ({ s with pc := u16 (s.pc + 3) }, 12) := rfl
  rw [cpu_execute_inst_eq s _ hop, hex]
  constructor
  · intro hc
    rw [if_pos hc]
    exact ⟨rfl, rfl⟩
  · intro hc
    rw [if_neg hc]
    exact ⟨rfl, rfl, rfl, rfl⟩

/-- The stack pointer after the taken branch of a conditional CALL, for any new value `v`
of SP. -/
theorem call_taken_sp (s : Machine) (v w p n k m : Nat) :
    (({ (({ memory_write_16 { s with sp := v } v w with pc := p }, n) : Machine × Nat).1 with
          nb_exec_inst := k }, m) : Machine × Nat).1.sp = v := by
  show (memory_write_16 { s with sp := v } v w).sp = v
  rw [memory_write_16_sp]

theorem call_nz_step (s : Machine) (hop : memory_read_8 s s.pc = 0xC4) :
    (CHECK_BIT s.f FLAG_Z = 0 → (cpu_execute_inst s).2 = 24 ∧
      (cpu_execute_inst s).1.pc = memory_read_16 s (s.pc + 1) ∧
      (cpu_execute_inst s).1.sp = (s.sp + 65534) % 65536) ∧
    (¬ CHECK_BIT s.f FLAG_Z = 0 → (cpu_execute_inst s).2 = 12 ∧
      (cpu_execute_inst s).1.pc = (s.pc + 3) % 65536 ∧
      (cpu_execute_inst s).1.sp = s.sp ∧ (cpu_execute_inst s).1.memory = s.memory) := by
  have hex : exec_inst s 0xC4 =
      if CHECK_BIT s.f FLAG_Z = 0 then
        ({ memory_write_16 { s with sp := u16 (s.sp + 65534) } (u16 (s.sp + 65534)) (s.pc + 3)
            with pc := memory_read_16 s (s.pc + 1) }, 24)
      else ({ s with pc := u16 (s.pc + 3) }, 12) := rfl
  rw [cpu_execute_inst_eq s _ hop, hex]
  constructor
  · intro hc
    rw [if_pos hc]
    exact ⟨rfl, rfl, call_taken_sp s _ _ _ _ _ _⟩
  · intro hc
    rw [if_neg hc]
    exact ⟨rfl, rfl, rfl, rfl⟩

theorem ret_z_step (s : Machine) (hop : memory_read_8 s s.pc = 0xC8) :
    (CHECK_BIT s.f FLAG_Z ≠ 0 → (cpu_execute_inst s).2 = 20 ∧
      (cpu_execute_inst s).1.pc = memory_read_16 s s.sp ∧
      (cpu_execute_inst s).1.sp = (s.sp + 2) % 65536) ∧
    (¬ CHECK_BIT s.f FLAG_Z ≠ 0 → (cpu_execute_inst s).2 = 8 ∧
      (cpu_execute_inst s).1.pc = (s.pc + 1) % 65536 ∧
      (cpu_execute_inst s).1.sp = s.sp ∧ (cpu_execute_inst s).1.memory = s.memory) := by
  have hex : exec_inst s 0xC8 =
      if CHECK_BIT s.f FLAG_Z ≠ 0 then
        ({ s with pc := memory_read_16 s s.sp, sp := u16 (s.sp + 2) }, 20)
      else ({ s with pc := u16 (s.pc + 1) }, 8) := rfl
  rw [cpu_execute_inst_eq s _ hop, hex]
  constructor
  · intro hc
    rw [if_pos hc]
    exact ⟨rfl, rfl, rfl⟩
  · intro hc
    rw [if_neg hc]
    exact ⟨rfl, rfl, rfl, rfl⟩

/-- When both outcomes of a two-way branch are known, the cycle count tells which one
was taken. -/
theorem cycles_tell_branch (cyc nt tk : Nat) (cond : Prop) (hlt : nt < tk)
    (hT : cond → cyc = tk) (hN : ¬ cond → cyc = nt) :
    (cyc = tk ↔ cond) ∧ (cyc = nt ↔ ¬ cond) := by
  by_cases hc : cond
  · have h := hT hc
    exact ⟨⟨fun _ => hc, fun _ => h⟩, ⟨fun e => by omega, fun n => absurd hc n⟩⟩
  · have h := hN hc
    exact ⟨⟨fun e => by omega, fun c => absurd c hc⟩, ⟨fun _ => hc, fun _ => h⟩⟩

/-- C7. Conditional control transfers JR NZ (0x20), JR Z (0x28), JR NC (0x30), JP Z (0xCA),
CALL NZ (0xC4), RET Z (0xC8), with `cond` the flag condition of the opcode, `len` its
length and `nt` / `tk` its not-taken / taken cycle costs: the taken cost is strictly more
than the not-taken cost; the step returns the taken cost exactly when `cond` holds and the
not-taken cost exactly when it does not; when not taken, PC advances by `len` with SP and
memory unchanged; a taken JR lands at `(PC + 2 + signed8(d)) mod 65536`; a taken JP Z or
CALL NZ lands at the operand word the engine fetched (CALL NZ having moved SP down by 2),
and a taken RET Z at the word it read at SP, moving SP up by 2. -/
theorem cond_transfer_contract (s : Machine) (hwf : s.WF) (op len nt tk : Nat) (cond : Prop)
    (hsel :
      (op = 0x20 ∧ cond = (CHECK_BIT s.f FLAG_Z = 0) ∧ len = 2 ∧ nt = 8 ∧ tk = 12) ∨
      (op = 0x28 ∧ cond = (CHECK_BIT s.f FLAG_Z = 1) ∧ len = 2 ∧ nt = 8 ∧ tk = 12) ∨
      (op = 0x30 ∧ cond = (CHECK_BIT s.f FLAG_C = 0) ∧ len = 2 ∧ nt = 8 ∧ tk = 12) ∨
      (op = 0xCA ∧ cond = (CHECK_BIT s.f FLAG_Z = 1) ∧ len = 3 ∧ nt = 12 ∧ tk = 16) ∨
      (op = 0xC4 ∧ cond = (CHECK_BIT s.f FLAG_Z = 0) ∧ len = 3 ∧ nt = 12 ∧ tk = 24) ∨
      (op = 0xC8 ∧ cond = (CHECK_BIT s.f FLAG_Z = 1) ∧ len = 1 ∧ nt = 8 ∧ tk = 20))
    (hop : memory_read_8 s s.pc = op) :
    nt < tk ∧
    ((cpu_execute_inst s).2 = tk ↔ cond) ∧
    ((cpu_execute_inst s).2 = nt ↔ ¬ cond) ∧
    (¬ cond → (cpu_execute_inst s).1.pc = (s.pc + len) % 65536 ∧
      (cpu_execute_inst s).1.sp = s.sp ∧ (cpu_execute_inst s).1.memory = s.memory) ∧
    (cond → (op = 0x20 ∨ op = 0x28 ∨ op = 0x30) → ∀ d, d = memory_read_8 s (s.pc + 1) →
      (((cpu_execute_inst s).1.pc : Int) =
        ((s.pc : Int) + 2 + (if d < 128 then (d : Int) else (d : Int) - 256)) % 65536)) ∧
    (cond → op = 0xCA → (cpu_execute_inst s).1.pc = memory_read_16 s (s.pc + 1)) ∧
    (cond → op = 0xC4 → (cpu_execute_inst s).1.pc = memory_read_16 s (s.pc + 1) ∧
      (cpu_execute_inst s).1.sp = (s.sp + 65534) % 65536) ∧
    (cond → op = 0xC8 → (cpu_execute_inst s).1.pc = memory_read_16 s s.sp ∧
      (cpu_execute_inst s).1.sp = (s.sp + 2) % 65536) := by
  have hz := CHECK_BIT_ne_zero_iff s.f FLAG_Z
  rcases hsel with ⟨rfl, rfl, rfl, rfl, rfl⟩ | ⟨rfl, rfl, rfl, rfl, rfl⟩ |
    ⟨rfl, rfl, rfl, rfl, rfl⟩ | ⟨rfl, rfl, rfl, rfl, rfl⟩ | ⟨rfl, rfl, rfl, rfl, rfl⟩ |
    ⟨rfl, rfl, rfl, rfl, rfl⟩
  · have h := cond_jr_step s hwf 0x20 (CHECK_BIT s.f FLAG_Z = 0) hop rfl
    have hc := cycles_tell_branch (cpu_execute_inst s).2 8 12 _ (by decide)
      (fun c => (h.1 c).1) (fun c => (h.2 c).1)
    exact ⟨by decide, hc.1, hc.2, fun c => (h.2 c).2, fun c _ => (h.1 c).2,
      fun _ e => absurd e (by decide), fun _ e => absurd e (by decide),
      fun _ e => absurd e (by decide)⟩
  · have h := cond_jr_step s hwf 0x28 (CHECK_BIT s.f FLAG_Z ≠ 0) hop rfl
    have hc := cycles_tell_branch (cpu_execute_inst s).2 8 12 (CHECK_BIT s.f FLAG_Z = 1)
      (by decide) (fun c => (h.1 (hz.2 c)).1) (fun c => (h.2 (mt hz.1 c)).1)
    exact ⟨by decide, hc.1, hc.2, fun c => (h.2 (mt hz.1 c)).2,
      fun c _ => (h.1 (hz.2 c)).2,
      fun _ e => absurd e (by decide), fun _ e => absurd e (by decide),
      fun _ e => absurd e (by decide)⟩
  · have h := cond_jr_step s hwf 0x30 (CHECK_BIT s.f FLAG_C = 0) hop rfl
    have hc := cycles_tell_branch (cpu_execute_inst s).2 8 12 _ (by decide)
      (fun c => (h.1 c).1) (fun c => (h.2 c).1)
    exact ⟨by decide, hc.1, hc.2, fun c => (h.2 c).2, fun c _ => (h.1 c).2,
      fun _ e => absurd e (by decide), fun _ e => absurd e (by decide),
      fun _ e => absurd e (by decide)⟩
  · have h := jp_z_step s hop
    have hc := cycles_tell_branch (cpu_execute_inst s).2 12 16 (CHECK_BIT s.f FLAG_Z = 1)
      (by decide) (fun c => (h.1 (hz.2 c)).1) (fun c => (h.2 (mt hz.1 c)).1)
    exact ⟨by decide, hc.1, hc.2, fun c => (h.2 (mt hz.1 c)).2,
      fun _ e => absurd e (by decide), fun c _ => (h.1 (hz.2 c)).2,
      fun _ e => absurd e (by decide), fun _ e => absurd e (by decide)⟩
  · have h := call_nz_step s hop
    have hc := cycles_tell_branch (cpu_execute_inst s).2 12 24 _ (by decide)
      (fun c => (h.1 c).1) (fun c => (h.2 c).1)
    exact ⟨by decide, hc.1, hc.2, fun c => (h.2 c).2,
      fun _ e => absurd e (by decide), fun _ e => absurd e (by decide),
      fun c _ => (h.1 c).2, fun _ e => absurd e (by decide)⟩
  · have h := ret_z_step s hop
    have hc := cycles_tell_branch (cpu_execute_inst s).2 8 20 (CHECK_BIT s.f FLAG_Z = 1)
      (by decide) (fun c => (h.1 (hz.2 c)).1) (fun c => (h.2 (mt hz.1 c)).1)
    exact ⟨by decide, hc.1, hc.2, fun c => (h.2 (mt hz.1 c)).2,
      fun _ e => absurd e (by decide), fun _ e => absurd e (by decide),
      fun _ e => absurd e (by decide), fun c _ => (h.1 (hz.2 c)).2⟩

/-- CALL NZ at `pc = 0x200` with the Zero flag clear (taken: 24 cycles) and RET Z at
`pc = 0x200` with the Zero flag clear (not taken: 8 cycles, PC advances by 1, SP kept). -/
theorem cond_transfer_contract_witness :
    ((memory_write_8 { Machine.initial with sp := 0xFFFE, pc := 0x200 } 0x200 0xC4).WF ∧
      memory_read_8 (memory_write_8 { Machine.initial with sp := 0xFFFE, pc := 0x200 }
        0x200 0xC4) 0x200 = 0xC4 ∧
      (cpu_execute_inst (memory_write_8 { Machine.initial with sp := 0xFFFE, pc := 0x200 }
        0x200 0xC4)).2 = 24) ∧
    ((memory_write_8 { Machine.initial with sp := 0xFFFE, pc := 0x200 } 0x200 0xC8).WF ∧
      memory_read_8 (memory_write_8 { Machine.initial with sp := 0xFFFE, pc := 0x200 }
        0x200 0xC8) 0x200 = 0xC8 ∧
      (cpu_execute_inst (memory_write_8 { Machine.initial with sp := 0xFFFE, pc := 0x200 }
        0x200 0xC8)).2 = 8 ∧
      (cpu_execute_inst (memory_write_8 { Machine.initial with sp := 0xFFFE, pc := 0x200 }
        0x200 0xC8)).1.pc = (0x200 + 1) % 65536 ∧
      (cpu_execute_inst (memory_write_8 { Machine.initial with sp := 0xFFFE, pc := 0x200 }
        0x200 0xC8)).1.sp = 0xFFFE) :=
  ⟨⟨WF_memory_write_8 _ _ _ (WF_of_blank_memory _ rfl (by decide)), by decide,
      (cond_transfer_contract
        (memory_write_8 { Machine.initial with sp := 0xFFFE, pc := 0x200 } 0x200 0xC4)
        (WF_memory_write_8 _ _ _ (WF_of_blank_memory _ rfl (by decide)))
        0xC4 3 12 24 (CHECK_BIT 0 FLAG_Z = 0)
        (Or.inr (Or.inr (Or.inr (Or.inr (Or.inl ⟨rfl, rfl, rfl, rfl, rfl⟩)))))
        (by decide)).2.1.2 (by decide)⟩,
    ⟨WF_memory_write_8 _ _ _ (WF_of_blank_memory _ rfl (by decide)), by decide,
      (cond_transfer_contract
        (memory_write_8 { Machine.initial with sp := 0xFFFE, pc := 0x200 } 0x200 0xC8)
        (WF_memory_write_8 _ _ _ (WF_of_blank_memory _ rfl (by decide)))
        0xC8 1 8 20 (CHECK_BIT 0 FLAG_Z = 1)
        (Or.inr (Or.inr (Or.inr (Or.inr (Or.inr ⟨rfl, rfl, rfl, rfl, rfl⟩)))))
        (by decide)).2.2.1.2 (by decide),
      ((cond_transfer_contract
        (memory_write_8 { Machine.initial with sp := 0xFFFE, pc := 0x200 } 0x200 0xC8)
        (WF_memory_write_8 _ _ _ (WF_of_blank_memory _ rfl (by decide)))
        0xC8 1 8 20 (CHECK_BIT 0 FLAG_Z = 1)
        (Or.inr (Or.inr (Or.inr (Or.inr (Or.inr ⟨rfl, rfl, rfl, rfl, rfl⟩)))))
        (by decide)).2.2.2.1 (by decide)).1,
      ((cond_transfer_contract
        (memory_write_8 { Machine.initial with sp := 0xFFFE, pc := 0x200 } 0x200 0xC8)
        (WF_memory_write_8 _ _ _ (WF_of_blank_memory _ rfl (by decide)))
        0xC8 1 8 20 (CHECK_BIT 0 FLAG_Z = 1)
        (Or.inr (Or.inr (Or.inr (Or.inr (Or.inr ⟨rfl, rfl, rfl, rfl, rfl⟩)))))
        (by decide)).2.2.2.1 (by decide)).2.1⟩⟩

/-! ## C8: PUSH BC / POP BC round trip -/

/-- The switch case of PUSH BC. -/
theorem exec_push_bc (s : Machine) :
    exec_inst s 0xC5 =
      (let s1 : Machine := { s with sp := u16 (s.sp + 65534) }
       let s2 := memory_write_16 s1 s1.sp s1.bc
       ({ s2 with pc := u16 (s2.pc + 1) }, 16)) := rfl

/-- The switch case of PUSH BC for any new value `v` of SP. -/
theorem push_bc_effect_gen (s : Machine) (v k m : Nat) :
    (({ (let s1 : Machine := { s with sp := v }
         let s2 := memory_write_16 s1 s1.sp s1.bc
         (({ s2 with pc := u16 (s2.pc + 1) }, 16) : Machine × Nat)).1 with
          nb_exec_inst := k }, m) : Machine × Nat).1.sp = v ∧
    (({ (let s1 : Machine := { s with sp := v }
         let s2 := memory_write_16 s1 s1.sp s1.bc
         (({ s2 with pc := u16 (s2.pc + 1) }, 16) : Machine × Nat)).1 with
          nb_exec_inst := k }, m) : Machine × Nat).1.memory =
      (memory_write_16 { s with sp := v } v s.bc).memory := by
  dsimp only
  rw [memory_write_16_sp, bc_with_sp]
  exact ⟨rfl, rfl⟩

/-- The stack pointer and the memory after PUSH BC. -/
theorem push_bc_effect (s : Machine) (hop : memory_read_8 s s.pc = 0xC5) :
    (cpu_execute_inst s).1.sp = u16 (s.sp + 65534) ∧
    (cpu_execute_inst s).1.memory =
      (memory_write_16 { s with sp := u16 (s.sp + 65534) } (u16 (s.sp + 65534)) s.bc).memory := by
  rw [cpu_execute_inst_eq s _ hop, exec_push_bc]
  exact push_bc_effect_gen s _ _ _

/-- The state after POP BC. -/
theorem pop_bc_step (s : Machine) (hop : memory_read_8 s s.pc = 0xC1) :
    (cpu_execute_inst s).1 =
      { s with b := u16 (memory_read_16 s s.sp) / 256, c := u16 (memory_read_16 s s.sp) % 256,
               sp := u16 (s.sp + 2), pc := u16 (s.pc + 1),
               nb_exec_inst := u64 (s.nb_exec_inst + 1) } := by
  rw [cpu_execute_inst_eq s _ hop]
  rfl

/-- C8, as amended. PUSH BC (0xC5) followed by POP BC (0xC1), both opcodes actually being
fetched: the stack pointer is back at its initial value `s` whatever `s` was, and for
every stack pointer value `s ≥ 2` the pair BC holds its initial value again. -/
theorem push_pop_bc_roundtrip (s : Machine) (hwf : s.WF)
    (hpush : memory_read_8 s s.pc = 0xC5)
    (hpop : memory_read_8 (cpu_execute_inst s).1 (cpu_execute_inst s).1.pc = 0xC1) :
    (cpu_execute_inst (cpu_execute_inst s).1).1.sp = s.sp ∧
    (2 ≤ s.sp →
      (cpu_execute_inst (cpu_execute_inst s).1).1.bc = s.bc ∧
      (cpu_execute_inst (cpu_execute_inst s).1).1.b = s.b ∧
      (cpu_execute_inst (cpu_execute_inst s).1).1.c = s.c) := by
  have hb := hwf.b_lt
  have hc := hwf.c_lt
  have hsp := hwf.sp_lt
  obtain ⟨hsp1, hmem1⟩ := push_bc_effect s hpush
  have hbc : u16 s.bc = s.bc := by
    unfold u16 Machine.bc; omega
  have e1 : s.bc / 256 = s.b := by unfold Machine.bc; omega
  have e2 : s.bc % 256 = s.c := by unfold Machine.bc; omega
  rw [pop_bc_step _ hpop]
  unfold Machine.bc
  dsimp only
  rw [hsp1]
  constructor
  · unfold u16; omega
  · intro h2
    have hlt : u16 (s.sp + 65534) < 0xFFFE := by unfold u16; omega
    have hrd : memory_read_16 (cpu_execute_inst s).1 (u16 (s.sp + 65534)) = s.bc := by
      rw [memory_read_16_in_range _ _ hlt, hmem1, memory_write_16_memory _ _ _ hlt, hbc]
      simp only [if_true, Nat.succ_ne_self, if_false]
      have := Nat.div_add_mod' s.bc 256
      omega
    rw [hrd, hbc, e1, e2]
    exact ⟨rfl, rfl, rfl⟩

/-- PUSH BC at 0x100 and POP BC at 0x101 with `BC = 0x1234` and `SP = 0xFFFE`: both
opcodes are fetched, and afterwards `BC = 0x1234` and `SP = 0xFFFE`. -/
theorem push_pop_bc_roundtrip_witness :
    (memory_write_8 (memory_write_8
      { Machine.initial with b := 0x12, c := 0x34, sp := 0xFFFE, pc := 0x100 }
      0x100 0xC5) 0x101 0xC1).WF ∧
    (cpu_execute_inst (cpu_execute_inst (memory_write_8 (memory_write_8
      { Machine.initial with b := 0x12, c := 0x34, sp := 0xFFFE, pc := 0x100 }
      0x100 0xC5) 0x101 0xC1)).1).1.sp = 0xFFFE ∧
    (cpu_execute_inst (cpu_execute_inst (memory_write_8 (memory_write_8
      { Machine.initial with b := 0x12, c := 0x34, sp := 0xFFFE, pc := 0x100 }
      0x100 0xC5) 0x101 0xC1)).1).1.bc = 0x1234 :=
  ⟨WF_memory_write_8 _ _ _ (WF_memory_write_8 _ _ _ (WF_of_blank_memory _ rfl (by decide))),
    (push_pop_bc_roundtrip _
      (WF_memory_write_8 _ _ _ (WF_memory_write_8 _ _ _ (WF_of_blank_memory _ rfl (by decide))))
      (by decide) (by decide)).1,
    ((push_pop_bc_roundtrip _
      (WF_memory_write_8 _ _ _ (WF_memory_write_8 _ _ _ (WF_of_blank_memory _ rfl (by decide))))
      (by decide) (by decide)).2 (by decide)).1⟩

/-- C8, counterexample. With `BC = 0x1234` and `SP = 1`, PUSH BC at 0x100 followed by
POP BC at 0x101 (both fetched): the push moves SP to 0xFFFF, where the 16-bit write is
rejected by the range guard of `memory_write`; the pop reads at 0xFFFF, where the 16-bit
read is rejected too and yields 0. BC ends as 0, not 0x1234. -/
theorem push_pop_bc_not_restored_at_sp_1 :
    (memory_write_8 (memory_write_8
      { Machine.initial with b := 0x12, c := 0x34, sp := 1, pc := 0x100 }
      0x100 0xC5) 0x101 0xC1).WF ∧
    (memory_write_8 (memory_write_8
      { Machine.initial with b := 0x12, c := 0x34, sp := 1, pc := 0x100 }
      0x100 0xC5) 0x101 0xC1).bc = 0x1234 ∧
    memory_read_8 (memory_write_8 (memory_write_8
      { Machine.initial with b := 0x12, c := 0x34, sp := 1, pc := 0x100 }
      0x100 0xC5) 0x101 0xC1) 0x100 = 0xC5 ∧
    (cpu_execute_inst (memory_write_8 (memory_write_8
      { Machine.initial with b := 0x12, c := 0x34, sp := 1, pc := 0x100 }
      0x100 0xC5) 0x101 0xC1)).1.sp = 0xFFFF ∧
    memory_read_8 (cpu_execute_inst (memory_write_8 (memory_write_8
      { Machine.initial with b := 0x12, c := 0x34, sp := 1, pc := 0x100 }
      0x100 0xC5) 0x101 0xC1)).1
      (cpu_execute_inst (memory_write_8 (memory_write_8
      { Machine.initial with b := 0x12, c := 0x34, sp := 1, pc := 0x100 }
      0x100 0xC5) 0x101 0xC1)).1.pc = 0xC1 ∧
    (cpu_execute_inst (cpu_execute_inst (memory_write_8 (memory_write_8
      { Machine.initial with b := 0x12, c := 0x34, sp := 1, pc := 0x100 }
      0x100 0xC5) 0x101 0xC1)).1).1.bc = 0 ∧
    (cpu_execute_inst (cpu_execute_inst (memory_write_8 (memory_write_8
      { Machine.initial with b := 0x12, c := 0x34, sp := 1, pc := 0x100 }
      0x100 0xC5) 0x101 0xC1)).1).1.bc ≠ 0x1234 :=
  ⟨WF_memory_write_8 _ _ _ (WF_memory_write_8 _ _ _ (WF_of_blank_memory _ rfl (by decide))),
    by decide, by decide, by decide, by decide, by decide, by decide⟩

/-! ## C9: CALL nnnn / RET -/

/-- The switch case of CALL nnnn. -/
theorem exec_call (s : Machine) :
    exec_inst s 0xCD =
      (let call_addr := memory_read_16 s (s.pc + 1)
       let s1 : Machine := { s with sp := u16 (s.sp + 65534) }
       let s2 := memory_write_16 s1 s1.sp (s1.pc + 3)
       ({ s2 with pc := call_addr }, 24)) := rfl

/-- The switch case of CALL nnnn for any new value `v` of SP. -/
theorem call_effect_gen (s : Machine) (v k m : Nat) :
    (({ (let call_addr := memory_read_16 s (s.pc + 1)
         let s1 : Machine := { s with sp := v }
         let s2 := memory_write_16 s1 s1.sp (s1.pc + 3)
         (({ s2 with pc := call_addr }, 24) : Machine × Nat)).1 with
          nb_exec_inst := k }, m) : Machine × Nat).1.sp = v ∧
    (({ (let call_addr := memory_read_16 s (s.pc + 1)
         let s1 : Machine := { s with sp := v }
         let s2 := memory_write_16 s1 s1.sp (s1.pc + 3)
         (({ s2 with pc := call_addr }, 24) : Machine × Nat)).1 with
          nb_exec_inst := k }, m) : Machine × Nat).1.memory =
      (memory_write_16 { s with sp := v } v (s.pc + 3)).memory ∧
    (({ (let call_addr := memory_read_16 s (s.pc + 1)
         let s1 : Machine := { s with sp := v }
         let s2 := memory_write_16 s1 s1.sp (s1.pc + 3)
         (({ s2 with pc := call_addr }, 24) : Machine × Nat)).1 with
          nb_exec_inst := k }, m) : Machine × Nat).1.pc = memory_read_16 s (s.pc + 1) := by
  dsimp only
  rw [memory_write_16_sp]
  exact ⟨rfl, rfl, rfl⟩

/-- The stack pointer, memory, program counter and cycle count after CALL nnnn. -/
theorem call_effect (s : Machine) (hop : memory_read_8 s s.pc = 0xCD) :
    (cpu_execute_inst s).1.sp = u16 (s.sp + 65534) ∧
    (cpu_execute_inst s).1.memory =
      (memory_write_16 { s with sp := u16 (s.sp + 65534) } (u16 (s.sp + 65534))
        (s.pc + 3)).memory ∧
    (cpu_execute_inst s).1.pc = memory_read_16 s (s.pc + 1) ∧
    (cpu_execute_inst s).2 = 24 := by
  rw [cpu_execute_inst_eq s _ hop, exec_call]
  exact ⟨(call_effect_gen s _ _ _).1, (call_effect_gen s _ _ _).2.1,
    (call_effect_gen s _ _ _).2.2, rfl⟩

/-- The program counter, stack pointer and cycle count after RET. -/
theorem ret_effect (s : Machine) (hop : memory_read_8 s s.pc = 0xC9) :
    (cpu_execute_inst s).1.pc = memory_read_16 s s.sp ∧
    (cpu_execute_inst s).1.sp = u16 (s.sp + 2) ∧
    (cpu_execute_inst s).2 = 16 := by
  rw [cpu_execute_inst_eq s _ hop]
  exact ⟨rfl, rfl, rfl⟩

/-- C9, as amended. CALL nnnn (0xCD) at `PC = p` with `SP ≥ 2`, where `p` is neither 0xFFFD
nor 0xFFFE, so that the two operand bytes lie below the range guard of the 16-bit read,
and `nnnn` is the little-endian word formed by the bytes at `p + 1` and `p + 2`:
after the step SP has been decremented by 2; the byte at the new SP is the low byte and the
byte at new SP + 1 the high byte of the return address `(p + 3) mod 65536`; `PC = nnnn`;
the step returns 24 cycles. If the byte then at `nnnn` is RET (0xC9), the following step
sets PC to `(p + 3) mod 65536`, restores SP to its value before the call and returns
16 cycles. -/
theorem call_ret_contract (s : Machine) (hwf : s.WF) (hsp : 2 ≤ s.sp)
    (hop : memory_read_8 s s.pc = 0xCD) (hp : s.pc ≠ 0xFFFD ∧ s.pc ≠ 0xFFFE) :
    (cpu_execute_inst s).1.sp = s.sp - 2 ∧
    (cpu_execute_inst s).1.memory (cpu_execute_inst s).1.sp = (s.pc + 3) % 65536 % 256 ∧
    (cpu_execute_inst s).1.memory ((cpu_execute_inst s).1.sp + 1) =
      (s.pc + 3) % 65536 / 256 ∧
    (cpu_execute_inst s).1.pc =
      memory_read_8 s (s.pc + 1) + 256 * memory_read_8 s (s.pc + 2) ∧
    (cpu_execute_inst s).2 = 24 ∧
    (memory_read_8 (cpu_execute_inst s).1
        (memory_read_8 s (s.pc + 1) + 256 * memory_read_8 s (s.pc + 2)) = 0xC9 →
      (cpu_execute_inst (cpu_execute_inst s).1).1.pc = (s.pc + 3) % 65536 ∧
      (cpu_execute_inst (cpu_execute_inst s).1).1.sp = s.sp ∧
      (cpu_execute_inst (cpu_execute_inst s).1).2 = 16) := by
  have hspl := hwf.sp_lt
  have hpcl := hwf.pc_lt
  obtain ⟨hsp1, hmem1, hpc1, hcyc1⟩ := call_effect s hop
  have hsub : u16 (s.sp + 65534) = s.sp - 2 := by unfold u16; omega
  have hlt : u16 (s.sp + 65534) < 0xFFFE := by unfold u16; omega
  have hret : u16 (s.pc + 3) = (s.pc + 3) % 65536 := rfl
  -- the operand word
  have hopd : memory_read_16 s (s.pc + 1) =
      memory_read_8 s (s.pc + 1) + 256 * memory_read_8 s (s.pc + 2) := by
    have h1 : u16 (s.pc + 1) < 0xFFFE := by unfold u16; omega
    have h2 : u16 (s.pc + 1) + 1 = u16 (s.pc + 2) := by unfold u16; omega
    have h3 : memory_read_16 s (s.pc + 1) = memory_read_16 s (u16 (s.pc + 1)) := by
      unfold memory_read_16 memory_read
      have : u16 (u16 (s.pc + 1)) = u16 (s.pc + 1) := by unfold u16; omega
      rw [this]
    rw [h3, memory_read_16_in_range _ _ h1, h2]
    rfl
  -- the two bytes pushed
  have hlo : (cpu_execute_inst s).1.memory (u16 (s.sp + 65534)) = (s.pc + 3) % 65536 % 256 := by
    rw [hmem1, memory_write_16_memory _ _ _ hlt, hret]
    simp only [if_true]
  have hhi : (cpu_execute_inst s).1.memory (u16 (s.sp + 65534) + 1) =
      (s.pc + 3) % 65536 / 256 := by
    rw [hmem1, memory_write_16_memory _ _ _ hlt, hret]
    simp only [Nat.succ_ne_self, if_false, if_true]
  refine ⟨hsp1.trans hsub, ?_, ?_, hpc1.trans hopd, hcyc1, ?_⟩
  · rw [hsp1]; exact hlo
  · rw [hsp1]; exact hhi
  · intro hbyte
    have hfetch : memory_read_8 (cpu_execute_inst s).1 (cpu_execute_inst s).1.pc = 0xC9 := by
      rw [hpc1, hopd]; exact hbyte
    obtain ⟨hpc2, hsp2, hcyc2⟩ := ret_effect _ hfetch
    refine ⟨?_, ?_, hcyc2⟩
    · rw [hpc2, hsp1, memory_read_16_in_range _ _ hlt, hlo, hhi]
      have := Nat.div_add_mod' ((s.pc + 3) % 65536) 256
      omega
    · rw [hsp2, hsp1]
      unfold u16; omega

/-- CALL 0x0150 at `pc = 0x100` with `SP = 0xFFFE` and a RET at 0x0150: after the call
`SP = 0xFFFC` and `PC = 0x0150`; after the return `PC = 0x103` and `SP = 0xFFFE`. -/
theorem call_ret_contract_witness :
    (memory_write_8 (memory_write_8 (memory_write_8 (memory_write_8
      { Machine.initial with sp := 0xFFFE, pc := 0x100 }
      0x100 0xCD) 0x101 0x50) 0x102 0x01) 0x150 0xC9).WF ∧
    (cpu_execute_inst (memory_write_8 (memory_write_8 (memory_write_8 (memory_write_8
      { Machine.initial with sp := 0xFFFE, pc := 0x100 }
      0x100 0xCD) 0x101 0x50) 0x102 0x01) 0x150 0xC9)).1.sp = 0xFFFE - 2 ∧
    (cpu_execute_inst (cpu_execute_inst (memory_write_8 (memory_write_8 (memory_write_8
      (memory_write_8 { Machine.initial with sp := 0xFFFE, pc := 0x100 }
      0x100 0xCD) 0x101 0x50) 0x102 0x01) 0x150 0xC9)).1).1.pc = (0x100 + 3) % 65536 ∧
    (cpu_execute_inst (cpu_execute_inst (memory_write_8 (memory_write_8 (memory_write_8
      (memory_write_8 { Machine.initial with sp := 0xFFFE, pc := 0x100 }
      0x100 0xCD) 0x101 0x50) 0x102 0x01) 0x150 0xC9)).1).1.sp = 0xFFFE :=
  ⟨WF_memory_write_8 _ _ _ (WF_memory_write_8 _ _ _ (WF_memory_write_8 _ _ _
      (WF_memory_write_8 _ _ _ (WF_of_blank_memory _ rfl (by decide))))),
    (call_ret_contract _
      (WF_memory_write_8 _ _ _ (WF_memory_write_8 _ _ _ (WF_memory_write_8 _ _ _
        (WF_memory_write_8 _ _ _ (WF_of_blank_memory _ rfl (by decide))))))
      (by decide) (by decide) (by decide)).1,
    ((call_ret_contract _
      (WF_memory_write_8 _ _ _ (WF_memory_write_8 _ _ _ (WF_memory_write_8 _ _ _
        (WF_memory_write_8 _ _ _ (WF_of_blank_memory _ rfl (by decide))))))
      (by decide) (by decide) (by decide)).2.2.2.2.2 (by decide)).1,
    ((call_ret_contract _
      (WF_memory_write_8 _ _ _ (WF_memory_write_8 _ _ _ (WF_memory_write_8 _ _ _
        (WF_memory_write_8 _ _ _ (WF_of_blank_memory _ rfl (by decide))))))
      (by decide) (by decide) (by decide)).2.2.2.2.2 (by decide)).2.1⟩

/-- C9, counterexample. CALL 0x1234 with `SP = 0x8000` placed at the top of memory.
At `PC = 0xFFFE` the operand bytes are at 0xFFFF and (wrapping) 0x0000; at `PC = 0xFFFD`
they are at 0xFFFE and 0xFFFF. In both states the opcode fetched is 0xCD and the operand
bytes spell 0x1234, but the 16-bit operand read is rejected by the range guard of
`memory_read` and yields 0: after the step `PC = 0`, not 0x1234. -/
theorem call_operand_at_top_of_memory :
    ((memory_write_8 (memory_write_8 (memory_write_8
        { Machine.initial with sp := 0x8000, pc := 0xFFFE }
        0xFFFE 0xCD) 0xFFFF 0x34) 0x0000 0x12).WF ∧
      2 ≤ (memory_write_8 (memory_write_8 (memory_write_8
        { Machine.initial with sp := 0x8000, pc := 0xFFFE }
        0xFFFE 0xCD) 0xFFFF 0x34) 0x0000 0x12).sp ∧
      memory_read_8 (memory_write_8 (memory_write_8 (memory_write_8
        { Machine.initial with sp := 0x8000, pc := 0xFFFE }
        0xFFFE 0xCD) 0xFFFF 0x34) 0x0000 0x12) 0xFFFE = 0xCD ∧
      memory_read_8 (memory_write_8 (memory_write_8 (memory_write_8
        { Machine.initial with sp := 0x8000, pc := 0xFFFE }
        0xFFFE 0xCD) 0xFFFF 0x34) 0x0000 0x12) (0xFFFE + 1) +
        256 * memory_read_8 (memory_write_8 (memory_write_8 (memory_write_8
        { Machine.initial with sp := 0x8000, pc := 0xFFFE }
        0xFFFE 0xCD) 0xFFFF 0x34) 0x0000 0x12) (0xFFFE + 2) = 0x1234 ∧
      (cpu_execute_inst (memory_write_8 (memory_write_8 (memory_write_8
        { Machine.initial with sp := 0x8000, pc := 0xFFFE }
        0xFFFE 0xCD) 0xFFFF 0x34) 0x0000 0x12)).1.pc = 0) ∧
    ((memory_write_8 (memory_write_8 (memory_write_8
        { Machine.initial with sp := 0x8000, pc := 0xFFFD }
        0xFFFD 0xCD) 0xFFFE 0x34) 0xFFFF 0x12).WF ∧
      2 ≤ (memory_write_8 (memory_write_8 (memory_write_8
        { Machine.initial with sp := 0x8000, pc := 0xFFFD }
        0xFFFD 0xCD) 0xFFFE 0x34) 0xFFFF 0x12).sp ∧
      memory_read_8 (memory_write_8 (memory_write_8 (memory_write_8
        { Machine.initial with sp := 0x8000, pc := 0xFFFD }
        0xFFFD 0xCD) 0xFFFE 0x34) 0xFFFF 0x12) 0xFFFD = 0xCD ∧
      memory_read_8 (memory_write_8 (memory_write_8 (memory_write_8
        { Machine.initial with sp := 0x8000, pc := 0xFFFD }
        0xFFFD 0xCD) 0xFFFE 0x34) 0xFFFF 0x12) (0xFFFD + 1) +
        256 * memory_read_8 (memory_write_8 (memory_write_8 (memory_write_8
        { Machine.initial with sp := 0x8000, pc := 0xFFFD }
        0xFFFD 0xCD) 0xFFFE 0x34) 0xFFFF 0x12) (0xFFFD + 2) = 0x1234 ∧
      (cpu_execute_inst (memory_write_8 (memory_write_8 (memory_write_8
        { Machine.initial with sp := 0x8000, pc := 0xFFFD }
        0xFFFD 0xCD) 0xFFFE 0x34) 0xFFFF 0x12)).1.pc = 0) :=
  ⟨⟨WF_memory_write_8 _ _ _ (WF_memory_write_8 _ _ _ (WF_memory_write_8 _ _ _
      (WF_of_blank_memory _ rfl (by decide)))), by decide, by decide, by decide, by decide⟩,
    ⟨WF_memory_write_8 _ _ _ (WF_memory_write_8 _ _ _ (WF_memory_write_8 _ _ _
      (WF_of_blank_memory _ rfl (by decide)))), by decide, by decide, by decide, by decide⟩⟩

/-! ## C10: loads and stores leave the flag register alone -/

/-- The switch case of LDD (HL),A. -/
theorem exec_ldd_hl_a (s : Machine) :
    exec_inst s 0x32 =
      (let s1 := memory_write_8 s s.hl s.a
       let s2 := s1.set_hl (s1.hl + 65535)
       ({ s2 with pc := u16 (s2.pc + 1) }, 8)) := rfl

/-- The switch case of LDD (HL),A leaves F alone, whatever is stored and whatever HL
becomes. -/
theorem ldd_step_f (s : Machine) (a v w k m : Nat) :
    (({ (let s1 := memory_write_8 s a v
         let s2 := s1.set_hl w
         (({ s2 with pc := u16 (s2.pc + 1) }, 8) : Machine × Nat)).1 with
          nb_exec_inst := k }, m) : Machine × Nat).1.f = s.f := rfl

/-- C10. Every load or store instruction of the implemented set leaves the flag register F
unchanged: the 16-bit immediate loads (0x01, 0x11, 0x21, 0x31), the post-increment /
decrement forms (0x22, 0x2A, 0x32), the 8-bit immediate and register loads (0x06, 0x0E,
0x16, 0x3E, 0x36, 0x40, 0x47, 0x4F, 0x50, 0x5F, 0x78, 0x79, 0x7C, 0x7D, 0x7F), and the
indirect and absolute forms (0x12, 0x1A, 0x56, 0x5E, 0x70, 0x7E, 0xE0, 0xE2, 0xEA, 0xF0,
0xFA). -/
theorem load_store_preserve_flags (s : Machine) (op : Nat)
    (hmem : op ∈ [0x01, 0x11, 0x21, 0x31, 0x22, 0x2A, 0x32,
      0x06, 0x0E, 0x16, 0x3E, 0x36, 0x40, 0x47, 0x4F, 0x50, 0x5F, 0x78, 0x79, 0x7C, 0x7D, 0x7F,
      0x12, 0x1A, 0x56, 0x5E, 0x70, 0x7E, 0xE0, 0xE2, 0xEA, 0xF0, 0xFA])
    (hop : memory_read_8 s s.pc = op) :
    (cpu_execute_inst s).1.f = s.f := by
  rw [cpu_execute_inst_eq s _ hop]
  by_cases hldd : op = 0x32
  · subst hldd
    rw [exec_ldd_hl_a]
    exact ldd_step_f s _ _ _ _ _
  · simp only [List.mem_cons, List.mem_singleton, List.not_mem_nil, or_false] at hmem
    rcases hmem with h | h | h | h | h | h | h | h | h | h | h | h | h | h | h | h | h | h |
      h | h | h | h | h | h | h | h | h | h | h | h | h | h | h <;>
      first
        | exact absurd h hldd
        | (subst h; rfl)

/-- LD (nnnn),A at `pc = 0x100` with operand 0xC000, `A = 0x5A` and `F = 0xB0`: the flag
register is still 0xB0 after the store. -/
theorem load_store_preserve_flags_witness :
    memory_read_8 (memory_write_8 (memory_write_8 (memory_write_8
      { Machine.initial with a := 0x5A, f := 0xB0, pc := 0x100 }
      0x100 0xEA) 0x101 0x00) 0x102 0xC0) 0x100 = 0xEA ∧
    (cpu_execute_inst (memory_write_8 (memory_write_8 (memory_write_8
      { Machine.initial with a := 0x5A, f := 0xB0, pc := 0x100 }
      0x100 0xEA) 0x101 0x00) 0x102 0xC0)).1.f = 0xB0 :=
  ⟨by decide,
    load_store_preserve_flags
      (memory_write_8 (memory_write_8 (memory_write_8
        { Machine.initial with a := 0x5A, f := 0xB0, pc := 0x100 }
        0x100 0xEA) 0x101 0x00) 0x102 0xC0)
      0xEA (by decide) (by decide)⟩

/-! ## The dispatch switch, case by case -/

set_option maxHeartbeats 2000000 in
/-- An opcode that is none of the `case` labels runs the `default` branch. -/
theorem exec_inst_unimplemented (s : Machine) (op : Nat) (h : op ∉ primary_case_labels) :
    exec_inst s op = ({ s with running := false }, 0) := by
  unfold exec_inst
  split
  all_goals first
    | exact absurd (by decide) h
    | rfl

theorem memory_write_16_running (s : Machine) (addr val : Nat) :
    (memory_write_16 s addr val).running = s.running := by
  unfold memory_write_16 memory_write
  split <;> rfl

/-- The second-level switch halts the engine unless the byte is 0x37 or 0x87. -/
theorem handle_cb_inst_running (s : Machine) (inst : Nat) :
    (handle_cb_inst s inst).1.running =
      if inst = 0x37 ∨ inst = 0x87 then s.running else false := by
  unfold handle_cb_inst
  split
  · rfl
  · rfl
  · rename_i h1 h2
    have : ¬ (inst = 0x37 ∨ inst = 0x87) := fun h => h.elim h1 h2
    rw [if_neg this]

theorem handle_cb_inst_pc (s : Machine) (inst : Nat) : (handle_cb_inst s inst).1.pc = s.pc := by
  unfold handle_cb_inst
  split <;> rfl

/-! Switch cases restated for the opcodes whose effect is conditional or goes through a
16-bit decrement. -/

/-- The shape of the state after INC B: only the register, the flags and PC move. -/
theorem exec_inc_b_shape (s : Machine) :
    ∃ v f, exec_inst s 0x04 = ({ s with b := v, f := f, pc := u16 (s.pc + 1) }, 4) :=
  ⟨_, _, rfl⟩

/-- The shape of the state after INC C: only the register, the flags and PC move. -/
theorem exec_inc_c_shape (s : Machine) :
    ∃ v f, exec_inst s 0x0c = ({ s with c := v, f := f, pc := u16 (s.pc + 1) }, 4) :=
  ⟨_, _, rfl⟩

/-- The shape of the state after INC D: only the register, the flags and PC move. -/
theorem exec_inc_d_shape (s : Machine) :
    ∃ v f, exec_inst s 0x14 = ({ s with d := v, f := f, pc := u16 (s.pc + 1) }, 4) :=
  ⟨_, _, rfl⟩

/-- The shape of the state after INC E: only the register, the flags and PC move. -/
theorem exec_inc_e_shape (s : Machine) :
    ∃ v f, exec_inst s 0x1c = ({ s with e := v, f := f, pc := u16 (s.pc + 1) }, 4) :=
  ⟨_, _, rfl⟩

theorem exec_dec_b (s : Machine) :
    exec_inst s 0x05 =
      (let b := u8 (s.b + 255)
       let f := SET_BIT s.f FLAG_N
       let f := if b = 0 then SET_BIT f FLAG_Z else CLEAR_BIT f FLAG_Z
       let f := if HAS_HALF_CARRY_ON_SUB (int_add b 1) b ≠ 0 then SET_BIT f FLAG_H
                else CLEAR_BIT f FLAG_H
       ({ s with b := b, f := f, pc := u16 (s.pc + 1) }, 4)) := rfl

theorem exec_dec_c (s : Machine) :
    exec_inst s 0x0d =
      (let c := u8 (s.c + 255)
       let f := SET_BIT s.f FLAG_N
       let f := if c = 0 then SET_BIT f FLAG_Z else CLEAR_BIT f FLAG_Z
       let f := if HAS_HALF_CARRY_ON_SUB (int_add c 1) c ≠ 0 then SET_BIT f FLAG_H
                else CLEAR_BIT f FLAG_H
       ({ s with c := c, f := f, pc := u16 (s.pc + 1) }, 4)) := rfl

theorem exec_dec_d (s : Machine) :
    exec_inst s 0x15 =
      (let d := u8 (s.d + 255)
       let f := SET_BIT s.f FLAG_N
       let f := if d = 0 then SET_BIT f FLAG_Z else CLEAR_BIT f FLAG_Z
       let f := if HAS_HALF_CARRY_ON_SUB (int_add d 1) d ≠ 0 then SET_BIT f FLAG_H
                else CLEAR_BIT f FLAG_H
       ({ s with d := d, f := f, pc := u16 (s.pc + 1) }, 4)) := rfl

theorem exec_dec_bc (s : Machine) :
    exec_inst s 0x0b =
      (let s1 := s.set_bc (s.bc + 65535)
       ({ s1 with pc := u16 (s1.pc + 1) }, 8)) := rfl

theorem exec_jr_nz (s : Machine) :
    exec_inst s 0x20 =
      if CHECK_BIT s.f FLAG_Z = 0 then
        ({ s with pc := u16 (u16 (int_add s.pc (int8_cast (memory_read_8 s (s.pc + 1)))) + 2) },
          12)
      else ({ s with pc := u16 (s.pc + 2) }, 8) := rfl

theorem exec_jr_z (s : Machine) :
    exec_inst s 0x28 =
      if CHECK_BIT s.f FLAG_Z ≠ 0 then
        ({ s with pc := u16 (u16 (int_add s.pc (int8_cast (memory_read_8 s (s.pc + 1)))) + 2) },
          12)
      else ({ s with pc := u16 (s.pc + 2) }, 8) := rfl

theorem exec_jr_nc (s : Machine) :
    exec_inst s 0x30 =
      if CHECK_BIT s.f FLAG_C = 0 then
        ({ s with pc := u16 (u16 (int_add s.pc (int8_cast (memory_read_8 s (s.pc + 1)))) + 2) },
          12)
      else ({ s with pc := u16 (s.pc + 2) }, 8) := rfl

theorem exec_call_nz (s : Machine) :
    exec_inst s 0xC4 =
      (let call_addr := memory_read_16 s (s.pc + 1)
       if CHECK_BIT s.f FLAG_Z = 0 then
         let s1 : Machine := { s with sp := u16 (s.sp + 65534) }
         let s2 := memory_write_16 s1 s1.sp (s1.pc + 3)
         ({ s2 with pc := call_addr }, 24)
       else
         ({ s with pc := u16 (s.pc + 3) }, 12)) := rfl

theorem exec_ret_z (s : Machine) :
    exec_inst s 0xC8 =
      if CHECK_BIT s.f FLAG_Z ≠ 0 then
        ({ s with pc := memory_read_16 s s.sp, sp := u16 (s.sp + 2) }, 20)
      else ({ s with pc := u16 (s.pc + 1) }, 8) := rfl

theorem exec_jp_z (s : Machine) :
    exec_inst s 0xCA =
      if CHECK_BIT s.f FLAG_Z ≠ 0 then ({ s with pc := memory_read_16 s (s.pc + 1) }, 16)
      else ({ s with pc := u16 (s.pc + 3) }, 12) := rfl

theorem exec_cb (s : Machine) :
    exec_inst s 0xCB =
      (let cb_inst := memory_read_8 s (s.pc + 1)
       let r := handle_cb_inst s cb_inst
       ({ r.1 with pc := u16 (r.1.pc + 2) }, r.2)) := rfl

theorem exec_push_de (s : Machine) :
    exec_inst s 0xD5 =
      (let s1 : Machine := { s with sp := u16 (s.sp + 65534) }
       let s2 := memory_write_16 s1 s1.sp s1.de
       ({ s2 with pc := u16 (s2.pc + 1) }, 16)) := rfl

theorem exec_push_hl (s : Machine) :
    exec_inst s 0xE5 =
      (let s1 : Machine := { s with sp := u16 (s.sp + 65534) }
       let s2 := memory_write_16 s1 s1.sp s1.hl
       ({ s2 with pc := u16 (s2.pc + 1) }, 16)) := rfl

theorem exec_push_af (s : Machine) :
    exec_inst s 0xF5 =
      (let s1 : Machine := { s with sp := u16 (s.sp + 65534) }
       let s2 := memory_write_16 s1 s1.sp s1.af
       ({ s2 with pc := u16 (s2.pc + 1) }, 16)) := rfl

theorem exec_rst_28 (s : Machine) :
    exec_inst s 0xEF =
      (let s1 : Machine := { s with sp := u16 (s.sp + 65534) }
       let s2 := memory_write_16 s1 s1.sp (s1.pc + 1)
       ({ s2 with pc := MEMORY_RST_28 }, 16)) := rfl

theorem exec_rst_38 (s : Machine) :
    exec_inst s 0xFF =
      (let s1 : Machine := { s with sp := u16 (s.sp + 65534) }
       let s2 := memory_write_16 s1 s1.sp (s1.pc + 1)
       ({ s2 with pc := MEMORY_RST_38 }, 16)) := rfl

theorem fst_running_with_pc (s2 : Machine) (p n : Nat) :
    (({ s2 with pc := p }, n) : Machine × Nat).1.running = s2.running := rfl

theorem set_bc_running (s : Machine) (v : Nat) : (s.set_bc v).running = s.running := rfl

theorem set_hl_running (s : Machine) (v : Nat) : (s.set_hl v).running = s.running := rfl

theorem memory_write_8_running (s : Machine) (a v : Nat) :
    (memory_write_8 s a v).running = s.running := rfl

/-- The pushes, CALL and RST move SP, write two bytes and set PC: `running` is not touched. -/
theorem push_like_running (s : Machine) (v a w p n : Nat) :
    (({ memory_write_16 { s with sp := v } a w with pc := p }, n) : Machine × Nat).1.running =
      s.running :=
  memory_write_16_running _ _ _

/-- Every implemented primary opcode other than the 0xCB escape leaves `running` alone. -/
theorem exec_inst_running (s : Machine) (op : Nat) (h : op ∈ primary_case_labels)
    (hcb : op ≠ 0xCB) : (exec_inst s op).1.running = s.running := by
  by_cases hs : op ∈ [0x04, 0x0c, 0x14, 0x1c, 0x05, 0x0d, 0x15, 0x0b, 0x20, 0x28, 0x30, 0x32,
      0xc4, 0xc5, 0xc8, 0xca, 0xcd, 0xd5, 0xe5, 0xef, 0xf5, 0xff]
  · simp only [List.mem_cons, List.mem_singleton, List.not_mem_nil, or_false] at hs
    rcases hs with e | e | e | e | e | e | e | e | e | e | e | e | e | e | e | e | e | e |
      e | e | e | e <;> subst e
    · obtain ⟨v, f, e⟩ := exec_inc_b_shape s
      rw [e]
    · obtain ⟨v, f, e⟩ := exec_inc_c_shape s
      rw [e]
    · obtain ⟨v, f, e⟩ := exec_inc_d_shape s
      rw [e]
    · obtain ⟨v, f, e⟩ := exec_inc_e_shape s
      rw [e]
    · rw [exec_dec_b]
    · rw [exec_dec_c]
    · rw [exec_dec_d]
    · rw [exec_dec_bc]; exact (fst_running_with_pc _ _ _).trans (set_bc_running _ _)
    · rw [exec_jr_nz]; split <;> rfl
    · rw [exec_jr_z]; split <;> rfl
    · rw [exec_jr_nc]; split <;> rfl
    · rw [exec_ldd_hl_a]
      exact (fst_running_with_pc _ _ _).trans
        ((set_hl_running _ _).trans (memory_write_8_running _ _ _))
    · rw [exec_call_nz]; dsimp only; split
      · exact push_like_running s _ _ _ _ _
      · rfl
    · rw [exec_push_bc]; exact push_like_running s _ _ _ _ _
    · rw [exec_ret_z]; split <;> rfl
    · rw [exec_jp_z]; split <;> rfl
    · rw [exec_call]; exact push_like_running s _ _ _ _ _
    · rw [exec_push_de]; exact push_like_running s _ _ _ _ _
    · rw [exec_push_hl]; exact push_like_running s _ _ _ _ _
    · rw [exec_rst_28]; exact push_like_running s _ _ _ _ _
    · rw [exec_push_af]; exact push_like_running s _ _ _ _ _
    · rw [exec_rst_38]; exact push_like_running s _ _ _ _ _
  · simp only [primary_case_labels, List.mem_cons, List.mem_singleton, List.not_mem_nil,
      or_false] at h
    rcases h with e | e | e | e | e | e | e | e | e | e | e | e | e | e | e | e | e | e | e | e |
      e | e | e | e | e | e | e | e | e | e | e | e | e | e | e | e | e | e | e | e |
      e | e | e | e | e | e | e | e | e | e | e | e | e | e | e | e | e | e | e | e |
      e | e | e | e | e | e | e | e | e | e | e | e | e | e | e | e | e | e | e | e |
      e | e | e | e <;> subst e <;>
      first
        | exact absurd rfl hcb
        | exact absurd (by decide) hs
        | rfl

/-! ## Instruction lengths -/

theorem set_bc_step_pc (s : Machine) (v n : Nat) :
    (({ s.set_bc v with pc := u16 ((s.set_bc v).pc + 1) }, n) : Machine × Nat).1.pc =
      (s.pc + 1) % 65536 := rfl

theorem ldd_step_pc (s : Machine) (a v w n : Nat) :
    (({ (memory_write_8 s a v).set_hl w with
          pc := u16 (((memory_write_8 s a v).set_hl w).pc + 1) }, n) : Machine × Nat).1.pc =
      (s.pc + 1) % 65536 := rfl

theorem push_step_pc (s : Machine) (v a w n : Nat) :
    (({ memory_write_16 { s with sp := v } a w with
          pc := u16 ((memory_write_16 { s with sp := v } a w).pc + 1) }, n) :
        Machine × Nat).1.pc = (s.pc + 1) % 65536 := by
  show u16 ((memory_write_16 { s with sp := v } a w).pc + 1) = _
  rw [memory_write_16_pc]
  rfl

theorem cb_step_pc (s : Machine) (i : Nat) :
    (({ (handle_cb_inst s i).1 with pc := u16 ((handle_cb_inst s i).1.pc + 2) },
        (handle_cb_inst s i).2) : Machine × Nat).1.pc = (s.pc + 2) % 65536 := by
  show u16 ((handle_cb_inst s i).1.pc + 2) = _
  rw [handle_cb_inst_pc]
  rfl

theorem exec_inst_pc_length (s : Machine) (op : Nat) (himpl : op ∈ primary_case_labels)
    (hnct : op ∉ [0x18, 0x20, 0x28, 0x30, 0xC3, 0xC4, 0xC8, 0xC9, 0xCA, 0xCD, 0xE9, 0xEF, 0xFF]) :
    (exec_inst s op).1.pc =
      (s.pc + (if op ∈ [0x01, 0x11, 0x21, 0x31, 0xEA, 0xFA] then 3
               else if op ∈ [0x06, 0x0E, 0x16, 0x36, 0x3E, 0xE0, 0xE6, 0xF0, 0xFE, 0xCB] then 2
               else 1)) % 65536 := by
  by_cases hs : op ∈ [0x0b, 0x32, 0xc5, 0xd5, 0xe5, 0xf5, 0xcb]
  · simp only [List.mem_cons, List.mem_singleton, List.not_mem_nil, or_false] at hs
    rcases hs with e | e | e | e | e | e | e <;> subst e
    · rw [exec_dec_bc, if_neg (by decide), if_neg (by decide)]
      exact set_bc_step_pc s _ _
    · rw [exec_ldd_hl_a, if_neg (by decide), if_neg (by decide)]
      exact ldd_step_pc s _ _ _ _
    · rw [exec_push_bc, if_neg (by decide), if_neg (by decide)]
      exact push_step_pc s _ _ _ _
    · rw [exec_push_de, if_neg (by decide), if_neg (by decide)]
      exact push_step_pc s _ _ _ _
    · rw [exec_push_hl, if_neg (by decide), if_neg (by decide)]
      exact push_step_pc s _ _ _ _
    · rw [exec_push_af, if_neg (by decide), if_neg (by decide)]
      exact push_step_pc s _ _ _ _
    · rw [exec_cb, if_neg (by decide), if_pos (by decide)]
      exact cb_step_pc s _
  · simp only [primary_case_labels, List.mem_cons, List.mem_singleton, List.not_mem_nil,
      or_false] at himpl
    rcases himpl with e | e | e | e | e | e | e | e | e | e | e | e | e | e | e | e | e | e |
      e | e | e | e | e | e | e | e | e | e | e | e | e | e | e | e | e | e | e | e | e | e |
      e | e | e | e | e | e | e | e | e | e | e | e | e | e | e | e | e | e | e | e |
      e | e | e | e | e | e | e | e | e | e | e | e | e | e | e | e | e | e | e | e |
      e | e | e | e <;> subst e <;>
      first
        | exact absurd (by decide) hnct
        | exact absurd (by decide) hs
        | (rw [if_pos (by decide)]; rfl)
        | (rw [if_neg (by decide), if_pos (by decide)]; rfl)
        | (rw [if_neg (by decide), if_neg (by decide)]; rfl)

/-! ## C11: interrupt master enable -/

/-- C11. EI (0xFB) sets the IME flag to true and DI (0xF3) sets it to false, whatever it was
before; in both cases PC advances by 1 (as a 16-bit counter), the step returns 4 cycles,
and every other register, the flag register, every memory cell (so in particular the
interrupt enable and request registers) and the running state are unchanged. -/
theorem ime_toggle_contract (s : Machine) (op : Nat) (v : Bool)
    (hsel : (op = 0xFB ∧ v = true) ∨ (op = 0xF3 ∧ v = false))
    (hop : memory_read_8 s s.pc = op) :
    (cpu_execute_inst s).1.ime = v ∧
    (cpu_execute_inst s).1.pc = (s.pc + 1) % 65536 ∧
    (cpu_execute_inst s).2 = 4 ∧
    (cpu_execute_inst s).1.a = s.a ∧ (cpu_execute_inst s).1.f = s.f ∧
    (cpu_execute_inst s).1.b = s.b ∧ (cpu_execute_inst s).1.c = s.c ∧
    (cpu_execute_inst s).1.d = s.d ∧ (cpu_execute_inst s).1.e = s.e ∧
    (cpu_execute_inst s).1.h = s.h ∧ (cpu_execute_inst s).1.l = s.l ∧
    (cpu_execute_inst s).1.sp = s.sp ∧
    (cpu_execute_inst s).1.memory = s.memory ∧
    (cpu_execute_inst s).1.memory MEMORY_REG_IE = s.memory MEMORY_REG_IE ∧
    (cpu_execute_inst s).1.memory MEMORY_REG_IF = s.memory MEMORY_REG_IF ∧
    (cpu_execute_inst s).1.running = s.running := by
  rcases hsel with ⟨rfl, rfl⟩ | ⟨rfl, rfl⟩
  · rw [cpu_execute_inst_eq s _ hop]
    exact ⟨rfl, rfl, rfl, rfl, rfl, rfl, rfl, rfl, rfl, rfl, rfl, rfl, rfl, rfl, rfl, rfl⟩
  · rw [cpu_execute_inst_eq s _ hop]
    exact ⟨rfl, rfl, rfl, rfl, rfl, rfl, rfl, rfl, rfl, rfl, rfl, rfl, rfl, rfl, rfl, rfl⟩

/-- DI at `pc = 0x100` with IME set and both interrupt registers non-zero: IME is cleared,
PC is 0x101, the step costs 4 cycles and the two registers keep their contents. -/
theorem ime_toggle_contract_witness :
    memory_read_8 (memory_write_8 (memory_write_8 (memory_write_8
      { Machine.initial with ime := true, pc := 0x100 }
      0x100 0xF3) 0xFFFF 0x1F) 0xFF0F 0x05) 0x100 = 0xF3 ∧
    (cpu_execute_inst (memory_write_8 (memory_write_8 (memory_write_8
      { Machine.initial with ime := true, pc := 0x100 }
      0x100 0xF3) 0xFFFF 0x1F) 0xFF0F 0x05)).1.ime = false ∧
    (cpu_execute_inst (memory_write_8 (memory_write_8 (memory_write_8
      { Machine.initial with ime := true, pc := 0x100 }
      0x100 0xF3) 0xFFFF 0x1F) 0xFF0F 0x05)).1.pc = (0x100 + 1) % 65536 ∧
    (cpu_execute_inst (memory_write_8 (memory_write_8 (memory_write_8
      { Machine.initial with ime := true, pc := 0x100 }
      0x100 0xF3) 0xFFFF 0x1F) 0xFF0F 0x05)).2 = 4 :=
  ⟨by decide,
    (ime_toggle_contract
      (memory_write_8 (memory_write_8 (memory_write_8
        { Machine.initial with ime := true, pc := 0x100 }
        0x100 0xF3) 0xFFFF 0x1F) 0xFF0F 0x05)
      0xF3 false (Or.inr ⟨rfl, rfl⟩) (by decide)).1,
    (ime_toggle_contract
      (memory_write_8 (memory_write_8 (memory_write_8
        { Machine.initial with ime := true, pc := 0x100 }
        0x100 0xF3) 0xFFFF 0x1F) 0xFF0F 0x05)
      0xF3 false (Or.inr ⟨rfl, rfl⟩) (by decide)).2.1,
    (ime_toggle_contract
      (memory_write_8 (memory_write_8 (memory_write_8
        { Machine.initial with ime := true, pc := 0x100 }
        0x100 0xF3) 0xFFFF 0x1F) 0xFF0F 0x05)
      0xF3 false (Or.inr ⟨rfl, rfl⟩) (by decide)).2.2.1⟩

/-! ## C12: the Running → Halted transition -/

theorem cpu_execute_inst_running (s : Machine) :
    (cpu_execute_inst s).1.running = (exec_inst s (memory_read_8 s s.pc)).1.running := rfl

theorem cpu_execute_inst_pc (s : Machine) :
    (cpu_execute_inst s).1.pc = (exec_inst s (memory_read_8 s s.pc)).1.pc := rfl

theorem exec_cb_running (s : Machine) :
    (exec_inst s 0xCB).1.running =
      if memory_read_8 s (s.pc + 1) = 0x37 ∨ memory_read_8 s (s.pc + 1) = 0x87
      then s.running else false := by
  rw [exec_cb]
  dsimp only
  exact handle_cb_inst_running s _

/-- C12. From a Running state, one step halts the engine (`running = false`) if and only if
the byte at PC is none of the `case` labels of the dispatch switch, or is 0xCB followed by
a second byte other than 0x37 (SWAP A) and 0x87 (RES 0,A); in every other case the engine
is still Running after the step. -/
theorem halts_iff_undefined_opcode (s : Machine) (hrun : s.running = true) :
    ((cpu_execute_inst s).1.running = false ↔
      (memory_read_8 s s.pc ∉ primary_case_labels ∨
        (memory_read_8 s s.pc = 0xCB ∧ memory_read_8 s (s.pc + 1) ≠ 0x37 ∧
          memory_read_8 s (s.pc + 1) ≠ 0x87))) ∧
    (¬ (memory_read_8 s s.pc ∉ primary_case_labels ∨
        (memory_read_8 s s.pc = 0xCB ∧ memory_read_8 s (s.pc + 1) ≠ 0x37 ∧
          memory_read_8 s (s.pc + 1) ≠ 0x87)) →
      (cpu_execute_inst s).1.running = true) := by
  have key : (cpu_execute_inst s).1.running = false ↔
      (memory_read_8 s s.pc ∉ primary_case_labels ∨
        (memory_read_8 s s.pc = 0xCB ∧ memory_read_8 s (s.pc + 1) ≠ 0x37 ∧
          memory_read_8 s (s.pc + 1) ≠ 0x87)) := by
    rw [cpu_execute_inst_running]
    generalize memory_read_8 s s.pc = op
    by_cases himpl : op ∈ primary_case_labels
    · by_cases hcb : op = 0xCB
      · subst hcb
        rw [exec_cb_running, hrun]
        by_cases h2 : memory_read_8 s (s.pc + 1) = 0x37 ∨ memory_read_8 s (s.pc + 1) = 0x87
        · rw [if_pos h2]
          constructor
          · intro h; exact absurd h (by decide)
          · rintro (h | ⟨_, h37, h87⟩)
            · exact absurd himpl h
            · exact absurd h2 (fun h => h.elim h37 h87)
        · rw [if_neg h2]
          constructor
          · intro _
            exact Or.inr ⟨rfl, fun h => h2 (Or.inl h), fun h => h2 (Or.inr h)⟩
          · intro _; rfl
      · rw [exec_inst_running s op himpl hcb, hrun]
        constructor
        · intro h; exact absurd h (by decide)
        · rintro (h | ⟨h, _⟩)
          · exact absurd himpl h
          · exact absurd h hcb
    · rw [exec_inst_unimplemented s op himpl]
      exact ⟨fun _ => Or.inl himpl, fun _ => rfl⟩
  refine ⟨key, fun hn => ?_⟩
  cases h : (cpu_execute_inst s).1.running
  · exact absurd (key.1 h) hn
  · rfl

/-- A Running state whose byte at PC is 0xD3, which has no case in the switch: the engine
is Halted after the step. -/
theorem halts_iff_undefined_opcode_witness :
    (memory_write_8 { Machine.initial with pc := 0x100 } 0x100 0xD3).running = true ∧
    memory_read_8 (memory_write_8 { Machine.initial with pc := 0x100 } 0x100 0xD3) 0x100 =
      0xD3 ∧
    (cpu_execute_inst
      (memory_write_8 { Machine.initial with pc := 0x100 } 0x100 0xD3)).1.running = false :=
  ⟨rfl, by decide,
    (halts_iff_undefined_opcode
      (memory_write_8 { Machine.initial with pc := 0x100 } 0x100 0xD3) rfl).1.2
      (Or.inl (by decide))⟩

/-! ## C13: Halted is terminal -/

/-- The dispatch switch never sets `running` back to true. -/
theorem exec_inst_running_false (s : Machine) (op : Nat) (h : s.running = false) :
    (exec_inst s op).1.running = false := by
  by_cases himpl : op ∈ primary_case_labels
  · by_cases hcb : op = 0xCB
    · subst hcb
      rw [exec_cb_running, h]
      split <;> rfl
    · rw [exec_inst_running s op himpl hcb, h]
  · rw [exec_inst_unimplemented s op himpl]

theorem memory_write_running (s : Machine) (buff : List Nat) (addr size : Nat) :
    (memory_write s buff addr size).running = s.running := by
  unfold memory_write
  split <;> rfl

theorem memory_write_reg_value_running (s : Machine) (addr bit : Nat) (value : Bool) :
    (memory_write_reg_value s addr bit value).running = s.running := by
  unfold memory_write_reg_value
  split <;> rfl

theorem timer_execute_running (s : Machine) (clock_cycles : Nat) :
    (timer_execute s clock_cycles).running = s.running := by
  unfold timer_execute
  dsimp only
  split
  · rfl
  · split
    · split
      · rw [memory_write_reg_value_running]; rfl
      · rfl
    · rfl

theorem ppu_execute_running (s : Machine) (clock_cycles : Nat) :
    (ppu_execute s clock_cycles).running = s.running := by
  unfold ppu_execute
  dsimp only
  repeat' split
  all_goals simp only [memory_write_reg_value_running, memory_write_8]

theorem CoreOp_apply_running_false (op : CoreOp) (s : Machine) (h : s.running = false) :
    (op.apply s).running = false := by
  cases op with
  | cpu_step =>
    show (cpu_execute_inst s).1.running = false
    rw [cpu_execute_inst_running]
    exact exec_inst_running_false s _ h
  | timer_step c => exact (timer_execute_running s c).trans h
  | ppu_step c => exact (ppu_execute_running s c).trans h
  | bus_write buff a n => exact (memory_write_running s buff a n).trans h
  | bus_write_8 a v => exact h
  | bus_write_16 a v => exact (memory_write_16_running s a v).trans h
  | bus_write_reg a b v => exact (memory_write_reg_value_running s a b v).trans h

/-- C13. Halted is terminal: from a state with `running = false`, neither a CPU step, nor
a timer or display step, nor any write through the memory accessors makes the engine
Running again, so `cpu_is_running` is false after every sequence of such operations. -/
theorem halted_is_terminal (s : Machine) (h : s.running = false) :
    (cpu_execute_inst s).1.running = false ∧
    (∀ c, (timer_execute s c).running = false) ∧
    (∀ c, (ppu_execute s c).running = false) ∧
    (∀ ops : List CoreOp, cpu_is_running (run_ops ops s) = false) := by
  refine ⟨CoreOp_apply_running_false .cpu_step s h,
    fun c => CoreOp_apply_running_false (.timer_step c) s h,
    fun c => CoreOp_apply_running_false (.ppu_step c) s h, ?_⟩
  intro ops
  induction ops generalizing s with
  | nil => exact h
  | cons op rest ih =>
    show cpu_is_running (run_ops rest (op.apply s)) = false
    exact ih (op.apply s) (CoreOp_apply_running_false op s h)

/-- The engine halted on the undefined opcode 0xD3 stays halted through a further CPU step,
a timer step, a display step and a register-bit write. -/
theorem halted_is_terminal_witness :
    (cpu_execute_inst
      (memory_write_8 { Machine.initial with pc := 0x100 } 0x100 0xD3)).1.running = false ∧
    cpu_is_running (run_ops
      [CoreOp.cpu_step, CoreOp.timer_step 4, CoreOp.ppu_step 4,
        CoreOp.bus_write_reg 0xFF0F 2 true]
      (cpu_execute_inst
        (memory_write_8 { Machine.initial with pc := 0x100 } 0x100 0xD3)).1) = false :=
  ⟨by decide,
    (halted_is_terminal
      (cpu_execute_inst (memory_write_8 { Machine.initial with pc := 0x100 } 0x100 0xD3)).1
      (by decide)).2.2.2 _⟩

/-! ## C14: PC advances by the instruction length -/

/-- C14. For an implemented opcode that is not a control transfer (JR, JP, CALL, RET, RST
forms), one step leaves `PC = (PC + L) mod 65536`, where `L` is 3 for the opcodes with a
16-bit immediate (0x01, 0x11, 0x21, 0x31, 0xEA, 0xFA), 2 for those with an 8-bit immediate
(0x06, 0x0E, 0x16, 0x36, 0x3E, 0xE0, 0xE6, 0xF0, 0xFE) and for the 0xCB prefix, and 1 for
all others. -/
theorem pc_advances_by_length (s : Machine) (op : Nat)
    (himpl : op ∈ primary_case_labels)
    (hnct : op ∉ [0x18, 0x20, 0x28, 0x30, 0xC3, 0xC4, 0xC8, 0xC9, 0xCA, 0xCD, 0xE9, 0xEF, 0xFF])
    (hop : memory_read_8 s s.pc = op) :
    (cpu_execute_inst s).1.pc =
      (s.pc + (if op ∈ [0x01, 0x11, 0x21, 0x31, 0xEA, 0xFA] then 3
               else if op ∈ [0x06, 0x0E, 0x16, 0x36, 0x3E, 0xE0, 0xE6, 0xF0, 0xFE, 0xCB] then 2
               else 1)) % 65536 := by
  rw [cpu_execute_inst_pc, hop]
  exact exec_inst_pc_length s op himpl hnct

/-- Three steps at `pc = 0xFFFF`: LD A,(nnnn) wraps to 0x0002, SWAP A (CB 37) to 0x0001 and
PUSH HL to 0x0000. -/
theorem pc_advances_by_length_witness :
    (cpu_execute_inst (memory_write_8 { Machine.initial with pc := 0xFFFF }
      0xFFFF 0xFA)).1.pc = (0xFFFF + 3) % 65536 ∧
    (cpu_execute_inst (memory_write_8 (memory_write_8 { Machine.initial with pc := 0xFFFF }
      0xFFFF 0xCB) 0x0000 0x37)).1.pc = (0xFFFF + 2) % 65536 ∧
    (cpu_execute_inst (memory_write_8 { Machine.initial with sp := 0xFFFE, pc := 0xFFFF }
      0xFFFF 0xE5)).1.pc = (0xFFFF + 1) % 65536 :=
  ⟨pc_advances_by_length
      (memory_write_8 { Machine.initial with pc := 0xFFFF } 0xFFFF 0xFA)
      0xFA (by decide) (by decide) (by decide),
    pc_advances_by_length
      (memory_write_8 (memory_write_8 { Machine.initial with pc := 0xFFFF }
        0xFFFF 0xCB) 0x0000 0x37)
      0xCB (by decide) (by decide) (by decide),
    pc_advances_by_length
      (memory_write_8 { Machine.initial with sp := 0xFFFE, pc := 0xFFFF } 0xFFFF 0xE5)
      0xE5 (by decide) (by decide) (by decide)⟩

/-! ## C15 - C18: the bulk accessors and their range guard -/

/-- Below the guard, a bulk write stores the buffer at cells `a .. a + n - 1` and leaves
every other cell alone. -/
theorem memory_write_below_guard (s : Machine) (buff : List Nat) (a n : Nat)
    (h : a + n < 65536) :
    (memory_write s buff a n).memory =
      fun x => if a ≤ x ∧ x < a + n then buff.getD (x - a) 0 else s.memory x := by
  have ha : u16 a = a := Nat.mod_eq_of_lt (by omega)
  have hn : u16 n = n := Nat.mod_eq_of_lt (by omega)
  have hg : ¬ (u16 a + u16 n ≥ MEMORY_SIZE) := by
    rw [ha, hn]; unfold MEMORY_SIZE; omega
  unfold memory_write
  rw [if_neg hg, ha, hn]

/-- Below the guard, a bulk read into a buffer of `n` bytes delivers the cells
`a .. a + n - 1`. -/
theorem memory_read_below_guard (s : Machine) (buff : List Nat) (a n : Nat)
    (hlen : buff.length = n) (h : a + n < 65536) :
    memory_read s buff a n = (List.range n).map (fun i => s.memory (a + i)) := by
  have ha : u16 a = a := Nat.mod_eq_of_lt (by omega)
  have hn : u16 n = n := Nat.mod_eq_of_lt (by omega)
  have hg : ¬ (u16 a + u16 n ≥ MEMORY_SIZE) := by
    rw [ha, hn]; unfold MEMORY_SIZE; omega
  unfold memory_read
  rw [if_neg hg, ha, hn, List.drop_of_length_le (by omega), List.append_nil]

/-- A bulk access whose span ends exactly at the top of the address space is rejected by
the guard, like one that leaves the space. -/
theorem bulk_access_at_guard (s : Machine) (buff : List Nat) (a n : Nat)
    (ha : a < 65536) (hn : n < 65536) (h : a + n ≥ 65536) :
    memory_write s buff a n = s ∧ memory_read s buff a n = buff := by
  have ha' : u16 a = a := Nat.mod_eq_of_lt ha
  have hn' : u16 n = n := Nat.mod_eq_of_lt hn
  have hg : u16 a + u16 n ≥ MEMORY_SIZE := by
    rw [ha', hn']; unfold MEMORY_SIZE; omega
  unfold memory_write memory_read
  rw [if_pos hg, if_pos hg]
  exact ⟨rfl, rfl⟩

/-- C15, the code at a failing input. The one-byte span at 0xFFFF lies inside the address
space (`0xFFFF + 1 ≤ 65536`), yet the bulk write of `[0xAB]` there leaves the cell at its
old content 0x5A and the bulk read there leaves the destination buffer `[0x00]` as it was
instead of delivering `[0x5A]`; the same happens to the two-byte span at 0xFFFE. -/
theorem bulk_access_ending_at_top_is_dropped :
    0xFFFF + 1 ≤ 65536 ∧
    (memory_write (memory_write_8 Machine.initial 0xFFFF 0x5A) [0xAB] 0xFFFF 1).memory 0xFFFF
      = 0x5A ∧
    memory_read (memory_write_8 Machine.initial 0xFFFF 0x5A) [0x00] 0xFFFF 1 = [0x00] ∧
    0xFFFE + 2 ≤ 65536 ∧
    (memory_write Machine.initial [0x34, 0x12] 0xFFFE 2).memory 0xFFFE = 0x00 ∧
    (memory_write Machine.initial [0x34, 0x12] 0xFFFE 2).memory 0xFFFF = 0x00 := by
  decide

/-! ### C16: accesses beyond the address space -/

/-- C16. For every start address `a` and size `n` (both 16-bit values) with
`a + n > 65536`, `memory_write` returns the machine state unchanged (all memory cells and
everything else) and `memory_read` returns the destination buffer unchanged. -/
theorem bulk_access_beyond_space_is_dropped (s : Machine) (buff : List Nat) (a n : Nat)
    (ha : a < 65536) (hn : n < 65536) (h : a + n > 65536) :
    memory_write s buff a n = s ∧
    (∀ x, (memory_write s buff a n).memory x = s.memory x) ∧
    memory_read s buff a n = buff := by
  have hb := bulk_access_at_guard s buff a n ha hn (by omega)
  refine ⟨hb.1, fun x => ?_, hb.2⟩
  rw [hb.1]

/-- A three-byte access at 0xFFFE, which would run past the last cell: the write changes
nothing and the read leaves the buffer `[1, 2, 3]` as it was. -/
theorem bulk_access_beyond_space_is_dropped_witness :
    0xFFFE + 3 > 65536 ∧
    memory_write (memory_write_8 Machine.initial 0xFFFE 0x77) [0xAA, 0xBB, 0xCC] 0xFFFE 3 =
      memory_write_8 Machine.initial 0xFFFE 0x77 ∧
    memory_read (memory_write_8 Machine.initial 0xFFFE 0x77) [1, 2, 3] 0xFFFE 3 = [1, 2, 3] :=
  ⟨by decide,
    (bulk_access_beyond_space_is_dropped (memory_write_8 Machine.initial 0xFFFE 0x77)
      [0xAA, 0xBB, 0xCC] 0xFFFE 3 (by decide) (by decide) (by decide)).1,
    (bulk_access_beyond_space_is_dropped (memory_write_8 Machine.initial 0xFFFE 0x77)
      [1, 2, 3] 0xFFFE 3 (by decide) (by decide) (by decide)).2.2⟩

/-! ### C17: the 16-bit accessors -/

/-- Below 0xFFFE the 16-bit write followed by the 16-bit read is a round trip. -/
theorem memory_16_roundtrip_below_guard (s : Machine) (a v : Nat) (ha : a < 0xFFFE)
    (hv : v < 65536) :
    (memory_write_16 s a v).memory a = v % 256 ∧
    (memory_write_16 s a v).memory (a + 1) = v / 256 ∧
    memory_read_16 (memory_write_16 s a v) a = v := by
  have hu : u16 v = v := Nat.mod_eq_of_lt hv
  have hlo : (memory_write_16 s a v).memory a = v % 256 := by
    rw [memory_write_16_memory _ _ _ ha, hu]
    simp only [if_true]
  have hhi : (memory_write_16 s a v).memory (a + 1) = v / 256 := by
    rw [memory_write_16_memory _ _ _ ha, hu]
    simp only [Nat.succ_ne_self, if_false, if_true]
  refine ⟨hlo, hhi, ?_⟩
  rw [memory_read_16_in_range _ _ ha, hlo, hhi]
  have := Nat.div_add_mod' v 256
  omega

/-- C17, the code at a failing input. At `a = 0xFFFE` both bytes of the word lie inside the
address space, yet after `memory_write_16(0xFFFE, 0x1234)` the cells at 0xFFFE and 0xFFFF
still hold 0 (not 0x34 and 0x12) and `memory_read_16(0xFFFE)` returns 0 (not 0x1234);
the read returns 0 even when the two cells hold 0x34 and 0x12. -/
theorem word_access_at_FFFE_is_dropped :
    (memory_write_16 Machine.initial 0xFFFE 0x1234).memory 0xFFFE = 0 ∧
    (memory_write_16 Machine.initial 0xFFFE 0x1234).memory 0xFFFF = 0 ∧
    memory_read_16 (memory_write_16 Machine.initial 0xFFFE 0x1234) 0xFFFE = 0 ∧
    memory_read_16 (memory_write_8 (memory_write_8 Machine.initial 0xFFFE 0x34) 0xFFFF 0x12)
      0xFFFE = 0 := by
  decide

/-! ### C18: single-byte accessors against the bulk form of size 1 -/

/-- Below 0xFFFF the single-byte accessors agree with the bulk form of size 1. -/
theorem byte_accessors_agree_below_guard (s : Machine) (a v : Nat) (ha : a < 0xFFFF)
    (hv : v < 256) (b0 : Nat) :
    (memory_write_8 s a v).memory = (memory_write s [v] a 1).memory ∧
    [memory_read_8 s a] = memory_read s [b0] a 1 := by
  have hu : u16 a = a := Nat.mod_eq_of_lt (by omega)
  constructor
  · rw [memory_write_below_guard s [v] a 1 (by omega)]
    show (fun addr => if addr = u16 a then u8 v else s.memory addr) = _
    rw [hu]
    funext x
    have hv' : u8 v = v := Nat.mod_eq_of_lt hv
    rw [hv']
    by_cases hx : x = a
    · subst hx
      simp
    · have : ¬ (a ≤ x ∧ x < a + 1) := by omega
      simp [hx, this]
  · rw [memory_read_below_guard s [b0] a 1 rfl (by omega)]
    show [s.memory (u16 a)] = _
    rw [hu]
    rfl

/-- C18, the code at a failing input. At `a = 0xFFFF`, `memory_write_8(0xFFFF, 0x5A)`
stores 0x5A while the bulk write of `[0x5A]` at 0xFFFF stores nothing (the cell stays 0);
and on the memory that holds 0x5A there, `memory_read_8(0xFFFF)` returns 0x5A while the
bulk read of size 1 delivers nothing (the buffer `[0x00]` is left as it was). -/
theorem byte_accessors_disagree_at_FFFF :
    (memory_write_8 Machine.initial 0xFFFF 0x5A).memory 0xFFFF = 0x5A ∧
    (memory_write Machine.initial [0x5A] 0xFFFF 1).memory 0xFFFF = 0x00 ∧
    memory_read_8 (memory_write_8 Machine.initial 0xFFFF 0x5A) 0xFFFF = 0x5A ∧
    memory_read (memory_write_8 Machine.initial 0xFFFF 0x5A) [0x00] 0xFFFF 1 = [0x00] := by
  decide

/-! ## C19: the register-bit accessors -/

set_option maxRecDepth 100000 in
/-- Writing `true` sets the bit: the read accessor then returns true. -/
theorem reg_bit_set_then_get (s : Machine) (addr bit : Nat) (hb : bit < 8)
    (hmem : s.memory (u16 addr) < 256) :
    memory_get_reg_value (memory_write_reg_value s addr bit true) addr bit = true := by
  have hb8 : u8 bit = bit := Nat.mod_eq_of_lt (by omega)
  have hg : ¬ (u8 bit > 7) := by rw [hb8]; omega
  unfold memory_get_reg_value memory_write_reg_value
  rw [if_neg hg, if_neg hg]
  dsimp only
  rw [if_pos rfl, hb8]
  simp only [if_true, decide_eq_true_eq]
  have hm : ∀ m, m < 256 → ∀ b, b < 8 → u8 (m ||| u8 (1 <<< b)) &&& u8 (1 <<< b) ≠ 0 := by
    decide
  exact hm _ hmem _ hb

/-- Writing `false` changes no memory cell. -/
theorem reg_bit_write_false_is_noop (s : Machine) (addr bit : Nat)
    (hmem : s.memory (u16 addr) < 256) :
    (memory_write_reg_value s addr bit false).memory = s.memory := by
  unfold memory_write_reg_value
  split
  · rfl
  · dsimp only
    funext x
    by_cases hx : x = u16 addr
    · subst hx
      simp only [if_true, Bool.false_eq_true, if_false, Nat.zero_shiftLeft]
      show (s.memory (u16 addr) ||| 0 % 256) % 256 = _
      simp [Nat.mod_eq_of_lt hmem]
    · simp only [hx, if_false]

/-- C19, the code at a failing input. With bit 2 of the register at 0xFF41 set (content
0x04), `memory_write_reg_value(0xFF41, 2, false)` leaves the content at 0x04 and
`memory_get_reg_value(0xFF41, 2)` still returns true, not the value false just written. -/
theorem reg_bit_clear_has_no_effect :
    memory_get_reg_value (memory_write_8 Machine.initial 0xFF41 0x04) 0xFF41 2 = true ∧
    (memory_write_reg_value (memory_write_8 Machine.initial 0xFF41 0x04) 0xFF41 2 false).memory
      0xFF41 = 0x04 ∧
    memory_get_reg_value
      (memory_write_reg_value (memory_write_8 Machine.initial 0xFF41 0x04) 0xFF41 2 false)
      0xFF41 2 = true := by
  decide

/-! ## C20: one timer tick -/

theorem memory_read_8_write_8_same (s : Machine) (a v : Nat) :
    memory_read_8 (memory_write_8 s a v) a = u8 v := by
  unfold memory_read_8 memory_write_8
  dsimp only
  rw [if_pos rfl]

theorem memory_read_8_write_8_other (s : Machine) (a v b : Nat) (h : u16 b ≠ u16 a) :
    memory_read_8 (memory_write_8 s a v) b = memory_read_8 s b := by
  unfold memory_read_8 memory_write_8
  dsimp only
  rw [if_neg h]

/-- The threshold selected by the two low bits of TAC. -/
theorem get_clock_speed_of_select (s : Machine) (sel T : Nat)
    (hsel : (sel = 0 ∧ T = 1024) ∨ (sel = 1 ∧ T = 16) ∨ (sel = 2 ∧ T = 64) ∨
      (sel = 3 ∧ T = 256))
    (hclk : memory_read_8 s MEMORY_REG_TAC &&& 3 = sel) :
    get_clock_speed s = T := by
  unfold get_clock_speed
  dsimp only
  have h3 : MEMORY_TAC_INPUT_CLOCK_MASK = 3 := rfl
  rw [h3, hclk]
  rcases hsel with ⟨rfl, rfl⟩ | ⟨rfl, rfl⟩ | ⟨rfl, rfl⟩ | ⟨rfl, rfl⟩ <;> rfl

/-- C20. With the timer enabled (bit 2 of TAC set), the accumulator at 0 and TIMA below
0xFF, for each clock-select value `sel` in {0, 1, 2, 3} with threshold `T` in
{1024, 16, 64, 256} respectively and every 64-bit cycle count `c`: `timer_execute(c)`
increases TIMA by exactly 1 when `c ≥ T`, leaves TIMA unchanged when `c < T`, and leaves
the interrupt request register unchanged; in particular with divisor 16, feeding exactly
16 cycles increases the counter by exactly 1. -/
theorem timer_tick_contract (s : Machine) (c sel T : Nat) (hc : c < 2 ^ 64)
    (hen : memory_read_8 s MEMORY_REG_TAC &&& 4 ≠ 0)
    (hacc : s.tima_clock = 0)
    (htima : memory_read_8 s MEMORY_REG_TIMA < 0xFF)
    (hsel : (sel = 0 ∧ T = 1024) ∨ (sel = 1 ∧ T = 16) ∨ (sel = 2 ∧ T = 64) ∨
      (sel = 3 ∧ T = 256))
    (hclk : memory_read_8 s MEMORY_REG_TAC &&& 3 = sel) :
    (c ≥ T → memory_read_8 (timer_execute s c) MEMORY_REG_TIMA =
      memory_read_8 s MEMORY_REG_TIMA + 1) ∧
    (c < T → memory_read_8 (timer_execute s c) MEMORY_REG_TIMA =
      memory_read_8 s MEMORY_REG_TIMA) ∧
    memory_read_8 (timer_execute s c) MEMORY_REG_IF = memory_read_8 s MEMORY_REG_IF ∧
    (sel = 1 → c = 16 → memory_read_8 (timer_execute s c) MEMORY_REG_TIMA =
      memory_read_8 s MEMORY_REG_TIMA + 1) := by
  have hon : memory_get_reg_value s MEMORY_REG_TAC MEMORY_TAC_TIMER_ENABLED = true := by
    unfold memory_get_reg_value
    have hg : ¬ (u8 MEMORY_TAC_TIMER_ENABLED > 7) := by decide
    rw [if_neg hg]
    exact decide_eq_true hen
  have hclock : u64 (s.tima_clock + u64 c) = c := by
    rw [hacc]; unfold u64; rw [Nat.zero_add, Nat.mod_mod, Nat.mod_eq_of_lt hc]
  have hspeed : get_clock_speed { s with tima_clock := u64 (s.tima_clock + u64 c) } = T :=
    get_clock_speed_of_select _ sel T hsel hclk
  have hne : ¬ (memory_read_8 { s with tima_clock := c } MEMORY_REG_TIMA = 0xff) := by
    show ¬ (memory_read_8 s MEMORY_REG_TIMA = 0xff)
    omega
  have hstep : timer_execute s c =
      if c ≥ T then
        memory_write_8 { s with tima_clock := c } MEMORY_REG_TIMA
          (memory_read_8 s MEMORY_REG_TIMA + 1)
      else { s with tima_clock := c } := by
    unfold timer_execute
    dsimp only
    rw [hon, hspeed, hclock]
    simp only [Bool.not_true, Bool.false_eq_true, if_false]
    by_cases hT : c ≥ T
    · rw [if_pos hT, if_pos hT, if_neg hne]
      rfl
    · rw [if_neg hT, if_neg hT]
  have hge : c ≥ T → memory_read_8 (timer_execute s c) MEMORY_REG_TIMA =
      memory_read_8 s MEMORY_REG_TIMA + 1 := by
    intro h
    rw [hstep, if_pos h, memory_read_8_write_8_same]
    unfold u8
    omega
  refine ⟨hge, ?_, ?_, ?_⟩
  · intro h
    have h' : ¬ (c ≥ T) := by omega
    rw [hstep, if_neg h']
    rfl
  · rw [hstep]
    split
    · rw [memory_read_8_write_8_other _ _ _ _ (by decide)]
      rfl
    · rfl
  · intro hs hc16
    apply hge
    rcases hsel with ⟨h0, _⟩ | ⟨_, hT⟩ | ⟨h2, _⟩ | ⟨h3, _⟩
    · omega
    · omega
    · omega
    · omega

/-- TAC = 0x05 (enabled, clock select 1: divisor 16), TIMA = 0x41, accumulator 0, feeding
exactly 16 cycles: TIMA becomes 0x42. -/
theorem timer_tick_contract_witness :
    memory_read_8 (memory_write_8 (memory_write_8 Machine.initial 0xFF07 0x05) 0xFF05 0x41)
      MEMORY_REG_TAC &&& 4 ≠ 0 ∧
    memory_read_8
      (timer_execute (memory_write_8 (memory_write_8 Machine.initial 0xFF07 0x05) 0xFF05 0x41)
        16) MEMORY_REG_TIMA = 0x41 + 1 :=
  ⟨by decide,
    (timer_tick_contract
      (memory_write_8 (memory_write_8 Machine.initial 0xFF07 0x05) 0xFF05 0x41)
      16 1 16 (by decide) (by decide) rfl (by decide) (Or.inr (Or.inl ⟨rfl, rfl⟩))
      (by decide)).2.2.2 rfl rfl⟩

/-! ## Timer and display steps, branch by branch -/

/-- The enable test of `timer_execute` reads bit 2 of TAC. -/
theorem timer_on_iff (s : Machine) :
    memory_get_reg_value s MEMORY_REG_TAC MEMORY_TAC_TIMER_ENABLED = true ↔
      memory_read_8 s MEMORY_REG_TAC &&& 4 ≠ 0 := by
  unfold memory_get_reg_value
  have hg : ¬ (u8 MEMORY_TAC_TIMER_ENABLED > 7) := by decide
  rw [if_neg hg]
  exact decide_eq_true_iff

/-- The enable test of `ppu_execute` reads bit 7 of LCDC. -/
theorem lcd_on_iff (s : Machine) :
    memory_get_reg_value s MEMORY_REG_LCDC MEMORY_LCDC_PPU_ENABLED = true ↔
      memory_read_8 s MEMORY_REG_LCDC &&& 0x80 ≠ 0 := by
  unfold memory_get_reg_value
  have hg : ¬ (u8 MEMORY_LCDC_PPU_ENABLED > 7) := by decide
  rw [if_neg hg]
  exact decide_eq_true_iff

/-- Function `timer_execute` with the timer disabled. -/
theorem timer_execute_off (s : Machine) (c : Nat)
    (hoff : memory_read_8 s MEMORY_REG_TAC &&& 4 = 0) :
    timer_execute s c = { s with tima_clock := 0 } := by
  have h : memory_get_reg_value s MEMORY_REG_TAC MEMORY_TAC_TIMER_ENABLED = false := by
    rw [← Bool.not_eq_true, timer_on_iff]
    exact not_not.mpr hoff
  unfold timer_execute
  dsimp only
  rw [h]
  rfl

/-- Function `timer_execute` with the timer enabled and the accumulator below the
threshold after the addition. -/
theorem timer_execute_wait (s : Machine) (c : Nat)
    (hen : memory_read_8 s MEMORY_REG_TAC &&& 4 ≠ 0)
    (hlt : u64 (s.tima_clock + u64 c) < get_clock_speed s) :
    timer_execute s c = { s with tima_clock := u64 (s.tima_clock + u64 c) } := by
  have h : memory_get_reg_value s MEMORY_REG_TAC MEMORY_TAC_TIMER_ENABLED = true :=
    (timer_on_iff s).mpr hen
  have hsp : get_clock_speed { s with tima_clock := u64 (s.tima_clock + u64 c) } =
      get_clock_speed s := rfl
  have hn : ¬ (u64 (s.tima_clock + u64 c) ≥ get_clock_speed s) := Nat.not_le.mpr hlt
  unfold timer_execute
  dsimp only
  rw [h, hsp, if_neg hn]
  rfl

/-- Function `timer_execute` with the timer enabled and the accumulator at or above the
threshold after the addition. -/
theorem timer_execute_tick (s : Machine) (c : Nat)
    (hen : memory_read_8 s MEMORY_REG_TAC &&& 4 ≠ 0)
    (hge : u64 (s.tima_clock + u64 c) ≥ get_clock_speed s) :
    timer_execute s c =
      if memory_read_8 s MEMORY_REG_TIMA = 0xff then
        memory_write_reg_value
          (memory_write_8 { s with tima_clock := u64 (s.tima_clock + u64 c) } MEMORY_REG_TIMA
            (memory_read_8 s MEMORY_REG_TMA))
          MEMORY_REG_IF MEMORY_IEF_TIMER true
      else
        memory_write_8 { s with tima_clock := u64 (s.tima_clock + u64 c) } MEMORY_REG_TIMA
          (memory_read_8 s MEMORY_REG_TIMA + 1) := by
  have h : memory_get_reg_value s MEMORY_REG_TAC MEMORY_TAC_TIMER_ENABLED = true :=
    (timer_on_iff s).mpr hen
  have hsp : get_clock_speed { s with tima_clock := u64 (s.tima_clock + u64 c) } =
      get_clock_speed s := rfl
  unfold timer_execute
  dsimp only
  rw [h, hsp, if_pos hge]
  rfl

/-- The memory written by `memory_write_reg_value` for a bit number in 0..7. -/
theorem memory_write_reg_value_memory (s : Machine) (addr bit : Nat) (v : Bool) (hb : bit ≤ 7)
    (x : Nat) :
    (memory_write_reg_value s addr bit v).memory x =
      if x = u16 addr then u8 (s.memory (u16 addr) ||| u8 ((if v then 1 else 0) <<< bit))
      else s.memory x := by
  have hb8 : u8 bit = bit := Nat.mod_eq_of_lt (by omega)
  have hg : ¬ (u8 bit > 7) := by rw [hb8]; omega
  unfold memory_write_reg_value
  rw [if_neg hg, hb8]

/-- Function `memory_write_reg_value` changes the memory only. -/
theorem memory_write_reg_value_frame (s : Machine) (addr bit : Nat) (v : Bool) :
    memory_write_reg_value s addr bit v =
      { s with memory := (memory_write_reg_value s addr bit v).memory } := by
  unfold memory_write_reg_value
  split <;> rfl

/-- The byte stored by `memory_write_reg_value(_, bit, true)` over a byte `m`. -/
theorem or_mask_byte (m b : Nat) (hm : m < 256) (hb : b ≤ 7) :
    u8 (m ||| u8 ((if true then 1 else 0) <<< b)) = m ||| 2 ^ b := by
  have hp8 : 2 ^ b < 2 ^ 8 := Nat.pow_lt_pow_right (by norm_num) (by omega)
  have hp : 2 ^ b < 256 := hp8
  have hor8 : m ||| 2 ^ b < 2 ^ 8 := Nat.or_lt_two_pow hm hp8
  have hor : m ||| 2 ^ b < 256 := hor8
  show (m ||| (1 <<< b) % 256) % 256 = m ||| 2 ^ b
  rw [Nat.one_shiftLeft, Nat.mod_eq_of_lt hp, Nat.mod_eq_of_lt hor]

/-- Bits of a value with one more bit set. -/
theorem CHECK_BIT_or_two_pow (m b i : Nat) :
    CHECK_BIT (m ||| 2 ^ b) i = if i = b then 1 else CHECK_BIT m i := by
  simp only [CHECK_BIT_eq_testBit, Nat.testBit_or, Nat.testBit_two_pow]
  by_cases h : i = b
  · subst h; simp
  · have h' : ¬ (b = i) := fun e => h e.symm
    simp [h, h']

/-- Setting a bit keeps every bit that was set. -/
theorem CHECK_BIT_or_two_pow_mono (m b i : Nat) (h : CHECK_BIT m i = 1) :
    CHECK_BIT (m ||| 2 ^ b) i = 1 := by
  rw [CHECK_BIT_or_two_pow]
  split
  · rfl
  · exact h

/-- The byte stored by `memory_write_reg_value(_, bit, false)` over a byte `m`. -/
theorem or_mask_byte_false (m b : Nat) (hm : m < 256) :
    u8 (m ||| u8 ((if false then 1 else 0) <<< b)) = m := by
  show (m ||| (0 <<< b) % 256) % 256 = m
  rw [Nat.zero_shiftLeft, Nat.zero_mod, Nat.or_zero, Nat.mod_eq_of_lt hm]

/-- Testing a value against a one-bit mask. -/
theorem and_two_pow_ne_zero (x i : Nat) : x &&& 2 ^ i ≠ 0 ↔ x.testBit i = true := by
  constructor
  · intro h
    by_contra hx
    apply h
    apply Nat.eq_of_testBit_eq
    intro j
    rw [Nat.testBit_and, Nat.testBit_two_pow, Nat.zero_testBit]
    by_cases hj : i = j
    · subst hj
      simp [hx]
    · simp [hj]
  · intro h h0
    have h1 : (x &&& 2 ^ i).testBit i = true := by
      rw [Nat.testBit_and, Nat.testBit_two_pow, h]
      simp
    rw [h0, Nat.zero_testBit] at h1
    exact Bool.false_ne_true h1

/-- Function `memory_get_reg_value` for a bit number in 0..7 tests that bit of the
register. -/
theorem memory_get_reg_value_eq_testBit (s : Machine) (addr bit : Nat) (hb : bit ≤ 7) :
    memory_get_reg_value s addr bit = (memory_read_8 s addr).testBit bit := by
  have hb8 : u8 bit = bit := Nat.mod_eq_of_lt (by omega)
  have hg : ¬ (u8 bit > 7) := by rw [hb8]; omega
  have hp8 : 2 ^ bit < 2 ^ 8 := Nat.pow_lt_pow_right (by norm_num) (by omega)
  have hp : 2 ^ bit < 256 := hp8
  have hmask : u8 (1 <<< bit) = 2 ^ bit := by
    show (1 <<< bit) % 256 = 2 ^ bit
    rw [Nat.one_shiftLeft, Nat.mod_eq_of_lt hp]
  unfold memory_get_reg_value memory_read_8
  rw [if_neg hg, hb8]
  dsimp only
  rw [hmask]
  cases h : (s.memory (u16 addr)).testBit bit
  · exact decide_eq_false (fun hne => by
      rw [and_two_pow_ne_zero, h] at hne
      exact Bool.false_ne_true hne)
  · exact decide_eq_true ((and_two_pow_ne_zero _ _).mpr h)

/-- The byte that `ppu_execute` fetches with `memory_read(&ly, MEMORY_REG_LY, 1)`. -/
theorem ppu_ly_read (s : Machine) :
    (memory_read s [0] MEMORY_REG_LY 1).getD 0 0 = memory_read_8 s MEMORY_REG_LY := by
  unfold memory_read
  rw [if_neg (by decide)]
  rfl

/-- Function `ppu_execute` with the display disabled. -/
theorem ppu_execute_off (s : Machine) (c : Nat)
    (hoff : memory_read_8 s MEMORY_REG_LCDC &&& 0x80 = 0) :
    ppu_execute s c = { memory_write_8 s MEMORY_REG_LY 0 with scan_line_clock := 0 } := by
  have h : memory_get_reg_value s MEMORY_REG_LCDC MEMORY_LCDC_PPU_ENABLED = false := by
    rw [← Bool.not_eq_true, lcd_on_iff]
    exact not_not.mpr hoff
  unfold ppu_execute
  dsimp only
  rw [h]
  rfl

/-- Function `ppu_execute` with the display enabled and the accumulator below one scanline
after the addition. -/
theorem ppu_execute_wait (s : Machine) (c : Nat)
    (hon : memory_read_8 s MEMORY_REG_LCDC &&& 0x80 ≠ 0)
    (hlt : u64 (s.scan_line_clock + u64 c) < CLOCK_CYCLES_PER_SCANLINE) :
    ppu_execute s c = { s with scan_line_clock := u64 (s.scan_line_clock + u64 c) } := by
  have h : memory_get_reg_value s MEMORY_REG_LCDC MEMORY_LCDC_PPU_ENABLED = true :=
    (lcd_on_iff s).mpr hon
  have hn : ¬ (u64 (s.scan_line_clock + u64 c) ≥ CLOCK_CYCLES_PER_SCANLINE) :=
    Nat.not_le.mpr hlt
  unfold ppu_execute
  dsimp only
  rw [h, if_neg hn]
  rfl

/-- Function `ppu_execute` with the display enabled and a completed scanline: the state
after the call, with the line number read through `memory_read_8`. -/
theorem ppu_execute_line (s : Machine) (c : Nat)
    (hon : memory_read_8 s MEMORY_REG_LCDC &&& 0x80 ≠ 0)
    (hge : u64 (s.scan_line_clock + u64 c) ≥ CLOCK_CYCLES_PER_SCANLINE) :
    ppu_execute s c =
      (let ly := if memory_read_8 s MEMORY_REG_LY = 153 then 0
                 else u8 (memory_read_8 s MEMORY_REG_LY + 1)
       let s3 := memory_write_8 { s with scan_line_clock := 0 } MEMORY_REG_LY ly
       let s4 :=
         if ly < 144 then s3
         else if ly = 144 then memory_write_reg_value s3 MEMORY_REG_IF MEMORY_IEF_VBLANK true
         else s3
       if memory_read_8 s4 MEMORY_REG_LYC = ly then
         let s5 := memory_write_reg_value s4 MEMORY_REG_STAT MEMORY_STAT_COINCID_FLAG true
         if memory_get_reg_value s5 MEMORY_REG_STAT MEMORY_STAT_COINCID_INT then
           memory_write_reg_value s5 MEMORY_REG_IF MEMORY_IEF_LCD_STAT true
         else s5
       else
         memory_write_reg_value s4 MEMORY_REG_STAT MEMORY_STAT_COINCID_FLAG false) := by
  have h : memory_get_reg_value s MEMORY_REG_LCDC MEMORY_LCDC_PPU_ENABLED = true :=
    (lcd_on_iff s).mpr hon
  unfold ppu_execute
  dsimp only
  rw [h, if_pos hge, ppu_ly_read]
  rfl

theorem or_one_mask_byte (m b : Nat) (hm : m < 256) (hb : b ≤ 7) :
    u8 (m ||| u8 (1 <<< b)) = m ||| 2 ^ b := or_mask_byte m b hm hb

theorem or_zero_mask_byte (m b : Nat) (hm : m < 256) : u8 (m ||| u8 (0 <<< b)) = m :=
  or_mask_byte_false m b hm

/-- Reading any register after `memory_write_8`. -/
theorem memory_read_8_write_8 (s : Machine) (a v r : Nat) :
    memory_read_8 (memory_write_8 s a v) r =
      if u16 r = u16 a then u8 v else memory_read_8 s r := by
  unfold memory_read_8 memory_write_8
  rfl

/-- Reading any register after `memory_write_reg_value` for a bit number in 0..7. -/
theorem memory_read_8_write_reg_value (s : Machine) (a bit : Nat) (v : Bool) (hb : bit ≤ 7)
    (r : Nat) :
    memory_read_8 (memory_write_reg_value s a bit v) r =
      if u16 r = u16 a then u8 (memory_read_8 s a ||| u8 ((if v then 1 else 0) <<< bit))
      else memory_read_8 s r := by
  unfold memory_read_8
  rw [memory_write_reg_value_memory s a bit v hb]

/-- The accumulator and the new line number after a `ppu_execute` call that completes a
scanline. -/
theorem ppu_line_ly (s : Machine) (c : Nat)
    (hon : memory_read_8 s MEMORY_REG_LCDC &&& 0x80 ≠ 0)
    (hge : u64 (s.scan_line_clock + u64 c) ≥ CLOCK_CYCLES_PER_SCANLINE) :
    (ppu_execute s c).scan_line_clock = 0 ∧
    memory_read_8 (ppu_execute s c) MEMORY_REG_LY =
      (if memory_read_8 s MEMORY_REG_LY = 153 then 0
       else u8 (memory_read_8 s MEMORY_REG_LY + 1)) := by
  rw [ppu_execute_line s c hon hge]
  dsimp only
  have hly : (if memory_read_8 s MEMORY_REG_LY = 153 then 0
      else u8 (memory_read_8 s MEMORY_REG_LY + 1)) < 256 := by
    split
    · decide
    · exact Nat.mod_lt _ (by decide)
  generalize (if memory_read_8 s MEMORY_REG_LY = 153 then 0
    else u8 (memory_read_8 s MEMORY_REG_LY + 1)) = ly at hly
  have hu : u8 ly = ly := Nat.mod_eq_of_lt hly
  have hu144 : u8 144 = 144 := rfl
  have hc1 : ∀ (t : Machine) (a b : Nat) (v : Bool),
      (memory_write_reg_value t a b v).scan_line_clock = t.scan_line_clock := by
    intro t a b v
    unfold memory_write_reg_value
    split <;> rfl
  have hc2 : ∀ (t : Machine) (a v : Nat),
      (memory_write_8 t a v).scan_line_clock = t.scan_line_clock := fun _ _ _ => rfl
  have a1 : (u16 MEMORY_REG_LY = u16 MEMORY_REG_LYC) = False := eq_false (by decide)
  have a2 : (u16 MEMORY_REG_LY = u16 MEMORY_REG_IF) = False := eq_false (by decide)
  have a3 : (u16 MEMORY_REG_LY = u16 MEMORY_REG_STAT) = False := eq_false (by decide)
  have a4 : (u16 MEMORY_REG_LYC = u16 MEMORY_REG_LY) = False := eq_false (by decide)
  have a5 : (u16 MEMORY_REG_LYC = u16 MEMORY_REG_IF) = False := eq_false (by decide)
  have a6 : (u16 MEMORY_REG_LYC = u16 MEMORY_REG_STAT) = False := eq_false (by decide)
  have a7 : (u16 MEMORY_REG_IF = u16 MEMORY_REG_LY) = False := eq_false (by decide)
  have a8 : (u16 MEMORY_REG_IF = u16 MEMORY_REG_LYC) = False := eq_false (by decide)
  have a9 : (u16 MEMORY_REG_IF = u16 MEMORY_REG_STAT) = False := eq_false (by decide)
  have a10 : (u16 MEMORY_REG_STAT = u16 MEMORY_REG_LY) = False := eq_false (by decide)
  have a11 : (u16 MEMORY_REG_STAT = u16 MEMORY_REG_LYC) = False := eq_false (by decide)
  have a12 : (u16 MEMORY_REG_STAT = u16 MEMORY_REG_IF) = False := eq_false (by decide)
  have b0 : (0 : Nat) ≤ 7 := by decide
  have b1 : (1 : Nat) ≤ 7 := by decide
  have b2 : (2 : Nat) ≤ 7 := by decide
  have hclk : ∀ r, memory_read_8 { s with scan_line_clock := 0 } r = memory_read_8 s r :=
    fun _ => rfl
  have hbit : ∀ m : Nat, (m ||| 2 ^ 2).testBit 6 = m.testBit 6 := by
    intro m
    rw [Nat.testBit_or, Nat.testBit_two_pow]
    simp
  have hs4 : ∀ A B : Machine,
      (if ly < 144 then A else if ly = 144 then B else A) = if ly = 144 then B else A := by
    intro A B
    by_cases h : ly = 144
    · subst h
      rfl
    · simp only [h, if_false, ite_self]
  rw [hs4]
  by_cases h144 : ly = 144
  · subst h144
    have h144 : (144 : Nat) = 144 := rfl
    by_cases hlyc : memory_read_8 s MEMORY_REG_LYC = 144
    · simp only [hu, hu144, hc1, hc2, h144, eq_self, hlyc, if_true, if_false,
        memory_read_8_write_reg_value _ _ _ _ b0, memory_read_8_write_reg_value _ _ _ _ b1,
        memory_read_8_write_reg_value _ _ _ _ b2, memory_read_8_write_8, hclk,
        MEMORY_IEF_VBLANK, MEMORY_IEF_LCD_STAT, MEMORY_STAT_COINCID_FLAG,
        a1, a2, a3, a4, a5, a6, a7, a8, a9, a10, a11, a12, and_self]
      split <;>
      simp only [hu, hu144, hc1, hc2, h144, eq_self, hlyc, if_true, if_false,
        memory_read_8_write_reg_value _ _ _ _ b0, memory_read_8_write_reg_value _ _ _ _ b1,
        memory_read_8_write_reg_value _ _ _ _ b2, memory_read_8_write_8, hclk,
        MEMORY_IEF_VBLANK, MEMORY_IEF_LCD_STAT, MEMORY_STAT_COINCID_FLAG,
        a1, a2, a3, a4, a5, a6, a7, a8, a9, a10, a11, a12, and_self]
    · simp only [hu, hu144, hc1, hc2, h144, eq_self, hlyc, if_true, if_false,
        memory_read_8_write_reg_value _ _ _ _ b0, memory_read_8_write_reg_value _ _ _ _ b1,
        memory_read_8_write_reg_value _ _ _ _ b2, memory_read_8_write_8, hclk,
        MEMORY_IEF_VBLANK, MEMORY_IEF_LCD_STAT, MEMORY_STAT_COINCID_FLAG,
        a1, a2, a3, a4, a5, a6, a7, a8, a9, a10, a11, a12, and_self]
  · by_cases hlyc : memory_read_8 s MEMORY_REG_LYC = ly
    · simp only [hu, hu144, hc1, hc2, h144, eq_self, hlyc, if_true, if_false,
        memory_read_8_write_reg_value _ _ _ _ b0, memory_read_8_write_reg_value _ _ _ _ b1,
        memory_read_8_write_reg_value _ _ _ _ b2, memory_read_8_write_8, hclk,
        MEMORY_IEF_VBLANK, MEMORY_IEF_LCD_STAT, MEMORY_STAT_COINCID_FLAG,
        a1, a2, a3, a4, a5, a6, a7, a8, a9, a10, a11, a12, and_self]
      split <;>
      simp only [hu, hu144, hc1, hc2, h144, eq_self, hlyc, if_true, if_false,
        memory_read_8_write_reg_value _ _ _ _ b0, memory_read_8_write_reg_value _ _ _ _ b1,
        memory_read_8_write_reg_value _ _ _ _ b2, memory_read_8_write_8, hclk,
        MEMORY_IEF_VBLANK, MEMORY_IEF_LCD_STAT, MEMORY_STAT_COINCID_FLAG,
        a1, a2, a3, a4, a5, a6, a7, a8, a9, a10, a11, a12, and_self]
    · simp only [hu, hu144, hc1, hc2, h144, eq_self, hlyc, if_true, if_false,
        memory_read_8_write_reg_value _ _ _ _ b0, memory_read_8_write_reg_value _ _ _ _ b1,
        memory_read_8_write_reg_value _ _ _ _ b2, memory_read_8_write_8, hclk,
        MEMORY_IEF_VBLANK, MEMORY_IEF_LCD_STAT, MEMORY_STAT_COINCID_FLAG,
        a1, a2, a3, a4, a5, a6, a7, a8, a9, a10, a11, a12, and_self]

/-- The new line number, the accumulator and the registers IF and STAT after a
`ppu_execute` call that completes a scanline, for byte-valued IF and STAT. -/
theorem ppu_line_registers (s : Machine) (c : Nat)
    (hon : memory_read_8 s MEMORY_REG_LCDC &&& 0x80 ≠ 0)
    (hge : u64 (s.scan_line_clock + u64 c) ≥ CLOCK_CYCLES_PER_SCANLINE)
    (hif : memory_read_8 s MEMORY_REG_IF < 256)
    (hstat : memory_read_8 s MEMORY_REG_STAT < 256) :
    (ppu_execute s c).scan_line_clock = 0 ∧
    memory_read_8 (ppu_execute s c) MEMORY_REG_LY =
      (if memory_read_8 s MEMORY_REG_LY = 153 then 0
       else u8 (memory_read_8 s MEMORY_REG_LY + 1)) ∧
    memory_read_8 (ppu_execute s c) MEMORY_REG_IF =
      ((if memory_read_8 (ppu_execute s c) MEMORY_REG_LY = 144
        then memory_read_8 s MEMORY_REG_IF ||| 2 ^ 0 else memory_read_8 s MEMORY_REG_IF) |||
       (if memory_read_8 s MEMORY_REG_LYC = memory_read_8 (ppu_execute s c) MEMORY_REG_LY ∧
            (memory_read_8 s MEMORY_REG_STAT).testBit 6 = true then 2 ^ 1 else 0)) ∧
    memory_read_8 (ppu_execute s c) MEMORY_REG_STAT =
      (if memory_read_8 s MEMORY_REG_LYC = memory_read_8 (ppu_execute s c) MEMORY_REG_LY
       then memory_read_8 s MEMORY_REG_STAT ||| 2 ^ 2 else memory_read_8 s MEMORY_REG_STAT) := by
  rw [ppu_execute_line s c hon hge]
  dsimp only
  have hly : (if memory_read_8 s MEMORY_REG_LY = 153 then 0
      else u8 (memory_read_8 s MEMORY_REG_LY + 1)) < 256 := by
    split
    · decide
    · exact Nat.mod_lt _ (by decide)
  generalize (if memory_read_8 s MEMORY_REG_LY = 153 then 0
    else u8 (memory_read_8 s MEMORY_REG_LY + 1)) = ly at hly
  have hu : u8 ly = ly := Nat.mod_eq_of_lt hly
  have hu144 : u8 144 = 144 := rfl
  have hif0' : memory_read_8 s MEMORY_REG_IF ||| 2 ^ 0 < 2 ^ 8 :=
    Nat.or_lt_two_pow hif (by decide)
  have hif0 : memory_read_8 s MEMORY_REG_IF ||| 2 ^ 0 < 256 := hif0'
  have hc1 : ∀ (t : Machine) (a b : Nat) (v : Bool),
      (memory_write_reg_value t a b v).scan_line_clock = t.scan_line_clock := by
    intro t a b v
    unfold memory_write_reg_value
    split <;> rfl
  have hc2 : ∀ (t : Machine) (a v : Nat),
      (memory_write_8 t a v).scan_line_clock = t.scan_line_clock := fun _ _ _ => rfl
  have a1 : (u16 MEMORY_REG_LY = u16 MEMORY_REG_LYC) = False := eq_false (by decide)
  have a2 : (u16 MEMORY_REG_LY = u16 MEMORY_REG_IF) = False := eq_false (by decide)
  have a3 : (u16 MEMORY_REG_LY = u16 MEMORY_REG_STAT) = False := eq_false (by decide)
  have a4 : (u16 MEMORY_REG_LYC = u16 MEMORY_REG_LY) = False := eq_false (by decide)
  have a5 : (u16 MEMORY_REG_LYC = u16 MEMORY_REG_IF) = False := eq_false (by decide)
  have a6 : (u16 MEMORY_REG_LYC = u16 MEMORY_REG_STAT) = False := eq_false (by decide)
  have a7 : (u16 MEMORY_REG_IF = u16 MEMORY_REG_LY) = False := eq_false (by decide)
  have a8 : (u16 MEMORY_REG_IF = u16 MEMORY_REG_LYC) = False := eq_false (by decide)
  have a9 : (u16 MEMORY_REG_IF = u16 MEMORY_REG_STAT) = False := eq_false (by decide)
  have a10 : (u16 MEMORY_REG_STAT = u16 MEMORY_REG_LY) = False := eq_false (by decide)
  have a11 : (u16 MEMORY_REG_STAT = u16 MEMORY_REG_LYC) = False := eq_false (by decide)
  have a12 : (u16 MEMORY_REG_STAT = u16 MEMORY_REG_IF) = False := eq_false (by decide)
  have b0 : (0 : Nat) ≤ 7 := by decide
  have b1 : (1 : Nat) ≤ 7 := by decide
  have b2 : (2 : Nat) ≤ 7 := by decide
  have hclk : ∀ r, memory_read_8 { s with scan_line_clock := 0 } r = memory_read_8 s r :=
    fun _ => rfl
  have hbit : ∀ m : Nat, (m ||| 2 ^ 2).testBit 6 = m.testBit 6 := by
    intro m
    rw [Nat.testBit_or, Nat.testBit_two_pow]
    simp
  have hs4 : ∀ A B : Machine,
      (if ly < 144 then A else if ly = 144 then B else A) = if ly = 144 then B else A := by
    intro A B
    by_cases h : ly = 144
    · subst h
      rfl
    · simp only [h, if_false, ite_self]
  rw [hs4]
  by_cases h144 : ly = 144
  · subst h144
    have h144 : (144 : Nat) = 144 := rfl
    by_cases hlyc : memory_read_8 s MEMORY_REG_LYC = 144 <;>
      by_cases h6 : (memory_read_8 s MEMORY_REG_STAT).testBit 6 = true <;>
      simp only [hu, hu144, hc1, hc2, h144, eq_self, hlyc, h6, if_true, if_false, and_true, and_false, true_and,
      false_and, and_self, Bool.false_eq_true, Nat.or_zero, or_one_mask_byte _ _ hif0 b1,
      memory_read_8_write_reg_value _ _ _ _ b0, memory_read_8_write_reg_value _ _ _ _ b1,
      memory_read_8_write_reg_value _ _ _ _ b2, memory_read_8_write_8, hclk,
      memory_get_reg_value_eq_testBit _ _ _ (by decide : (6 : Nat) ≤ 7),
      a1, a2, a3, a4, a5, a6, a7, a8, a9, a10, a11, a12,
      MEMORY_IEF_VBLANK, MEMORY_IEF_LCD_STAT, MEMORY_STAT_COINCID_FLAG, MEMORY_STAT_COINCID_INT,
      or_one_mask_byte _ _ hif b0, or_one_mask_byte _ _ hif b1, or_one_mask_byte _ _ hstat b2,
      or_zero_mask_byte _ _ hstat, hbit]
  · by_cases hlyc : memory_read_8 s MEMORY_REG_LYC = ly <;>
      by_cases h6 : (memory_read_8 s MEMORY_REG_STAT).testBit 6 = true <;>
      simp only [hu, hu144, hc1, hc2, h144, eq_self, hlyc, h6, if_true, if_false, and_true, and_false, true_and,
      false_and, and_self, Bool.false_eq_true, Nat.or_zero, or_one_mask_byte _ _ hif0 b1,
      memory_read_8_write_reg_value _ _ _ _ b0, memory_read_8_write_reg_value _ _ _ _ b1,
      memory_read_8_write_reg_value _ _ _ _ b2, memory_read_8_write_8, hclk,
      memory_get_reg_value_eq_testBit _ _ _ (by decide : (6 : Nat) ≤ 7),
      a1, a2, a3, a4, a5, a6, a7, a8, a9, a10, a11, a12,
      MEMORY_IEF_VBLANK, MEMORY_IEF_LCD_STAT, MEMORY_STAT_COINCID_FLAG, MEMORY_STAT_COINCID_INT,
      or_one_mask_byte _ _ hif b0, or_one_mask_byte _ _ hif b1, or_one_mask_byte _ _ hstat b2,
      or_zero_mask_byte _ _ hstat, hbit]

/-- Reading a register after `memory_write_reg_value` on the same address. -/
theorem memory_read_8_write_reg_value_same (s : Machine) (addr bit : Nat) (v : Bool)
    (hb : bit ≤ 7) :
    memory_read_8 (memory_write_reg_value s addr bit v) addr =
      u8 (memory_read_8 s addr ||| u8 ((if v then 1 else 0) <<< bit)) := by
  unfold memory_read_8
  rw [memory_write_reg_value_memory s addr bit v hb, if_pos rfl]

/-- Reading a register after `memory_write_reg_value` on another address. -/
theorem memory_read_8_write_reg_value_other (s : Machine) (addr bit : Nat) (v : Bool)
    (b : Nat) (h : u16 b ≠ u16 addr) :
    memory_read_8 (memory_write_reg_value s addr bit v) b = memory_read_8 s b := by
  unfold memory_read_8 memory_write_reg_value
  split
  · rfl
  · dsimp only
    rw [if_neg h]

/-! ## What the peripherals leave alone -/

theorem framedBy_refl (s : Machine) (cells : List Nat) : s.FramedBy cells s :=
  ⟨rfl, fun _ _ => rfl⟩

theorem framedBy_tima_clock (s t : Machine) (cells : List Nat) (k : Nat)
    (h : s.FramedBy cells t) : s.FramedBy cells { t with tima_clock := k } := by
  obtain ⟨h1, h2⟩ := h
  refine ⟨?_, h2⟩
  rw [h1]

theorem framedBy_scan_line_clock (s t : Machine) (cells : List Nat) (k : Nat)
    (h : s.FramedBy cells t) : s.FramedBy cells { t with scan_line_clock := k } := by
  obtain ⟨h1, h2⟩ := h
  refine ⟨?_, h2⟩
  rw [h1]

theorem framedBy_memory_write_8 (s t : Machine) (cells : List Nat) (a v : Nat)
    (ha : u16 a ∈ cells) (h : s.FramedBy cells t) :
    s.FramedBy cells (memory_write_8 t a v) := by
  obtain ⟨h1, h2⟩ := h
  constructor
  · unfold memory_write_8
    rw [h1]
  · intro x hx
    have hne : x ≠ u16 a := fun e => hx (e ▸ ha)
    show (if x = u16 a then u8 v else t.memory x) = s.memory x
    rw [if_neg hne]
    exact h2 x hx

theorem framedBy_memory_write_reg_value (s t : Machine) (cells : List Nat) (a bit : Nat)
    (v : Bool) (ha : u16 a ∈ cells) (h : s.FramedBy cells t) :
    s.FramedBy cells (memory_write_reg_value t a bit v) := by
  unfold memory_write_reg_value
  split
  · exact h
  · obtain ⟨h1, h2⟩ := h
    constructor
    · dsimp only
      rw [h1]
    · intro x hx
      have hne : x ≠ u16 a := fun e => hx (e ▸ ha)
      dsimp only
      rw [if_neg hne]
      exact h2 x hx

theorem framedBy_ite (s : Machine) (cells : List Nat) (c : Prop) [Decidable c] (A B : Machine)
    (hA : s.FramedBy cells A) (hB : s.FramedBy cells B) :
    s.FramedBy cells (if c then A else B) := by
  split
  · exact hA
  · exact hB

/-- Function `timer_execute` changes nothing but the accumulators and, in memory, TIMA and
IF. -/
theorem timer_execute_framedBy (s : Machine) (c : Nat) :
    s.FramedBy [MEMORY_REG_TIMA, MEMORY_REG_IF] (timer_execute s c) := by
  unfold timer_execute
  dsimp only
  repeat first
    | exact framedBy_refl _ _
    | apply framedBy_memory_write_reg_value _ _ _ _ _ _ (by decide)
    | apply framedBy_memory_write_8 _ _ _ _ _ (by decide)
    | apply framedBy_ite
    | apply framedBy_tima_clock

/-- Function `ppu_execute` changes nothing but the accumulators and, in memory, LY, STAT
and IF. -/
theorem ppu_execute_framedBy (s : Machine) (c : Nat) :
    s.FramedBy [MEMORY_REG_LY, MEMORY_REG_STAT, MEMORY_REG_IF] (ppu_execute s c) := by
  unfold ppu_execute
  dsimp only
  repeat first
    | exact framedBy_refl _ _
    | apply framedBy_memory_write_reg_value _ _ _ _ _ _ (by decide)
    | apply framedBy_memory_write_8 _ _ _ _ _ (by decide)
    | apply framedBy_ite
    | apply framedBy_scan_line_clock

/-! ## Memory stays byte-valued; the interrupt request register only gains bits -/

theorem bytes_memory_write_8 (t : Machine) (a v : Nat) (h : ∀ x, t.memory x < 256) :
    ∀ x, (memory_write_8 t a v).memory x < 256 := by
  intro x
  show (if x = u16 a then u8 v else t.memory x) < 256
  split
  · exact Nat.mod_lt _ (by decide)
  · exact h x

theorem bytes_memory_write_reg_value (t : Machine) (a bit : Nat) (v : Bool)
    (h : ∀ x, t.memory x < 256) : ∀ x, (memory_write_reg_value t a bit v).memory x < 256 := by
  intro x
  unfold memory_write_reg_value
  split
  · exact h x
  · dsimp only
    split
    · exact Nat.mod_lt _ (by decide)
    · exact h x

theorem bytes_ite (c : Prop) [Decidable c] (A B : Machine) (hA : ∀ x, A.memory x < 256)
    (hB : ∀ x, B.memory x < 256) : ∀ x, (if c then A else B).memory x < 256 := by
  split
  · exact hA
  · exact hB

theorem bytes_tima_clock (t : Machine) (k : Nat) (h : ∀ x, t.memory x < 256) :
    ∀ x, ({ t with tima_clock := k } : Machine).memory x < 256 := h

theorem bytes_scan_line_clock (t : Machine) (k : Nat) (h : ∀ x, t.memory x < 256) :
    ∀ x, ({ t with scan_line_clock := k } : Machine).memory x < 256 := h

/-- Function `timer_execute` keeps every memory cell a byte. -/
theorem timer_execute_bytes (s : Machine) (c : Nat) (h : ∀ x, s.memory x < 256) :
    ∀ x, (timer_execute s c).memory x < 256 := by
  unfold timer_execute
  dsimp only
  repeat first
    | exact h
    | apply bytes_memory_write_reg_value
    | apply bytes_memory_write_8
    | apply bytes_ite
    | apply bytes_tima_clock

/-- Function `ppu_execute` keeps every memory cell a byte. -/
theorem ppu_execute_bytes (s : Machine) (c : Nat) (h : ∀ x, s.memory x < 256) :
    ∀ x, (ppu_execute s c).memory x < 256 := by
  unfold ppu_execute
  dsimp only
  repeat first
    | exact h
    | apply bytes_memory_write_reg_value
    | apply bytes_memory_write_8
    | apply bytes_ite
    | apply bytes_scan_line_clock

/-- The interrupt request register after `timer_execute`: unchanged, or with bit 2 OR-ed
in. -/
theorem timer_execute_IF (s : Machine) (c : Nat) (hif : memory_read_8 s MEMORY_REG_IF < 256) :
    memory_read_8 (timer_execute s c) MEMORY_REG_IF = memory_read_8 s MEMORY_REG_IF ∨
    memory_read_8 (timer_execute s c) MEMORY_REG_IF = memory_read_8 s MEMORY_REG_IF ||| 2 ^ 2 := by
  by_cases hen : memory_read_8 s MEMORY_REG_TAC &&& 4 ≠ 0
  · by_cases hge : u64 (s.tima_clock + u64 c) ≥ get_clock_speed s
    · rw [timer_execute_tick s c hen hge]
      split
      · right
        rw [memory_read_8_write_reg_value_same _ _ _ _ (by decide),
          memory_read_8_write_8_other _ _ _ _ (by decide)]
        exact or_mask_byte _ 2 hif (by decide)
      · left
        rw [memory_read_8_write_8_other _ _ _ _ (by decide)]
        rfl
    · rw [timer_execute_wait s c hen (Nat.not_le.mp hge)]
      exact Or.inl rfl
  · rw [timer_execute_off s c (not_not.mp hen)]
    exact Or.inl rfl

/-- The interrupt request register after `ppu_execute`: its old value with some of the
bits 0 and 1 OR-ed in. -/
theorem ppu_execute_IF (s : Machine) (c : Nat) (hif : memory_read_8 s MEMORY_REG_IF < 256)
    (hstat : memory_read_8 s MEMORY_REG_STAT < 256) :
    ∃ m, m ≤ 3 ∧
      memory_read_8 (ppu_execute s c) MEMORY_REG_IF = memory_read_8 s MEMORY_REG_IF ||| m := by
  by_cases hon : memory_read_8 s MEMORY_REG_LCDC &&& 0x80 ≠ 0
  · by_cases hge : u64 (s.scan_line_clock + u64 c) ≥ CLOCK_CYCLES_PER_SCANLINE
    · rw [(ppu_line_registers s c hon hge hif hstat).2.2.1]
      split <;> split
      · exact ⟨3, by decide, by rw [Nat.or_assoc]; rfl⟩
      · exact ⟨1, by decide, by rw [Nat.or_zero]; rfl⟩
      · exact ⟨2, by decide, rfl⟩
      · exact ⟨0, by decide, rfl⟩
    · rw [ppu_execute_wait s c hon (Nat.not_le.mp hge)]
      exact ⟨0, by decide, (Nat.or_zero _).symm⟩
  · rw [ppu_execute_off s c (not_not.mp hon)]
    exact ⟨0, by decide, by
      show memory_read_8 (memory_write_8 s MEMORY_REG_LY 0) MEMORY_REG_IF = _
      rw [memory_read_8_write_8_other _ _ _ _ (by decide), Nat.or_zero]⟩

/-! ## C21 and C22: timer overflow and the accumulator -/

/-- C21. With the timer enabled (bit 2 of TAC set) and TIMA equal to 0xFF, every
`timer_execute` call in which the accumulator, after the cycles are added, reaches or
exceeds the active threshold sets TIMA to the value of TMA and sets bit 2 (Timer) of IF,
leaving every other bit of IF as it was: IF becomes its old value with bit 2 OR-ed in. -/
theorem timer_overflow_contract (s : Machine) (c : Nat)
    (hen : memory_read_8 s MEMORY_REG_TAC &&& 4 ≠ 0)
    (htima : memory_read_8 s MEMORY_REG_TIMA = 0xFF)
    (hge : u64 (s.tima_clock + u64 c) ≥ get_clock_speed s)
    (htma : memory_read_8 s MEMORY_REG_TMA < 256)
    (hif : memory_read_8 s MEMORY_REG_IF < 256) :
    memory_read_8 (timer_execute s c) MEMORY_REG_TIMA = memory_read_8 s MEMORY_REG_TMA ∧
    CHECK_BIT (memory_read_8 (timer_execute s c) MEMORY_REG_IF) MEMORY_IEF_TIMER = 1 ∧
    (∀ i, i ≠ MEMORY_IEF_TIMER →
      CHECK_BIT (memory_read_8 (timer_execute s c) MEMORY_REG_IF) i =
        CHECK_BIT (memory_read_8 s MEMORY_REG_IF) i) ∧
    memory_read_8 (timer_execute s c) MEMORY_REG_IF = memory_read_8 s MEMORY_REG_IF ||| 4 := by
  have hIF : memory_read_8 (timer_execute s c) MEMORY_REG_IF =
      memory_read_8 s MEMORY_REG_IF ||| 2 ^ 2 := by
    rw [timer_execute_tick s c hen hge, if_pos htima,
      memory_read_8_write_reg_value_same _ _ _ _ (by decide),
      memory_read_8_write_8_other _ _ _ _ (by decide)]
    exact or_mask_byte _ 2 hif (by decide)
  refine ⟨?_, ?_, ?_, hIF⟩
  · rw [timer_execute_tick s c hen hge, if_pos htima,
      memory_read_8_write_reg_value_other _ _ _ _ _ (by decide),
      memory_read_8_write_8_same]
    exact Nat.mod_eq_of_lt htma
  · rw [hIF, CHECK_BIT_or_two_pow]
    rfl
  · intro i hi
    have hi2 : ¬ (i = 2) := hi
    rw [hIF, CHECK_BIT_or_two_pow, if_neg hi2]

/-- TAC = 0x05 (enabled, divisor 16), TIMA = 0xFF, TMA = 0x42, IF = 0x01, accumulator 0,
16 cycles: TIMA becomes 0x42 and IF becomes 0x05. -/
theorem timer_overflow_contract_witness :
    memory_read_8
      (timer_execute
        (memory_write_8 (memory_write_8 (memory_write_8 (memory_write_8 Machine.initial
          0xFF07 0x05) 0xFF05 0xFF) 0xFF06 0x42) 0xFF0F 0x01) 16) MEMORY_REG_TIMA = 0x42 ∧
    memory_read_8
      (timer_execute
        (memory_write_8 (memory_write_8 (memory_write_8 (memory_write_8 Machine.initial
          0xFF07 0x05) 0xFF05 0xFF) 0xFF06 0x42) 0xFF0F 0x01) 16) MEMORY_REG_IF = 0x05 :=
  ⟨(timer_overflow_contract
      (memory_write_8 (memory_write_8 (memory_write_8 (memory_write_8 Machine.initial
        0xFF07 0x05) 0xFF05 0xFF) 0xFF06 0x42) 0xFF0F 0x01) 16
      (by decide) (by decide) (by decide) (by decide) (by decide)).1,
   (timer_overflow_contract
      (memory_write_8 (memory_write_8 (memory_write_8 (memory_write_8 Machine.initial
        0xFF07 0x05) 0xFF05 0xFF) 0xFF06 0x42) 0xFF0F 0x01) 16
      (by decide) (by decide) (by decide) (by decide) (by decide)).2.2.2⟩

/-- C22, the code at the claim's own example. From accumulator 0 with TAC = 0x05 (enabled,
divisor 16) and TIMA = 0, `timer_execute(16)` increments TIMA to 1 but leaves the
accumulator at 16 (the statement `clock_speed = 0` clears the local threshold copy, not
`tima_clock`), so the following `timer_execute(1)` finds 17 ≥ 16 and increments TIMA again:
TIMA is 2, not 1, and the accumulator is 17, not 0. -/
theorem timer_accumulator_is_not_reset :
    (timer_execute (memory_write_8 Machine.initial 0xFF07 0x05) 16).tima_clock = 16 ∧
    memory_read_8 (timer_execute (memory_write_8 Machine.initial 0xFF07 0x05) 16)
      MEMORY_REG_TIMA = 1 ∧
    (timer_execute (timer_execute (memory_write_8 Machine.initial 0xFF07 0x05) 16)
      1).tima_clock = 17 ∧
    memory_read_8
      (timer_execute (timer_execute (memory_write_8 Machine.initial 0xFF07 0x05) 16) 1)
      MEMORY_REG_TIMA = 2 := by
  decide

/-! ## C23: calls with zero cycles -/

theorem get_clock_speed_le (s : Machine) : get_clock_speed s ≤ 1024 := by
  unfold get_clock_speed
  dsimp only
  split <;> decide

/-- C23, the code where the claim fails. A call with zero cycles changes the state in each
of these four states: timer disabled with accumulator 5 (the accumulator is cleared); timer
enabled with divisor 16 and accumulator 16 (TIMA goes from 0 to 1); display disabled with
LY = 7 (LY is forced to 0); display enabled with accumulator 15 (LY goes from 0 to 1 and
the accumulator is cleared). -/
theorem zero_cycles_can_change_state :
    (timer_execute { Machine.initial with tima_clock := 5 } 0).tima_clock = 0 ∧
    memory_read_8
      (timer_execute { memory_write_8 Machine.initial 0xFF07 0x05 with tima_clock := 16 } 0)
      MEMORY_REG_TIMA = 1 ∧
    memory_read_8 (memory_write_8 Machine.initial 0xFF44 7) MEMORY_REG_LY = 7 ∧
    memory_read_8 (ppu_execute (memory_write_8 Machine.initial 0xFF44 7) 0) MEMORY_REG_LY = 0 ∧
    memory_read_8
      (ppu_execute { memory_write_8 Machine.initial 0xFF40 0x80 with scan_line_clock := 15 } 0)
      MEMORY_REG_LY = 1 ∧
    (ppu_execute { memory_write_8 Machine.initial 0xFF40 0x80 with scan_line_clock := 15 }
      0).scan_line_clock = 0 := by
  decide

/-- C23, amended. In every machine state, `timer_execute(0)` leaves the whole state
unchanged when the timer is enabled with its accumulator below the active threshold, or
disabled with its accumulator already 0; `ppu_execute(0)` leaves the whole state unchanged
when the display is enabled with its accumulator below 15, or disabled with its accumulator
and LY already 0. -/
theorem zero_cycles_unchanged (s : Machine) :
    ((memory_read_8 s MEMORY_REG_TAC &&& 4 ≠ 0 ∧ s.tima_clock < get_clock_speed s) ∨
      (memory_read_8 s MEMORY_REG_TAC &&& 4 = 0 ∧ s.tima_clock = 0) →
        timer_execute s 0 = s) ∧
    ((memory_read_8 s MEMORY_REG_LCDC &&& 0x80 ≠ 0 ∧
        s.scan_line_clock < CLOCK_CYCLES_PER_SCANLINE) ∨
      (memory_read_8 s MEMORY_REG_LCDC &&& 0x80 = 0 ∧ s.scan_line_clock = 0 ∧
        memory_read_8 s MEMORY_REG_LY = 0) →
        ppu_execute s 0 = s) := by
  constructor
  · rintro (⟨hen, hlt⟩ | ⟨hoff, h0⟩)
    · have hk : s.tima_clock < 2 ^ 64 :=
        Nat.lt_of_lt_of_le hlt (Nat.le_trans (get_clock_speed_le s) (by decide))
      have hu : u64 (s.tima_clock + u64 0) = s.tima_clock := Nat.mod_eq_of_lt hk
      rw [timer_execute_wait s 0 hen (by rw [hu]; exact hlt), hu]
    · rw [timer_execute_off s 0 hoff]
      have e : ({ s with tima_clock := 0 } : Machine) = { s with tima_clock := s.tima_clock } := by
        rw [h0]
      exact e
  · rintro (⟨hon, hlt⟩ | ⟨hoff, h0, hly⟩)
    · have hk : s.scan_line_clock < 2 ^ 64 := Nat.lt_trans hlt (by decide)
      have hu : u64 (s.scan_line_clock + u64 0) = s.scan_line_clock := Nat.mod_eq_of_lt hk
      rw [ppu_execute_wait s 0 hon (by rw [hu]; exact hlt), hu]
    · rw [ppu_execute_off s 0 hoff]
      have hm : (fun addr => if addr = u16 MEMORY_REG_LY then u8 0 else s.memory addr) =
          s.memory := by
        funext addr
        split
        · rename_i h
          rw [h]
          exact hly.symm
        · rfl
      have e : ({ s with
                  memory := (fun addr =>
                    if addr = u16 MEMORY_REG_LY then u8 0 else s.memory addr),
                  scan_line_clock := 0 } : Machine) =
          { s with memory := s.memory, scan_line_clock := s.scan_line_clock } := by
        rw [hm, h0]
      exact e

/-- TAC = 0x05 (enabled, divisor 16) with accumulator 3, and LCDC = 0x80 (display on) with
scanline accumulator 3: both calls with zero cycles return the state they were given. -/
theorem zero_cycles_unchanged_witness :
    timer_execute
      { memory_write_8 (memory_write_8 Machine.initial 0xFF07 0x05) 0xFF40 0x80 with
          tima_clock := 3, scan_line_clock := 3 } 0 =
      { memory_write_8 (memory_write_8 Machine.initial 0xFF07 0x05) 0xFF40 0x80 with
          tima_clock := 3, scan_line_clock := 3 } ∧
    ppu_execute
      { memory_write_8 (memory_write_8 Machine.initial 0xFF07 0x05) 0xFF40 0x80 with
          tima_clock := 3, scan_line_clock := 3 } 0 =
      { memory_write_8 (memory_write_8 Machine.initial 0xFF07 0x05) 0xFF40 0x80 with
          tima_clock := 3, scan_line_clock := 3 } :=
  ⟨(zero_cycles_unchanged
      { memory_write_8 (memory_write_8 Machine.initial 0xFF07 0x05) 0xFF40 0x80 with
          tima_clock := 3, scan_line_clock := 3 }).1 (Or.inl ⟨by decide, by decide⟩),
   (zero_cycles_unchanged
      { memory_write_8 (memory_write_8 Machine.initial 0xFF07 0x05) 0xFF40 0x80 with
          tima_clock := 3, scan_line_clock := 3 }).2 (Or.inl ⟨by decide, by decide⟩)⟩

/-! ## C24: the display while disabled -/

/-- One `ppu_execute` call with the display disabled. -/
theorem ppu_off_step (s : Machine) (c : Nat)
    (hoff : memory_read_8 s MEMORY_REG_LCDC &&& 0x80 = 0) :
    memory_read_8 (ppu_execute s c) MEMORY_REG_LY = 0 ∧
    (ppu_execute s c).scan_line_clock = 0 ∧
    memory_read_8 (ppu_execute s c) MEMORY_REG_IF = memory_read_8 s MEMORY_REG_IF ∧
    memory_read_8 (ppu_execute s c) MEMORY_REG_STAT = memory_read_8 s MEMORY_REG_STAT ∧
    memory_read_8 (ppu_execute s c) MEMORY_REG_LCDC &&& 0x80 = 0 := by
  rw [ppu_execute_off s c hoff]
  refine ⟨?_, rfl, ?_, ?_, ?_⟩
  · show memory_read_8 (memory_write_8 s MEMORY_REG_LY 0) MEMORY_REG_LY = 0
    rw [memory_read_8_write_8_same]
    rfl
  · show memory_read_8 (memory_write_8 s MEMORY_REG_LY 0) MEMORY_REG_IF = _
    rw [memory_read_8_write_8_other _ _ _ _ (by decide)]
  · show memory_read_8 (memory_write_8 s MEMORY_REG_LY 0) MEMORY_REG_STAT = _
    rw [memory_read_8_write_8_other _ _ _ _ (by decide)]
  · show memory_read_8 (memory_write_8 s MEMORY_REG_LY 0) MEMORY_REG_LCDC &&& 0x80 = 0
    rw [memory_read_8_write_8_other _ _ _ _ (by decide)]
    exact hoff

/-- A run of `ppu_execute` calls started with the display disabled: the enable bit is still
clear afterwards, and after at least one call LY is 0. -/
theorem ppu_off_run (cs : List Nat) :
    ∀ s : Machine, memory_read_8 s MEMORY_REG_LCDC &&& 0x80 = 0 →
      memory_read_8 (cs.foldl ppu_execute s) MEMORY_REG_LCDC &&& 0x80 = 0 ∧
      (cs ≠ [] → memory_read_8 (cs.foldl ppu_execute s) MEMORY_REG_LY = 0) := by
  induction cs with
  | nil => exact fun s h => ⟨h, fun hne => absurd rfl hne⟩
  | cons c cs ih =>
    intro s h
    have hstep := ppu_off_step s c h
    have hrest := ih (ppu_execute s c) hstep.2.2.2.2
    refine ⟨hrest.1, fun _ => ?_⟩
    by_cases hcs : cs = []
    · subst hcs
      exact hstep.1
    · exact hrest.2 hcs

/-- C24. With the display-enable bit (bit 7 of LCDC) clear, every `ppu_execute` call,
whatever its cycle count, forces LY to 0 and the scanline accumulator to 0 and leaves IF
and STAT unchanged; the call leaves the enable bit clear, so after any non-empty sequence
of `ppu_execute` calls started in such a state the bit is still clear and LY is 0. -/
theorem ppu_disabled_contract (s : Machine) (c : Nat)
    (hoff : memory_read_8 s MEMORY_REG_LCDC &&& 0x80 = 0) :
    memory_read_8 (ppu_execute s c) MEMORY_REG_LY = 0 ∧
    (ppu_execute s c).scan_line_clock = 0 ∧
    memory_read_8 (ppu_execute s c) MEMORY_REG_IF = memory_read_8 s MEMORY_REG_IF ∧
    memory_read_8 (ppu_execute s c) MEMORY_REG_STAT = memory_read_8 s MEMORY_REG_STAT ∧
    ∀ cs : List Nat, cs ≠ [] →
      memory_read_8 (cs.foldl ppu_execute s) MEMORY_REG_LCDC &&& 0x80 = 0 ∧
      memory_read_8 (cs.foldl ppu_execute s) MEMORY_REG_LY = 0 :=
  ⟨(ppu_off_step s c hoff).1, (ppu_off_step s c hoff).2.1, (ppu_off_step s c hoff).2.2.1,
    (ppu_off_step s c hoff).2.2.2.1,
    fun cs hcs => ⟨(ppu_off_run cs s hoff).1, (ppu_off_run cs s hoff).2 hcs⟩⟩

/-- LCDC = 0x00, LY = 0x55, IF = 0x1F, scanline accumulator 9: after `ppu_execute(200)` LY
is 0, the accumulator is 0 and IF is still 0x1F. -/
theorem ppu_disabled_contract_witness :
    memory_read_8
      (ppu_execute
        { memory_write_8 (memory_write_8 Machine.initial 0xFF44 0x55) 0xFF0F 0x1F with
            scan_line_clock := 9 } 200) MEMORY_REG_LY = 0 ∧
    (ppu_execute
        { memory_write_8 (memory_write_8 Machine.initial 0xFF44 0x55) 0xFF0F 0x1F with
            scan_line_clock := 9 } 200).scan_line_clock = 0 ∧
    memory_read_8
      (ppu_execute
        { memory_write_8 (memory_write_8 Machine.initial 0xFF44 0x55) 0xFF0F 0x1F with
            scan_line_clock := 9 } 200) MEMORY_REG_IF = 0x1F :=
  ⟨(ppu_disabled_contract
      { memory_write_8 (memory_write_8 Machine.initial 0xFF44 0x55) 0xFF0F 0x1F with
          scan_line_clock := 9 } 200 (by decide)).1,
   (ppu_disabled_contract
      { memory_write_8 (memory_write_8 Machine.initial 0xFF44 0x55) 0xFF0F 0x1F with
          scan_line_clock := 9 } 200 (by decide)).2.1,
   (ppu_disabled_contract
      { memory_write_8 (memory_write_8 Machine.initial 0xFF44 0x55) 0xFF0F 0x1F with
          scan_line_clock := 9 } 200 (by decide)).2.2.1⟩

/-! ## C25: one scanline step -/

/-- C25, the code where the claim fails. With the display enabled and accumulator 14, the
cycle count 2^64 - 1 makes `k + c` equal to 2^64 + 13, above the threshold 15, but the
64-bit accumulator wraps to 13: no scanline is completed and LY stays 0. And from LY = 255
a completed scanline stores 0, the 8-bit wrap of 256. -/
theorem ppu_sums_wrap :
    14 + 18446744073709551615 ≥ CLOCK_CYCLES_PER_SCANLINE ∧
    (ppu_execute { memory_write_8 Machine.initial 0xFF40 0x80 with scan_line_clock := 14 }
      18446744073709551615).scan_line_clock = 13 ∧
    memory_read_8
      (ppu_execute { memory_write_8 Machine.initial 0xFF40 0x80 with scan_line_clock := 14 }
        18446744073709551615) MEMORY_REG_LY = 0 ∧
    memory_read_8
      (ppu_execute (memory_write_8 (memory_write_8 Machine.initial 0xFF40 0x80) 0xFF44 255) 15)
      MEMORY_REG_LY = 0 := by
  decide

/-- C25, amended. With the display enabled, for every accumulator value `k`, cycle count
`c` and line number LY, writing `a` for `(k + c) mod 2^64`, the accumulator after the
64-bit addition: if `a` reaches the per-scanline threshold 15, `ppu_execute(c)` resets the
accumulator to 0 and sets LY to 0 when LY was 153 and to `(LY + 1) mod 256` otherwise,
advancing by exactly one line however large `c` is; if `a` is below the threshold, LY, STAT
and IF are unchanged and the accumulator becomes `a`. -/
theorem ppu_scanline_contract (s : Machine) (c : Nat)
    (hon : memory_read_8 s MEMORY_REG_LCDC &&& 0x80 ≠ 0) :
    (u64 (s.scan_line_clock + c) ≥ CLOCK_CYCLES_PER_SCANLINE →
      (ppu_execute s c).scan_line_clock = 0 ∧
      memory_read_8 (ppu_execute s c) MEMORY_REG_LY =
        if memory_read_8 s MEMORY_REG_LY = 153 then 0
        else (memory_read_8 s MEMORY_REG_LY + 1) % 256) ∧
    (u64 (s.scan_line_clock + c) < CLOCK_CYCLES_PER_SCANLINE →
      memory_read_8 (ppu_execute s c) MEMORY_REG_LY = memory_read_8 s MEMORY_REG_LY ∧
      memory_read_8 (ppu_execute s c) MEMORY_REG_STAT = memory_read_8 s MEMORY_REG_STAT ∧
      memory_read_8 (ppu_execute s c) MEMORY_REG_IF = memory_read_8 s MEMORY_REG_IF ∧
      (ppu_execute s c).scan_line_clock = u64 (s.scan_line_clock + c)) := by
  have hsum : u64 (s.scan_line_clock + u64 c) = u64 (s.scan_line_clock + c) :=
    Nat.add_mod_mod _ _ _
  constructor
  · intro hge
    rw [← hsum] at hge
    exact ppu_line_ly s c hon hge
  · intro hlt
    rw [← hsum] at hlt
    rw [ppu_execute_wait s c hon hlt, hsum]
    exact ⟨rfl, rfl, rfl, rfl⟩

/-- LCDC = 0x80, LY = 153, accumulator 10, 1000 cycles: one line is completed, LY wraps to 0
and the accumulator is 0. -/
theorem ppu_scanline_contract_witness :
    u64 (10 + 1000) ≥ CLOCK_CYCLES_PER_SCANLINE ∧
    (ppu_execute
      { memory_write_8 (memory_write_8 Machine.initial 0xFF40 0x80) 0xFF44 153 with
          scan_line_clock := 10 } 1000).scan_line_clock = 0 ∧
    memory_read_8
      (ppu_execute
        { memory_write_8 (memory_write_8 Machine.initial 0xFF40 0x80) 0xFF44 153 with
            scan_line_clock := 10 } 1000) MEMORY_REG_LY = 0 :=
  ⟨by decide,
   (ppu_scanline_contract
      { memory_write_8 (memory_write_8 Machine.initial 0xFF40 0x80) 0xFF44 153 with
          scan_line_clock := 10 } 1000 (by decide)).1 (by decide)⟩

/-! ## C26 to C28: the interrupts of a completed scanline -/

/-- OR-ing a mask in keeps every bit that was set. -/
theorem CHECK_BIT_or_mono (x m i : Nat) (h : CHECK_BIT x i = 1) : CHECK_BIT (x ||| m) i = 1 := by
  rw [CHECK_BIT_eq_testBit] at h ⊢
  rw [Nat.testBit_or]
  cases hx : x.testBit i
  · rw [hx] at h
    exact absurd h (by decide)
  · rfl

/-- Bit `i` of a value is set exactly when `CHECK_BIT` gives 1. -/
theorem CHECK_BIT_eq_one_iff (x i : Nat) : CHECK_BIT x i = 1 ↔ x.testBit i = true := by
  rw [CHECK_BIT_eq_testBit]
  cases x.testBit i <;> decide

/-- C26. With the display enabled, whenever a `ppu_execute` call completes a scanline (the
accumulator reaches 15 after the addition) and the new line number, the content of LY after
the call, equals 144, bit 0 (VBlank) of IF is set after the call; when the new line number
is not 144, bit 0 of IF is as it was before the call. -/
theorem vblank_request_contract (s : Machine) (c : Nat)
    (hon : memory_read_8 s MEMORY_REG_LCDC &&& 0x80 ≠ 0)
    (hge : u64 (s.scan_line_clock + u64 c) ≥ CLOCK_CYCLES_PER_SCANLINE)
    (hif : memory_read_8 s MEMORY_REG_IF < 256)
    (hstat : memory_read_8 s MEMORY_REG_STAT < 256) :
    (memory_read_8 (ppu_execute s c) MEMORY_REG_LY = 144 →
      CHECK_BIT (memory_read_8 (ppu_execute s c) MEMORY_REG_IF) MEMORY_IEF_VBLANK = 1) ∧
    (memory_read_8 (ppu_execute s c) MEMORY_REG_LY ≠ 144 →
      CHECK_BIT (memory_read_8 (ppu_execute s c) MEMORY_REG_IF) MEMORY_IEF_VBLANK =
        CHECK_BIT (memory_read_8 s MEMORY_REG_IF) MEMORY_IEF_VBLANK) := by
  have hIF := (ppu_line_registers s c hon hge hif hstat).2.2.1
  constructor
  · intro h
    rw [hIF, if_pos h]
    apply CHECK_BIT_or_mono
    rw [CHECK_BIT_or_two_pow]
    rfl
  · intro h
    rw [hIF, if_neg h]
    split
    · rw [CHECK_BIT_or_two_pow]
      rfl
    · rw [Nat.or_zero]

/-- LCDC = 0x80, LY = 143, IF = 0, accumulator 0, 15 cycles: the new line is 144 and IF
becomes 0x01. -/
theorem vblank_request_contract_witness :
    memory_read_8
      (ppu_execute (memory_write_8 (memory_write_8 Machine.initial 0xFF40 0x80) 0xFF44 143) 15)
      MEMORY_REG_LY = 144 ∧
    CHECK_BIT
      (memory_read_8
        (ppu_execute (memory_write_8 (memory_write_8 Machine.initial 0xFF40 0x80) 0xFF44 143) 15)
        MEMORY_REG_IF) MEMORY_IEF_VBLANK = 1 :=
  ⟨by decide,
   (vblank_request_contract
      (memory_write_8 (memory_write_8 Machine.initial 0xFF40 0x80) 0xFF44 143) 15
      (by decide) (by decide) (by decide) (by decide)).1 (by decide)⟩

/-- C27. With the display enabled, whenever a `ppu_execute` call completes a scanline and
the new line number equals LYC, the coincidence flag (bit 2 of STAT) is set after the call,
and bit 1 (LCD-status) of IF is set after the call if the coincidence-interrupt-enable bit
(bit 6 of STAT) is set and is as it was before the call otherwise. -/
theorem coincidence_contract (s : Machine) (c : Nat)
    (hon : memory_read_8 s MEMORY_REG_LCDC &&& 0x80 ≠ 0)
    (hge : u64 (s.scan_line_clock + u64 c) ≥ CLOCK_CYCLES_PER_SCANLINE)
    (hif : memory_read_8 s MEMORY_REG_IF < 256)
    (hstat : memory_read_8 s MEMORY_REG_STAT < 256)
    (heq : memory_read_8 (ppu_execute s c) MEMORY_REG_LY = memory_read_8 s MEMORY_REG_LYC) :
    CHECK_BIT (memory_read_8 (ppu_execute s c) MEMORY_REG_STAT) MEMORY_STAT_COINCID_FLAG = 1 ∧
    (CHECK_BIT (memory_read_8 s MEMORY_REG_STAT) MEMORY_STAT_COINCID_INT = 1 →
      CHECK_BIT (memory_read_8 (ppu_execute s c) MEMORY_REG_IF) MEMORY_IEF_LCD_STAT = 1) ∧
    (CHECK_BIT (memory_read_8 s MEMORY_REG_STAT) MEMORY_STAT_COINCID_INT ≠ 1 →
      CHECK_BIT (memory_read_8 (ppu_execute s c) MEMORY_REG_IF) MEMORY_IEF_LCD_STAT =
        CHECK_BIT (memory_read_8 s MEMORY_REG_IF) MEMORY_IEF_LCD_STAT) := by
  have hIF := (ppu_line_registers s c hon hge hif hstat).2.2.1
  have hSTAT := (ppu_line_registers s c hon hge hif hstat).2.2.2
  refine ⟨?_, ?_, ?_⟩
  · rw [hSTAT, if_pos heq.symm, CHECK_BIT_or_two_pow]
    rfl
  · intro h6
    have h6' : memory_read_8 s MEMORY_REG_LYC =
          memory_read_8 (ppu_execute s c) MEMORY_REG_LY ∧
        (memory_read_8 s MEMORY_REG_STAT).testBit 6 = true :=
      ⟨heq.symm, (CHECK_BIT_eq_one_iff _ _).mp h6⟩
    rw [hIF, if_pos h6', CHECK_BIT_or_two_pow]
    rfl
  · intro h6
    have h6' : ¬ (memory_read_8 s MEMORY_REG_LYC =
          memory_read_8 (ppu_execute s c) MEMORY_REG_LY ∧
        (memory_read_8 s MEMORY_REG_STAT).testBit 6 = true) :=
      fun h => h6 ((CHECK_BIT_eq_one_iff _ _).mpr h.2)
    rw [hIF, if_neg h6', Nat.or_zero]
    split
    · rw [CHECK_BIT_or_two_pow]
      rfl
    · rfl

/-- LCDC = 0x80, STAT = 0x40 (coincidence interrupt enabled), LY = 4, LYC = 5, IF = 0,
accumulator 0, 15 cycles: the new line 5 equals LYC, STAT becomes 0x44 and IF 0x02. -/
theorem coincidence_contract_witness :
    memory_read_8
      (ppu_execute
        (memory_write_8 (memory_write_8 (memory_write_8 (memory_write_8 Machine.initial
          0xFF40 0x80) 0xFF41 0x40) 0xFF44 4) 0xFF45 5) 15) MEMORY_REG_LY = 5 ∧
    CHECK_BIT
      (memory_read_8
        (ppu_execute
          (memory_write_8 (memory_write_8 (memory_write_8 (memory_write_8 Machine.initial
            0xFF40 0x80) 0xFF41 0x40) 0xFF44 4) 0xFF45 5) 15) MEMORY_REG_STAT)
      MEMORY_STAT_COINCID_FLAG = 1 ∧
    CHECK_BIT
      (memory_read_8
        (ppu_execute
          (memory_write_8 (memory_write_8 (memory_write_8 (memory_write_8 Machine.initial
            0xFF40 0x80) 0xFF41 0x40) 0xFF44 4) 0xFF45 5) 15) MEMORY_REG_IF)
      MEMORY_IEF_LCD_STAT = 1 :=
  ⟨by decide,
   (coincidence_contract
      (memory_write_8 (memory_write_8 (memory_write_8 (memory_write_8 Machine.initial
        0xFF40 0x80) 0xFF41 0x40) 0xFF44 4) 0xFF45 5) 15
      (by decide) (by decide) (by decide) (by decide) (by decide)).1,
   (coincidence_contract
      (memory_write_8 (memory_write_8 (memory_write_8 (memory_write_8 Machine.initial
        0xFF40 0x80) 0xFF41 0x40) 0xFF44 4) 0xFF45 5) 15
      (by decide) (by decide) (by decide) (by decide) (by decide)).2.1 (by decide)⟩

/-- C28, the code at a failing input. LCDC = 0x80, STAT = 0x04 (coincidence flag set),
LY = 0, LYC = 5, accumulator 0: `ppu_execute(15)` completes a scanline, the new line number
1 differs from LYC, and the call `memory_write_reg_value(STAT, 2, false)` that should clear
the flag ORs a zero mask into STAT: STAT is still 0x04 and bit 2 is still set. -/
theorem coincidence_flag_is_not_cleared :
    memory_read_8
      (ppu_execute
        (memory_write_8 (memory_write_8 (memory_write_8 Machine.initial
          0xFF40 0x80) 0xFF41 0x04) 0xFF45 5) 15) MEMORY_REG_LY = 1 ∧
    memory_read_8
      (ppu_execute
        (memory_write_8 (memory_write_8 (memory_write_8 Machine.initial
          0xFF40 0x80) 0xFF41 0x04) 0xFF45 5) 15) MEMORY_REG_LYC = 5 ∧
    memory_read_8
      (ppu_execute
        (memory_write_8 (memory_write_8 (memory_write_8 Machine.initial
          0xFF40 0x80) 0xFF41 0x04) 0xFF45 5) 15) MEMORY_REG_STAT = 0x04 ∧
    CHECK_BIT
      (memory_read_8
        (ppu_execute
          (memory_write_8 (memory_write_8 (memory_write_8 Machine.initial
            0xFF40 0x80) 0xFF41 0x04) 0xFF45 5) 15) MEMORY_REG_STAT)
      MEMORY_STAT_COINCID_FLAG = 1 := by
  decide

/-! ## C29 and C30: what the peripherals keep -/

/-- C29. In every machine state with byte-valued memory and for all cycle counts, every bit
of IF that is set before `timer_execute` or `ppu_execute` is still set after it; after both
units have run, in either order, IF is the bitwise OR of its previous value and a mask of
raised bits among Timer (bit 2), LCD-status (bit 1) and VBlank (bit 0), so every bit set
before is still set. -/
theorem interrupt_requests_are_kept (s : Machine) (c1 c2 : Nat)
    (hbytes : ∀ x, s.memory x < 256) :
    (∀ i, CHECK_BIT (memory_read_8 s MEMORY_REG_IF) i = 1 →
      CHECK_BIT (memory_read_8 (timer_execute s c1) MEMORY_REG_IF) i = 1) ∧
    (∀ i, CHECK_BIT (memory_read_8 s MEMORY_REG_IF) i = 1 →
      CHECK_BIT (memory_read_8 (ppu_execute s c1) MEMORY_REG_IF) i = 1) ∧
    (∃ m, m ≤ 7 ∧ memory_read_8 (timer_execute (ppu_execute s c1) c2) MEMORY_REG_IF =
      memory_read_8 s MEMORY_REG_IF ||| m) ∧
    (∃ m, m ≤ 7 ∧ memory_read_8 (ppu_execute (timer_execute s c1) c2) MEMORY_REG_IF =
      memory_read_8 s MEMORY_REG_IF ||| m) ∧
    (∀ i, CHECK_BIT (memory_read_8 s MEMORY_REG_IF) i = 1 →
      CHECK_BIT (memory_read_8 (timer_execute (ppu_execute s c1) c2) MEMORY_REG_IF) i = 1 ∧
      CHECK_BIT (memory_read_8 (ppu_execute (timer_execute s c1) c2) MEMORY_REG_IF) i = 1) := by
  have hm7 : ∀ m : Nat, m ≤ 3 → m ||| 2 ^ 2 ≤ 7 := by decide
  have hpt : ∃ m, m ≤ 7 ∧ memory_read_8 (timer_execute (ppu_execute s c1) c2) MEMORY_REG_IF =
      memory_read_8 s MEMORY_REG_IF ||| m := by
    obtain ⟨m, hm, hp⟩ := ppu_execute_IF s c1 (hbytes _) (hbytes _)
    rcases timer_execute_IF (ppu_execute s c1) c2 (ppu_execute_bytes s c1 hbytes _) with h | h
    · exact ⟨m, by omega, by rw [h, hp]⟩
    · exact ⟨m ||| 2 ^ 2, hm7 m hm, by rw [h, hp, Nat.or_assoc]⟩
  have htp : ∃ m, m ≤ 7 ∧ memory_read_8 (ppu_execute (timer_execute s c1) c2) MEMORY_REG_IF =
      memory_read_8 s MEMORY_REG_IF ||| m := by
    obtain ⟨m, hm, hp⟩ := ppu_execute_IF (timer_execute s c1) c2
      (timer_execute_bytes s c1 hbytes _) (timer_execute_bytes s c1 hbytes _)
    rcases timer_execute_IF s c1 (hbytes _) with h | h
    · exact ⟨m, by omega, by rw [hp, h]⟩
    · exact ⟨2 ^ 2 ||| m, by rw [Nat.or_comm]; exact hm7 m hm, by rw [hp, h, Nat.or_assoc]⟩
  refine ⟨fun i hi => ?_, fun i hi => ?_, hpt, htp, fun i hi => ⟨?_, ?_⟩⟩
  · rcases timer_execute_IF s c1 (hbytes _) with h | h
    · rw [h]
      exact hi
    · rw [h]
      exact CHECK_BIT_or_mono _ _ _ hi
  · obtain ⟨m, _, hp⟩ := ppu_execute_IF s c1 (hbytes _) (hbytes _)
    rw [hp]
    exact CHECK_BIT_or_mono _ _ _ hi
  · obtain ⟨m, _, hp⟩ := hpt
    rw [hp]
    exact CHECK_BIT_or_mono _ _ _ hi
  · obtain ⟨m, _, hp⟩ := htp
    rw [hp]
    exact CHECK_BIT_or_mono _ _ _ hi

/-- From a blank memory with IF = 0x10, TAC = 0x05, TIMA = 0xFF, LCDC = 0x80 and LY = 143,
one iteration with 16 cycles (display, then timer) raises VBlank and Timer and keeps bit 4:
IF is 0x15. -/
theorem interrupt_requests_are_kept_witness :
    memory_read_8
      (timer_execute (ppu_execute
        (memory_write_8 (memory_write_8 (memory_write_8 (memory_write_8 (memory_write_8
          Machine.initial 0xFF0F 0x10) 0xFF07 0x05) 0xFF05 0xFF) 0xFF40 0x80) 0xFF44 143)
        16) 16) MEMORY_REG_IF = 0x15 ∧
    CHECK_BIT
      (memory_read_8
        (timer_execute (ppu_execute
          (memory_write_8 (memory_write_8 (memory_write_8 (memory_write_8 (memory_write_8
            Machine.initial 0xFF0F 0x10) 0xFF07 0x05) 0xFF05 0xFF) 0xFF40 0x80) 0xFF44 143)
          16) 16) MEMORY_REG_IF) 4 = 1 :=
  ⟨by decide,
   ((interrupt_requests_are_kept
      (memory_write_8 (memory_write_8 (memory_write_8 (memory_write_8 (memory_write_8
        Machine.initial 0xFF0F 0x10) 0xFF07 0x05) 0xFF05 0xFF) 0xFF40 0x80) 0xFF44 143)
      16 16
      (bytes_memory_write_8 _ _ _ (bytes_memory_write_8 _ _ _ (bytes_memory_write_8 _ _ _
        (bytes_memory_write_8 _ _ _ (bytes_memory_write_8 _ _ _
          (fun _ => Nat.zero_lt_succ 255))))))).2.2.2.2 4 (by decide)).1⟩

/-- C30. For every machine state and cycle count, `timer_execute` changes no memory cell
other than TIMA (0xFF05) and IF (0xFF0F), `ppu_execute` changes no memory cell other than
LY (0xFF44), STAT (0xFF41) and IF (0xFF0F), and neither changes any CPU register (A, B, C,
D, E, H, L), the flag register F, SP, PC, IME, the running flag or the instruction
counter. -/
theorem peripherals_write_only_their_registers (s : Machine) (c : Nat) :
    (∀ x, x ≠ 0xFF05 → x ≠ 0xFF0F → (timer_execute s c).memory x = s.memory x) ∧
    (∀ x, x ≠ 0xFF44 → x ≠ 0xFF41 → x ≠ 0xFF0F → (ppu_execute s c).memory x = s.memory x) ∧
    ((timer_execute s c).a = s.a ∧ (timer_execute s c).b = s.b ∧ (timer_execute s c).c = s.c ∧
      (timer_execute s c).d = s.d ∧ (timer_execute s c).e = s.e ∧ (timer_execute s c).h = s.h ∧
      (timer_execute s c).l = s.l ∧ (timer_execute s c).f = s.f ∧
      (timer_execute s c).sp = s.sp ∧ (timer_execute s c).pc = s.pc ∧
      (timer_execute s c).ime = s.ime ∧ (timer_execute s c).running = s.running ∧
      (timer_execute s c).nb_exec_inst = s.nb_exec_inst) ∧
    ((ppu_execute s c).a = s.a ∧ (ppu_execute s c).b = s.b ∧ (ppu_execute s c).c = s.c ∧
      (ppu_execute s c).d = s.d ∧ (ppu_execute s c).e = s.e ∧ (ppu_execute s c).h = s.h ∧
      (ppu_execute s c).l = s.l ∧ (ppu_execute s c).f = s.f ∧
      (ppu_execute s c).sp = s.sp ∧ (ppu_execute s c).pc = s.pc ∧
      (ppu_execute s c).ime = s.ime ∧ (ppu_execute s c).running = s.running ∧
      (ppu_execute s c).nb_exec_inst = s.nb_exec_inst) := by
  obtain ⟨ht, htm⟩ := timer_execute_framedBy s c
  obtain ⟨hp, hpm⟩ := ppu_execute_framedBy s c
  refine ⟨fun x h1 h2 => htm x ?_, fun x h1 h2 h3 => hpm x ?_, ?_, ?_⟩
  · intro hx
    simp only [List.mem_cons, List.mem_singleton, List.not_mem_nil, or_false] at hx
    rcases hx with e | e
    · exact h1 e
    · exact h2 e
  · intro hx
    simp only [List.mem_cons, List.mem_singleton, List.not_mem_nil, or_false] at hx
    rcases hx with e | e | e
    · exact h1 e
    · exact h2 e
    · exact h3 e
  · generalize timer_execute s c = t at ht
    rw [ht]
    exact ⟨rfl, rfl, rfl, rfl, rfl, rfl, rfl, rfl, rfl, rfl, rfl, rfl, rfl⟩
  · generalize ppu_execute s c = t at hp
    rw [hp]
    exact ⟨rfl, rfl, rfl, rfl, rfl, rfl, rfl, rfl, rfl, rfl, rfl, rfl, rfl⟩


/-! ## C31: power-on register values -/

/-- A 16-bit pair built from two bytes is the high byte shifted by 8, OR the low byte. -/
theorem pair_eq_shift_or (hi lo : Nat) (hlo : lo < 256) : hi * 256 + lo = hi <<< 8 ||| lo := by
  have h : lo < 2 ^ 8 := hlo
  rw [Nat.shiftLeft_eq, Nat.mul_comm hi (2 ^ 8), ← Nat.mul_add_lt_is_or h hi]
  omega

/-- C31. After `cpu_init` PC = 0x0100, SP = 0xFFFE, AF = 0x01B0, BC = 0x0013, DE = 0x00D8 and
HL = 0x014D, and the 8-bit views are A = 0x01, F = 0xB0, B = 0x00, C = 0x13, D = 0x00,
E = 0xD8, H = 0x01, L = 0x4D; in every state whose registers hold bytes each 16-bit view is
`high << 8 | low` of its two 8-bit views, the first-named register being the high byte. -/
theorem cpu_init_contract (s : Machine) :
    ((cpu_init s).pc = 0x0100 ∧ (cpu_init s).sp = 0xFFFE ∧ (cpu_init s).af = 0x01B0 ∧
      (cpu_init s).bc = 0x0013 ∧ (cpu_init s).de = 0x00D8 ∧ (cpu_init s).hl = 0x014D) ∧
    ((cpu_init s).a = 0x01 ∧ (cpu_init s).f = 0xB0 ∧ (cpu_init s).b = 0x00 ∧
      (cpu_init s).c = 0x13 ∧ (cpu_init s).d = 0x00 ∧ (cpu_init s).e = 0xD8 ∧
      (cpu_init s).h = 0x01 ∧ (cpu_init s).l = 0x4D) ∧
    (s.WF → s.af = s.a <<< 8 ||| s.f ∧ s.bc = s.b <<< 8 ||| s.c ∧
      s.de = s.d <<< 8 ||| s.e ∧ s.hl = s.h <<< 8 ||| s.l) := by
  have ha : (cpu_init s).a = 0x01 := by unfold cpu_init; rfl
  have hf : (cpu_init s).f = 0xB0 := by unfold cpu_init; rfl
  have hb : (cpu_init s).b = 0x00 := by unfold cpu_init; rfl
  have hc : (cpu_init s).c = 0x13 := by unfold cpu_init; rfl
  have hd : (cpu_init s).d = 0x00 := by unfold cpu_init; rfl
  have he : (cpu_init s).e = 0xD8 := by unfold cpu_init; rfl
  have hh : (cpu_init s).h = 0x01 := by unfold cpu_init; rfl
  have hl : (cpu_init s).l = 0x4D := by unfold cpu_init; rfl
  have hpc : (cpu_init s).pc = 0x0100 := by unfold cpu_init; rfl
  have hsp : (cpu_init s).sp = 0xFFFE := by unfold cpu_init; dsimp only
  have haf : (cpu_init s).af = 0x01B0 := by unfold Machine.af; rw [ha, hf]
  have hbc : (cpu_init s).bc = 0x0013 := by unfold Machine.bc; rw [hb, hc]
  have hde : (cpu_init s).de = 0x00D8 := by unfold Machine.de; rw [hd, he]
  have hhl : (cpu_init s).hl = 0x014D := by unfold Machine.hl; rw [hh, hl]
  refine ⟨⟨hpc, hsp, haf, hbc, hde, hhl⟩, ⟨ha, hf, hb, hc, hd, he, hh, hl⟩,
    fun hwf => ⟨?_, ?_, ?_, ?_⟩⟩
  · exact pair_eq_shift_or s.a s.f hwf.f_lt
  · exact pair_eq_shift_or s.b s.c hwf.c_lt
  · exact pair_eq_shift_or s.d s.e hwf.e_lt
  · exact pair_eq_shift_or s.h s.l hwf.l_lt

/-- The state after `cpu_init` on the start state is well formed, and its AF view 0x01B0 is
`A << 8 | F` with A = 0x01 and F = 0xB0. -/
theorem cpu_init_contract_witness :
    (cpu_init Machine.initial).WF ∧
    (cpu_init Machine.initial).af = (cpu_init Machine.initial).a <<< 8 |||
      (cpu_init Machine.initial).f ∧
    (cpu_init Machine.initial).af = 0x01B0 :=
  ⟨⟨by decide, by decide, by decide, by decide, by decide, by decide, by decide, by decide,
      by decide, by decide, fun _ => Nat.zero_lt_succ 255, by decide⟩,
   ((cpu_init_contract (cpu_init Machine.initial)).2.2
      ⟨by decide, by decide, by decide, by decide, by decide, by decide, by decide, by decide,
        by decide, by decide, fun _ => Nat.zero_lt_succ 255, by decide⟩).1,
   (cpu_init_contract Machine.initial).1.2.2.1⟩

/-! ## C32: power-on register table -/

/-- A run of `memory[index] = val` assignments leaves the cells it does not name alone. -/
theorem store_run_other (l : List (Nat × Nat)) :
    ∀ (s : Machine) (x : Nat), x ∉ l.map Prod.fst →
      (l.foldl (fun st p => memory_store st p.1 p.2) s).memory x = s.memory x := by
  induction l with
  | nil => exact fun _ _ _ => rfl
  | cons p l ih =>
    intro s x hx
    rw [List.map_cons, List.mem_cons, not_or] at hx
    rw [List.foldl_cons, ih _ x hx.2]
    show (if x = p.1 then u8 p.2 else s.memory x) = s.memory x
    rw [if_neg hx.1]

/-- After a run of assignments to pairwise distinct cells, each named cell holds the value
assigned to it. -/
theorem store_run_named (l : List (Nat × Nat)) :
    ∀ (s : Machine), (l.map Prod.fst).Nodup → ∀ p ∈ l,
      (l.foldl (fun st p => memory_store st p.1 p.2) s).memory p.1 = u8 p.2 := by
  induction l with
  | nil => exact fun _ _ p hp => absurd hp (List.not_mem_nil p)
  | cons q l ih =>
    intro s hnd p hp
    rw [List.map_cons, List.nodup_cons] at hnd
    rw [List.foldl_cons]
    rcases List.mem_cons.mp hp with e | hp'
    · subst e
      rw [store_run_other l _ _ hnd.1]
      show (if p.1 = p.1 then u8 p.2 else s.memory p.1) = u8 p.2
      rw [if_pos rfl]
    · exact ih _ hnd.2 p hp'

/-- Function `memory_init` is the run of the assignments listed in `memory_init_table`. -/
theorem memory_init_eq_run (s : Machine) :
    memory_init s = memory_init_table.foldl (fun st p => memory_store st p.1 p.2) s := rfl

theorem memory_init_table_nodup : (memory_init_table.map Prod.fst).Nodup := by decide

theorem memory_init_table_range :
    ∀ p ∈ memory_init_table, p.1 < 65536 ∧ p.2 < 256 := by decide

/-- A run of `memory[index] = val` assignments changes the memory only. -/
theorem store_run_frame (l : List (Nat × Nat)) :
    ∀ (s : Machine), l.foldl (fun st p => memory_store st p.1 p.2) s =
      { s with memory := (l.foldl (fun st p => memory_store st p.1 p.2) s).memory } := by
  induction l with
  | nil => exact fun _ => rfl
  | cons p l ih =>
    intro s
    rw [List.foldl_cons]
    exact (ih (memory_store s p.1 p.2)).trans rfl

theorem with_memory_self (t : Machine) : ({ t with memory := t.memory } : Machine) = t := rfl

/-- Function `memory_init` changes the memory only. -/
theorem memory_init_frame (s : Machine) :
    memory_init s = { s with memory := (memory_init s).memory } := by
  rw [memory_init_eq_run]
  exact store_run_frame _ s


theorem memory_init_named (t : Machine) : ∀ p ∈ memory_init_table,
    (memory_init t).memory p.1 = p.2 := by
  intro p hp
  rw [memory_init_eq_run, store_run_named _ t memory_init_table_nodup p hp]
  exact Nat.mod_eq_of_lt (memory_init_table_range p hp).2

theorem memory_init_read (s : Machine) :
    ∀ p ∈ memory_init_table, memory_read_8 (memory_init s) p.1 = p.2 := by
  intro p hp
  unfold memory_read_8
  have hu : u16 p.1 = p.1 := Nat.mod_eq_of_lt (memory_init_table_range p hp).1
  rw [hu]
  exact memory_init_named s p hp

theorem memory_init_other (t : Machine) (x : Nat) (hx : x ∉ memory_init_table.map Prod.fst) :
    (memory_init t).memory x = t.memory x := by
  rw [memory_init_eq_run]
  exact store_run_other _ t x hx

theorem memory_init_idem (s : Machine) : memory_init (memory_init s) = memory_init s := by
  have hm : (memory_init (memory_init s)).memory = (memory_init s).memory := by
    funext x
    by_cases hx : x ∈ memory_init_table.map Prod.fst
    · obtain ⟨p, hp, rfl⟩ := List.mem_map.mp hx
      rw [memory_init_named (memory_init s) p hp, memory_init_named s p hp]
    · exact memory_init_other (memory_init s) x hx
  exact (memory_init_frame (memory_init s)).trans
      ((congrArg (fun m => ({ memory_init s with memory := m } : Machine)) hm).trans
        (with_memory_self (memory_init s)))

/-- The register values named in the power-on description. -/
theorem memory_init_values (s : Machine) :
    memory_read_8 (memory_init s) MEMORY_REG_TIMA = 0x00 ∧
    memory_read_8 (memory_init s) MEMORY_REG_TMA = 0x00 ∧
    memory_read_8 (memory_init s) MEMORY_REG_TAC = 0x00 ∧
    memory_read_8 (memory_init s) MEMORY_REG_LCDC = 0x91 ∧
    memory_read_8 (memory_init s) MEMORY_REG_BGP = 0xFC ∧
    memory_read_8 (memory_init s) MEMORY_REG_OBP0 = 0xFF ∧
    memory_read_8 (memory_init s) MEMORY_REG_OBP1 = 0xFF ∧
    memory_read_8 (memory_init s) MEMORY_REG_NR52 = 0xF1 ∧
    memory_read_8 (memory_init s) MEMORY_REG_IE = 0x00 :=
  ⟨memory_init_read s (MEMORY_REG_TIMA, 0x00) (by decide),
    memory_init_read s (MEMORY_REG_TMA, 0x00) (by decide),
    memory_init_read s (MEMORY_REG_TAC, 0x00) (by decide),
    memory_init_read s (MEMORY_REG_LCDC, 0x91) (by decide),
    memory_init_read s (MEMORY_REG_BGP, 0xFC) (by decide),
    memory_init_read s (MEMORY_REG_OBP0, 0xFF) (by decide),
    memory_init_read s (MEMORY_REG_OBP1, 0xFF) (by decide),
    memory_init_read s (MEMORY_REG_NR52, 0xF1) (by decide),
    memory_init_read s (MEMORY_REG_IE, 0x00) (by decide)⟩

/-- After `memory_init` the timer is disabled and the display enabled. -/
theorem memory_init_enable_bits (s : Machine) :
    memory_get_reg_value (memory_init s) MEMORY_REG_TAC MEMORY_TAC_TIMER_ENABLED = false ∧
    memory_get_reg_value (memory_init s) MEMORY_REG_LCDC MEMORY_LCDC_PPU_ENABLED = true := by
  constructor
  · rw [← Bool.not_eq_true, timer_on_iff, (memory_init_values s).2.2.1]
    decide
  · rw [lcd_on_iff, (memory_init_values s).2.2.2.1]
    decide

/-- C32. The table of `memory_init` has 31 pairs with pairwise distinct addresses; after
`memory_init` each listed register reads its table value and every other memory cell is
unchanged; in particular TIMA = TMA = TAC = 0x00, LCDC = 0x91, BGP = 0xFC,
OBP0 = OBP1 = 0xFF, NR52 = 0xF1 and IE = 0x00, so the timer-enable bit (bit 2 of TAC) is
clear and the display-enable bit (bit 7 of LCDC) is set; and `memory_init` run twice gives
the same state as run once. -/
theorem memory_init_contract (s : Machine) :
    memory_init_table.length = 31 ∧ (memory_init_table.map Prod.fst).Nodup ∧
    (∀ p ∈ memory_init_table, memory_read_8 (memory_init s) p.1 = p.2) ∧
    (∀ x, x ∉ memory_init_table.map Prod.fst → (memory_init s).memory x = s.memory x) ∧
    (memory_read_8 (memory_init s) MEMORY_REG_TIMA = 0x00 ∧
      memory_read_8 (memory_init s) MEMORY_REG_TMA = 0x00 ∧
      memory_read_8 (memory_init s) MEMORY_REG_TAC = 0x00 ∧
      memory_read_8 (memory_init s) MEMORY_REG_LCDC = 0x91 ∧
      memory_read_8 (memory_init s) MEMORY_REG_BGP = 0xFC ∧
      memory_read_8 (memory_init s) MEMORY_REG_OBP0 = 0xFF ∧
      memory_read_8 (memory_init s) MEMORY_REG_OBP1 = 0xFF ∧
      memory_read_8 (memory_init s) MEMORY_REG_NR52 = 0xF1 ∧
      memory_read_8 (memory_init s) MEMORY_REG_IE = 0x00) ∧
    memory_get_reg_value (memory_init s) MEMORY_REG_TAC MEMORY_TAC_TIMER_ENABLED = false ∧
    memory_get_reg_value (memory_init s) MEMORY_REG_LCDC MEMORY_LCDC_PPU_ENABLED = true ∧
    memory_init (memory_init s) = memory_init s :=
  ⟨rfl, memory_init_table_nodup, memory_init_read s, memory_init_other s,
    memory_init_values s, (memory_init_enable_bits s).1, (memory_init_enable_bits s).2,
    memory_init_idem s⟩

/-! ## C33 and C34: cartridge header -/

/-- For the ROM-size codes 0 to 6 the stored bank count is `2^(code + 1)`. -/
theorem rom_size_small_codes (s : Machine) (cartridge : cartridge_t) (c : Nat) (hc : c ≤ 6)
    (hcode : memory_read_8 s CARTRIDGE_HEADER_ROM_SIZE = c) :
    (parse_header s cartridge).map cartridge_t.rom_size = some (2 ^ (c + 1)) := by
  have hv : ∀ c, c ≤ 6 → (2 * MEMORY_ROM_BANK_SIZE) <<< c < 2 ^ 31 ∧
      u8 (((2 * MEMORY_ROM_BANK_SIZE) <<< c) / MEMORY_ROM_BANK_SIZE) = 2 ^ (c + 1) := by
    decide
  unfold parse_header
  dsimp only
  rw [hcode, if_pos (hv c hc).1, (hv c hc).2]
  rfl

/-- C33, the code at failing inputs. With the ROM-size code 0x07 the expression
`(2 * 16384 << 7) / 16384` is 256, and the assignment to the `uint8_t` field `rom_size`
stores 0; with the code 0x08 the expression is 512 and 0 is stored again. With the code
0x01 the stored count is 4. -/
theorem rom_size_truncated_to_byte :
    (2 * 16384 <<< 7) / 16384 = 256 ∧
    (parse_header (memory_write_8 Machine.initial 0x148 0x07) cartridge_t.initial).map
      cartridge_t.rom_size = some 0 ∧
    (2 * 16384 <<< 8) / 16384 = 512 ∧
    (parse_header (memory_write_8 Machine.initial 0x148 0x08) cartridge_t.initial).map
      cartridge_t.rom_size = some 0 ∧
    (parse_header (memory_write_8 Machine.initial 0x148 0x01) cartridge_t.initial).map
      cartridge_t.rom_size = some 4 := by
  decide

/-- The mode decoded by `parse_header` depends on the two tests `cgb_flag & 0x80` and
`cgb_flag & 0xc0`, taken in this order. -/
theorem parse_header_mode (s : Machine) (cartridge : cartridge_t) (c : cartridge_t)
    (h : parse_header s cartridge = some c) :
    c.mode =
      if memory_read_8 s CARTRIDGE_HEADER_CGB_FLAG &&& 0x80 ≠ 0 then cgb_mode_t.CGB_SUPPORT
      else if memory_read_8 s CARTRIDGE_HEADER_CGB_FLAG &&& 0xc0 ≠ 0 then cgb_mode_t.CGB_ONLY
      else cgb_mode_t.UNKNOWN_MODE := by
  unfold parse_header at h
  dsimp only at h
  split at h
  · injection h with h
    rw [← h]
    rfl
  · exact absurd h (by simp)

/-- C34, the code at failing inputs. The mode byte 0xC0, both high bits set, is decoded as
`CGB_SUPPORT`, because the test `cgb_flag & 0x80` comes first and succeeds; the mode byte
0x40, bit 7 clear, is decoded as `CGB_ONLY`, because `cgb_flag & 0xc0` is non-zero. The
bytes 0x80 and 0x00 are decoded as `CGB_SUPPORT` and `UNKNOWN_MODE`. -/
theorem cgb_mode_decoded_by_bit_tests :
    (parse_header (memory_write_8 Machine.initial 0x143 0xC0) cartridge_t.initial).map
      cartridge_t.mode = some cgb_mode_t.CGB_SUPPORT ∧
    (parse_header (memory_write_8 Machine.initial 0x143 0x40) cartridge_t.initial).map
      cartridge_t.mode = some cgb_mode_t.CGB_ONLY ∧
    (parse_header (memory_write_8 Machine.initial 0x143 0x80) cartridge_t.initial).map
      cartridge_t.mode = some cgb_mode_t.CGB_SUPPORT ∧
    (parse_header (memory_write_8 Machine.initial 0x143 0x00) cartridge_t.initial).map
      cartridge_t.mode = some cgb_mode_t.UNKNOWN_MODE := by
  decide

/-! ## C35: the line number stays in range -/

/-- One `ppu_execute` call keeps LY at or below 153. -/
theorem ppu_ly_le_153 (s : Machine) (c : Nat) (h : memory_read_8 s MEMORY_REG_LY ≤ 153) :
    memory_read_8 (ppu_execute s c) MEMORY_REG_LY ≤ 153 := by
  by_cases hon : memory_read_8 s MEMORY_REG_LCDC &&& 0x80 ≠ 0
  · by_cases hge : u64 (s.scan_line_clock + u64 c) ≥ CLOCK_CYCLES_PER_SCANLINE
    · rw [(ppu_line_ly s c hon hge).2]
      split
      · exact Nat.zero_le _
      · rename_i hne
        have hlt : memory_read_8 s MEMORY_REG_LY + 1 < 256 := by omega
        show (memory_read_8 s MEMORY_REG_LY + 1) % 256 ≤ 153
        rw [Nat.mod_eq_of_lt hlt]
        omega
    · rw [ppu_execute_wait s c hon (Nat.not_le.mp hge)]
      exact h
  · rw [(ppu_off_step s c (not_not.mp hon)).1]
    exact Nat.zero_le _

/-- A run of `ppu_execute` calls keeps LY at or below 153. -/
theorem ppu_run_ly_le_153 (cs : List Nat) :
    ∀ s : Machine, memory_read_8 s MEMORY_REG_LY ≤ 153 →
      memory_read_8 (cs.foldl ppu_execute s) MEMORY_REG_LY ≤ 153 := by
  induction cs with
  | nil => exact fun _ h => h
  | cons c cs ih => exact fun s h => ih (ppu_execute s c) (ppu_ly_le_153 s c h)

/-- C35. In every machine state with LY ≤ 153 and for every cycle count, LY ≤ 153 still
holds after `ppu_execute`, with the display enabled or not; hence after any sequence of
`ppu_execute` calls from such a state, in particular from LY = 0, LY is at most 153. -/
theorem ly_stays_in_range (s : Machine) (c : Nat) (h : memory_read_8 s MEMORY_REG_LY ≤ 153) :
    memory_read_8 (ppu_execute s c) MEMORY_REG_LY ≤ 153 ∧
    (∀ cs : List Nat, memory_read_8 (cs.foldl ppu_execute s) MEMORY_REG_LY ≤ 153) ∧
    (∀ s0 : Machine, memory_read_8 s0 MEMORY_REG_LY = 0 → ∀ cs : List Nat,
      memory_read_8 (cs.foldl ppu_execute s0) MEMORY_REG_LY ≤ 153) :=
  ⟨ppu_ly_le_153 s c h, fun cs => ppu_run_ly_le_153 cs s h,
    fun s0 h0 cs => ppu_run_ly_le_153 cs s0 (by rw [h0]; exact Nat.zero_le _)⟩

/-- LCDC = 0x80, LY = 153, accumulator 0, 15 cycles: the line number wraps to 0 instead of
reaching 154. -/
theorem ly_stays_in_range_witness :
    memory_read_8 (memory_write_8 (memory_write_8 Machine.initial 0xFF40 0x80) 0xFF44 153)
      MEMORY_REG_LY ≤ 153 ∧
    memory_read_8
      (ppu_execute (memory_write_8 (memory_write_8 Machine.initial 0xFF40 0x80) 0xFF44 153) 15)
      MEMORY_REG_LY ≤ 153 ∧
    memory_read_8
      (ppu_execute (memory_write_8 (memory_write_8 Machine.initial 0xFF40 0x80) 0xFF44 153) 15)
      MEMORY_REG_LY = 0 :=
  ⟨by decide,
   (ly_stays_in_range
      (memory_write_8 (memory_write_8 Machine.initial 0xFF40 0x80) 0xFF44 153) 15
      (by decide)).1,
   by decide⟩

/-! ## C40: the two encodings of LD C, A -/

/-- C40. For two machine states that differ at most in memory, the first with 0x79 at PC
and the second with 0x4F at PC, `cpu_execute_inst` returns 4 cycles for both and produces
the same registers, flags, SP, PC, IME, running flag and instruction counter; both copy A
into C, leave A unchanged, advance PC by 1 and leave their memory as it was. -/
theorem ld_c_a_twins (s : Machine) (m2 : Nat → Nat)
    (h1 : memory_read_8 s s.pc = 0x79)
    (h2 : memory_read_8 { s with memory := m2 } s.pc = 0x4F) :
    (cpu_execute_inst s).2 = 4 ∧ (cpu_execute_inst { s with memory := m2 }).2 = 4 ∧
    ((cpu_execute_inst s).1.a = (cpu_execute_inst { s with memory := m2 }).1.a ∧
      (cpu_execute_inst s).1.b = (cpu_execute_inst { s with memory := m2 }).1.b ∧
      (cpu_execute_inst s).1.c = (cpu_execute_inst { s with memory := m2 }).1.c ∧
      (cpu_execute_inst s).1.d = (cpu_execute_inst { s with memory := m2 }).1.d ∧
      (cpu_execute_inst s).1.e = (cpu_execute_inst { s with memory := m2 }).1.e ∧
      (cpu_execute_inst s).1.h = (cpu_execute_inst { s with memory := m2 }).1.h ∧
      (cpu_execute_inst s).1.l = (cpu_execute_inst { s with memory := m2 }).1.l ∧
      (cpu_execute_inst s).1.f = (cpu_execute_inst { s with memory := m2 }).1.f ∧
      (cpu_execute_inst s).1.sp = (cpu_execute_inst { s with memory := m2 }).1.sp ∧
      (cpu_execute_inst s).1.pc = (cpu_execute_inst { s with memory := m2 }).1.pc ∧
      (cpu_execute_inst s).1.ime = (cpu_execute_inst { s with memory := m2 }).1.ime ∧
      (cpu_execute_inst s).1.running = (cpu_execute_inst { s with memory := m2 }).1.running ∧
      (cpu_execute_inst s).1.nb_exec_inst =
        (cpu_execute_inst { s with memory := m2 }).1.nb_exec_inst) ∧
    ((cpu_execute_inst s).1.c = s.a ∧ (cpu_execute_inst s).1.a = s.a ∧
      (cpu_execute_inst s).1.f = s.f ∧ (cpu_execute_inst s).1.pc = (s.pc + 1) % 65536) ∧
    (cpu_execute_inst s).1.memory = s.memory ∧
    (cpu_execute_inst { s with memory := m2 }).1.memory = m2 := by
  rw [cpu_execute_inst_eq s _ h1, cpu_execute_inst_eq { s with memory := m2 } _ h2]
  exact ⟨rfl, rfl, ⟨rfl, rfl, rfl, rfl, rfl, rfl, rfl, rfl, rfl, rfl, rfl, rfl, rfl⟩,
    ⟨rfl, rfl, rfl, rfl⟩, rfl, rfl⟩

/-- At PC = 0x100 with A = 0x5A and C = 0: with 0x79 at PC, and with 0x4F at PC, the step
returns 4 cycles and C becomes 0x5A. -/
theorem ld_c_a_twins_witness :
    (cpu_execute_inst
      (memory_write_8 { Machine.initial with a := 0x5A, pc := 0x100 } 0x100 0x79)).1.c =
      (cpu_execute_inst
        { memory_write_8 { Machine.initial with a := 0x5A, pc := 0x100 } 0x100 0x79 with
            memory := (memory_write_8 { Machine.initial with a := 0x5A, pc := 0x100 }
              0x100 0x4F).memory }).1.c ∧
    (cpu_execute_inst
      (memory_write_8 { Machine.initial with a := 0x5A, pc := 0x100 } 0x100 0x79)).1.c = 0x5A :=
  ⟨(ld_c_a_twins
      (memory_write_8 { Machine.initial with a := 0x5A, pc := 0x100 } 0x100 0x79)
      (memory_write_8 { Machine.initial with a := 0x5A, pc := 0x100 } 0x100 0x4F).memory
      (by decide) (by decide)).2.2.1.2.2.1,
   (ld_c_a_twins
      (memory_write_8 { Machine.initial with a := 0x5A, pc := 0x100 } 0x100 0x79)
      (memory_write_8 { Machine.initial with a := 0x5A, pc := 0x100 } 0x100 0x4F).memory
      (by decide) (by decide)).2.2.2.1.1⟩

/-! ## C36: the IME flag is never consulted -/

theorem memory_write_16_ime (s : Machine) (b : Bool) (a w : Nat) :
    memory_write_16 { s with ime := b } a w = { memory_write_16 s a w with ime := b } := by
  unfold memory_write_16 memory_write
  split <;> rfl

/-- The shape shared by the pushes, CALL and RST, for any new value `v` of SP: the store
and the new PC do not depend on IME. -/
theorem push_shape_ime (s : Machine) (b : Bool) (v a w w' p p' n : Nat) (hw : w' = w)
    (hp : p' = p) :
    (({ memory_write_16 { { s with ime := b } with sp := v } a w' with pc := p' }, n) :
        Machine × Nat) =
      ({ (({ memory_write_16 { s with sp := v } a w with pc := p }, n) : Machine × Nat).1 with
          ime := b }, n) := by
  subst hw
  subst hp
  have h : ({ { s with ime := b } with sp := v } : Machine) =
      { ({ s with sp := v } : Machine) with ime := b } := rfl
  rw [h, memory_write_16_ime]

theorem ite_pair_ime (c : Prop) (d : Decidable c) (x y x' y' : Machine × Nat) (b : Bool)
    (hx : x' = ({ x.1 with ime := b }, x.2)) (hy : y' = ({ y.1 with ime := b }, y.2)) :
    (if c then x' else y') =
      ({ (if c then x else y).1 with ime := b }, (if c then x else y).2) := by
  split <;> assumption

theorem handle_cb_inst_ime (s : Machine) (b : Bool) (inst : Nat) :
    handle_cb_inst { s with ime := b } inst =
      ({ (handle_cb_inst s inst).1 with ime := b }, (handle_cb_inst s inst).2) := by
  unfold handle_cb_inst
  split <;> rfl

theorem cb_shape_ime (s : Machine) (b : Bool) (i i' : Nat) (hi : i' = i) :
    (({ (handle_cb_inst { s with ime := b } i').1 with
          pc := u16 ((handle_cb_inst { s with ime := b } i').1.pc + 2) },
        (handle_cb_inst { s with ime := b } i').2) : Machine × Nat) =
      ({ (({ (handle_cb_inst s i).1 with pc := u16 ((handle_cb_inst s i).1.pc + 2) },
          (handle_cb_inst s i).2) : Machine × Nat).1 with ime := b },
        (handle_cb_inst s i).2) := by
  subst hi
  rw [handle_cb_inst_ime]

/-- Every switch case other than DI and EI computes the same result from a machine whose IME
flag has been replaced, up to that flag. -/
theorem exec_inst_ime (s : Machine) (b : Bool) (op : Nat) (hdi : op ≠ 0xF3) (hei : op ≠ 0xFB) :
    exec_inst { s with ime := b } op =
      ({ (exec_inst s op).1 with ime := b }, (exec_inst s op).2) := by
  by_cases himpl : op ∈ primary_case_labels
  · by_cases hs : op ∈ [0x20, 0x28, 0x30, 0xc4, 0xc5, 0xc8, 0xca, 0xcb, 0xcd, 0xd5, 0xe5, 0xef,
        0xf5, 0xff]
    · simp only [List.mem_cons, List.mem_singleton, List.not_mem_nil, or_false] at hs
      rcases hs with e | e | e | e | e | e | e | e | e | e | e | e | e | e <;> subst e
      · rw [exec_jr_nz, exec_jr_nz]; exact ite_pair_ime _ _ _ _ _ _ b rfl rfl
      · rw [exec_jr_z, exec_jr_z]; exact ite_pair_ime _ _ _ _ _ _ b rfl rfl
      · rw [exec_jr_nc, exec_jr_nc]; exact ite_pair_ime _ _ _ _ _ _ b rfl rfl
      · rw [exec_call_nz, exec_call_nz]
        exact ite_pair_ime _ _ _ _ _ _ b (push_shape_ime s b _ _ _ _ _ _ _ rfl rfl) rfl
      · rw [exec_push_bc, exec_push_bc]
        exact push_shape_ime s b _ _ _ _ _ _ _ rfl
          (by rw [memory_write_16_pc, memory_write_16_pc])
      · rw [exec_ret_z, exec_ret_z]; exact ite_pair_ime _ _ _ _ _ _ b rfl rfl
      · rw [exec_jp_z, exec_jp_z]; exact ite_pair_ime _ _ _ _ _ _ b rfl rfl
      · rw [exec_cb, exec_cb]
        exact cb_shape_ime s b _ _ rfl
      · rw [exec_call, exec_call]
        exact push_shape_ime s b _ _ _ _ _ _ _ rfl rfl
      · rw [exec_push_de, exec_push_de]
        exact push_shape_ime s b _ _ _ _ _ _ _ rfl
          (by rw [memory_write_16_pc, memory_write_16_pc])
      · rw [exec_push_hl, exec_push_hl]
        exact push_shape_ime s b _ _ _ _ _ _ _ rfl
          (by rw [memory_write_16_pc, memory_write_16_pc])
      · rw [exec_rst_28, exec_rst_28]
        exact push_shape_ime s b _ _ _ _ _ _ _ rfl rfl
      · rw [exec_push_af, exec_push_af]
        exact push_shape_ime s b _ _ _ _ _ _ _ rfl
          (by rw [memory_write_16_pc, memory_write_16_pc])
      · rw [exec_rst_38, exec_rst_38]
        exact push_shape_ime s b _ _ _ _ _ _ _ rfl rfl
    · simp only [primary_case_labels, List.mem_cons, List.mem_singleton, List.not_mem_nil,
        or_false] at himpl
      rcases himpl with e | e | e | e | e | e | e | e | e | e | e | e | e | e | e | e | e |
        e | e | e | e | e | e | e | e | e | e | e | e | e | e | e | e | e | e | e | e | e |
        e | e | e | e | e | e | e | e | e | e | e | e | e | e | e | e | e | e | e | e | e |
        e | e | e | e | e | e | e | e | e | e | e | e | e | e | e | e | e | e | e | e | e |
        e | e | e | e <;> subst e <;>
        first
          | exact absurd rfl hdi
          | exact absurd rfl hei
          | exact absurd (by decide) hs
          | rfl
  · rw [exec_inst_unimplemented s op himpl, exec_inst_unimplemented _ op himpl]

/-- Whatever the opcode, replacing the IME flag changes at most the IME flag of the result
of the switch. -/
theorem exec_inst_ime_only (s : Machine) (b : Bool) (op : Nat) :
    ∃ i, exec_inst { s with ime := b } op =
      ({ (exec_inst s op).1 with ime := i }, (exec_inst s op).2) := by
  by_cases hdi : op = 0xF3
  · subst hdi
    exact ⟨false, rfl⟩
  · by_cases hei : op = 0xFB
    · subst hei
      exact ⟨true, rfl⟩
    · exact ⟨b, exec_inst_ime s b op hdi hei⟩

/-- C36. There is no interrupt dispatch. For every machine state and every value of the IME
flag, `cpu_execute_inst` run from the state with the flag replaced returns the same cycle
count and a state that agrees with the original run on A, F, B, C, D, E, H, L, SP, PC, the
running flag, the instruction counter, both accumulators and all memory: the two results
differ at most in IME. In particular a NOP at PC is executed as a NOP whatever IME and the
enable and request registers hold: SP and all memory (so every request bit) are unchanged,
PC advances by 1 and 4 cycles are returned. -/
theorem ime_is_never_consulted (s : Machine) (b : Bool) :
    ((cpu_execute_inst { s with ime := b }).2 = (cpu_execute_inst s).2 ∧
     (cpu_execute_inst { s with ime := b }).1 =
       { (cpu_execute_inst s).1 with ime := (cpu_execute_inst { s with ime := b }).1.ime } ∧
     (cpu_execute_inst { s with ime := b }).1.a = (cpu_execute_inst s).1.a ∧
     (cpu_execute_inst { s with ime := b }).1.f = (cpu_execute_inst s).1.f ∧
     (cpu_execute_inst { s with ime := b }).1.b = (cpu_execute_inst s).1.b ∧
     (cpu_execute_inst { s with ime := b }).1.c = (cpu_execute_inst s).1.c ∧
     (cpu_execute_inst { s with ime := b }).1.d = (cpu_execute_inst s).1.d ∧
     (cpu_execute_inst { s with ime := b }).1.e = (cpu_execute_inst s).1.e ∧
     (cpu_execute_inst { s with ime := b }).1.h = (cpu_execute_inst s).1.h ∧
     (cpu_execute_inst { s with ime := b }).1.l = (cpu_execute_inst s).1.l ∧
     (cpu_execute_inst { s with ime := b }).1.sp = (cpu_execute_inst s).1.sp ∧
     (cpu_execute_inst { s with ime := b }).1.pc = (cpu_execute_inst s).1.pc ∧
     (cpu_execute_inst { s with ime := b }).1.running = (cpu_execute_inst s).1.running ∧
     (cpu_execute_inst { s with ime := b }).1.memory = (cpu_execute_inst s).1.memory) ∧
    (memory_read_8 s s.pc = 0x00 →
      (cpu_execute_inst s).2 = 4 ∧ (cpu_execute_inst s).1.pc = u16 (s.pc + 1) ∧
      (cpu_execute_inst s).1.sp = s.sp ∧ (cpu_execute_inst s).1.memory = s.memory ∧
      (cpu_execute_inst s).1.ime = s.ime) := by
  refine ⟨?_, ?_⟩
  · obtain ⟨i, hi⟩ := exec_inst_ime_only s b (memory_read_8 s s.pc)
    have hop : memory_read_8 ({ s with ime := b } : Machine) ({ s with ime := b } : Machine).pc =
        memory_read_8 s s.pc := rfl
    rw [cpu_execute_inst_eq { s with ime := b } _ hop, cpu_execute_inst_eq s _ rfl, hi]
    generalize exec_inst s (memory_read_8 s s.pc) = r
    exact ⟨rfl, rfl, rfl, rfl, rfl, rfl, rfl, rfl, rfl, rfl, rfl, rfl, rfl, rfl⟩
  · intro hnop
    rw [cpu_execute_inst_eq s _ hnop]
    exact ⟨rfl, rfl, rfl, rfl, rfl⟩

/-- With IME set, the V-Blank bit set in both IE and IF, and a NOP at 0x0100, the step is a
NOP: 4 cycles, PC = 0x0101, SP and memory (hence IF = 0x01) untouched, IME still set. -/
theorem ime_is_never_consulted_witness :
    (cpu_execute_inst (memory_write_8 (memory_write_8
        { Machine.initial with ime := true, sp := 0xFFFE, pc := 0x100 }
        MEMORY_REG_IE 0x01) MEMORY_REG_IF 0x01)).2 = 4 ∧
    (cpu_execute_inst (memory_write_8 (memory_write_8
        { Machine.initial with ime := true, sp := 0xFFFE, pc := 0x100 }
        MEMORY_REG_IE 0x01) MEMORY_REG_IF 0x01)).1.pc = u16 (0x100 + 1) ∧
    (cpu_execute_inst (memory_write_8 (memory_write_8
        { Machine.initial with ime := true, sp := 0xFFFE, pc := 0x100 }
        MEMORY_REG_IE 0x01) MEMORY_REG_IF 0x01)).1.sp = 0xFFFE ∧
    (cpu_execute_inst (memory_write_8 (memory_write_8
        { Machine.initial with ime := true, sp := 0xFFFE, pc := 0x100 }
        MEMORY_REG_IE 0x01) MEMORY_REG_IF 0x01)).1.memory =
      (memory_write_8 (memory_write_8
        { Machine.initial with ime := true, sp := 0xFFFE, pc := 0x100 }
        MEMORY_REG_IE 0x01) MEMORY_REG_IF 0x01).memory ∧
    (cpu_execute_inst (memory_write_8 (memory_write_8
        { Machine.initial with ime := true, sp := 0xFFFE, pc := 0x100 }
        MEMORY_REG_IE 0x01) MEMORY_REG_IF 0x01)).1.ime = true :=
  (ime_is_never_consulted (memory_write_8 (memory_write_8
        { Machine.initial with ime := true, sp := 0xFFFE, pc := 0x100 }
        MEMORY_REG_IE 0x01) MEMORY_REG_IF 0x01) true).2 (by decide)

/-! ## C37: the two peripheral steps commute -/

theorem or_or_u8_comm (m x y : Nat) : u8 (u8 (m ||| x) ||| y) = u8 (u8 (m ||| y) ||| x) := by
  apply Nat.eq_of_testBit_eq
  intro i
  have h8 : (256 : Nat) = 2 ^ 8 := by norm_num
  simp only [u8, h8, Nat.testBit_mod_two_pow, Nat.testBit_or]
  cases decide (i < 8) <;> cases m.testBit i <;> cases x.testBit i <;> cases y.testBit i <;> rfl

/-- Function `memory_write_reg_value` for a bit number in 0..7, as one update of the
memory. -/
theorem memory_write_reg_value_eq (t : Machine) (a i : Nat) (p : Bool) (hi : i ≤ 7) :
    memory_write_reg_value t a i p =
      { t with memory := fun x =>
          if x = u16 a then u8 (t.memory (u16 a) ||| u8 ((if p then 1 else 0) <<< i))
          else t.memory x } := by
  rw [memory_write_reg_value_frame]
  congr 1
  funext x
  exact memory_write_reg_value_memory t a i p hi x

/-- Two OR-updates of registers commute, on one cell or on two. -/
theorem memory_write_reg_value_comm (t : Machine) (a b i j : Nat) (p q : Bool) (hi : i ≤ 7)
    (hj : j ≤ 7) :
    memory_write_reg_value (memory_write_reg_value t a i p) b j q =
      memory_write_reg_value (memory_write_reg_value t b j q) a i p := by
  rw [memory_write_reg_value_eq t a i p hi, memory_write_reg_value_eq t b j q hj,
    memory_write_reg_value_eq _ b j q hj, memory_write_reg_value_eq _ a i p hi]
  dsimp only
  congr 1
  funext x
  by_cases hab : u16 a = u16 b
  · rw [hab]
    by_cases hx : x = u16 b
    · simp only [hx, if_true]
      exact or_or_u8_comm _ _ _
    · simp only [hx, if_false]
  · have hba : ¬ u16 b = u16 a := fun e => hab e.symm
    by_cases hxa : x = u16 a
    · subst hxa
      simp only [hab, hba, if_true, if_false]
    · by_cases hxb : x = u16 b
      · subst hxb
        simp only [hab, hba, if_true, if_false]
      · simp only [hxa, hxb, hab, hba, if_false]

/-- A byte store and an OR-update of another cell commute. -/
theorem memory_write_8_reg_value_comm (t : Machine) (a b v j : Nat) (q : Bool) (hj : j ≤ 7)
    (hab : u16 a ≠ u16 b) :
    memory_write_reg_value (memory_write_8 t a v) b j q =
      memory_write_8 (memory_write_reg_value t b j q) a v := by
  rw [memory_write_reg_value_eq t b j q hj, memory_write_reg_value_eq _ b j q hj]
  unfold memory_write_8
  dsimp only
  congr 1
  funext x
  have hba : ¬ u16 b = u16 a := fun e => hab e.symm
  by_cases hxa : x = u16 a
  · subst hxa
    simp only [hab, hba, if_true, if_false]
  · by_cases hxb : x = u16 b
    · subst hxb
      simp only [hab, hba, if_true, if_false]
    · simp only [hxa, hxb, hab, hba, if_false]

/-- Byte stores to two different cells commute. -/
theorem memory_write_8_comm (t : Machine) (a b v w : Nat) (hab : u16 a ≠ u16 b) :
    memory_write_8 (memory_write_8 t a v) b w = memory_write_8 (memory_write_8 t b w) a v := by
  unfold memory_write_8
  dsimp only
  congr 1
  funext x
  have hba : ¬ u16 b = u16 a := fun e => hab e.symm
  by_cases hxa : x = u16 a
  · subst hxa
    simp only [hab, hba, if_true, if_false]
  · by_cases hxb : x = u16 b
    · subst hxb
      simp only [hab, hba, if_true, if_false]
    · simp only [hxa, hxb, if_false]

/-- Function `ppu_execute` commutes with every update `g` of the machine that leaves the
display accumulator and the cells other than TIMA and IF alone and commutes with the
primitive writes of `ppu_execute`. -/
theorem ppu_execute_commutes (g : Machine → Machine)
    (hmem : ∀ t x, x ≠ u16 MEMORY_REG_TIMA → x ≠ u16 MEMORY_REG_IF →
      (g t).memory x = t.memory x)
    (hclock : ∀ t, (g t).scan_line_clock = t.scan_line_clock)
    (hscan : ∀ t k, g { t with scan_line_clock := k } = { g t with scan_line_clock := k })
    (hw8 : ∀ t v, g (memory_write_8 t MEMORY_REG_LY v) = memory_write_8 (g t) MEMORY_REG_LY v)
    (hif : ∀ t i p, i ≤ 7 →
      g (memory_write_reg_value t MEMORY_REG_IF i p) =
        memory_write_reg_value (g t) MEMORY_REG_IF i p)
    (hstat : ∀ t i p, i ≤ 7 →
      g (memory_write_reg_value t MEMORY_REG_STAT i p) =
        memory_write_reg_value (g t) MEMORY_REG_STAT i p)
    (s : Machine) (c : Nat) : ppu_execute (g s) c = g (ppu_execute s c) := by
  have hr : ∀ t a, u16 a ≠ u16 MEMORY_REG_TIMA → u16 a ≠ u16 MEMORY_REG_IF →
      memory_read_8 (g t) a = memory_read_8 t a := fun t a h1 h2 => hmem t _ h1 h2
  have hint : ∀ t, memory_get_reg_value (g t) MEMORY_REG_STAT MEMORY_STAT_COINCID_INT =
      memory_get_reg_value t MEMORY_REG_STAT MEMORY_STAT_COINCID_INT := by
    intro t
    unfold memory_get_reg_value
    rw [hmem t _ (by decide) (by decide)]
  have hlcdc : memory_read_8 (g s) MEMORY_REG_LCDC = memory_read_8 s MEMORY_REG_LCDC :=
    hr s _ (by decide) (by decide)
  by_cases hoff : memory_read_8 s MEMORY_REG_LCDC &&& 0x80 = 0
  · have hoff' : memory_read_8 (g s) MEMORY_REG_LCDC &&& 0x80 = 0 := by
      rw [hlcdc]
      exact hoff
    rw [ppu_execute_off s c hoff, ppu_execute_off (g s) c hoff']
    exact ((hscan (memory_write_8 s MEMORY_REG_LY 0) 0).trans (by rw [hw8])).symm
  · have hon' : memory_read_8 (g s) MEMORY_REG_LCDC &&& 0x80 ≠ 0 := by
      rw [hlcdc]
      exact hoff
    by_cases hlt : u64 (s.scan_line_clock + u64 c) < CLOCK_CYCLES_PER_SCANLINE
    · have hlt' : u64 ((g s).scan_line_clock + u64 c) < CLOCK_CYCLES_PER_SCANLINE := by
        rw [hclock]
        exact hlt
      rw [ppu_execute_wait s c hoff hlt, ppu_execute_wait (g s) c hon' hlt', hclock]
      exact (hscan s _).symm
    · have hge : u64 (s.scan_line_clock + u64 c) ≥ CLOCK_CYCLES_PER_SCANLINE :=
        Nat.le_of_not_lt hlt
      have hge' : u64 ((g s).scan_line_clock + u64 c) ≥ CLOCK_CYCLES_PER_SCANLINE := by
        rw [hclock]
        exact hge
      rw [ppu_execute_line s c hoff hge, ppu_execute_line (g s) c hon' hge',
        hr s MEMORY_REG_LY (by decide) (by decide)]
      dsimp only
      generalize (if memory_read_8 s MEMORY_REG_LY = 153 then 0
        else u8 (memory_read_8 s MEMORY_REG_LY + 1)) = ly
      have h3 : memory_write_8 { g s with scan_line_clock := 0 } MEMORY_REG_LY ly =
          g (memory_write_8 { s with scan_line_clock := 0 } MEMORY_REG_LY ly) :=
        ((hw8 _ ly).trans
          (congrArg (fun t => memory_write_8 t MEMORY_REG_LY ly) (hscan s 0))).symm
      rw [h3]
      generalize memory_write_8 { s with scan_line_clock := 0 } MEMORY_REG_LY ly = t3
      have h4 : (if ly < 144 then g t3
          else if ly = 144 then
            memory_write_reg_value (g t3) MEMORY_REG_IF MEMORY_IEF_VBLANK true
          else g t3) =
          g (if ly < 144 then t3
            else if ly = 144 then memory_write_reg_value t3 MEMORY_REG_IF MEMORY_IEF_VBLANK true
            else t3) := by
        split
        · rfl
        · split
          · exact (hif _ _ _ (by decide)).symm
          · rfl
      rw [h4]
      generalize (if ly < 144 then t3
        else if ly = 144 then memory_write_reg_value t3 MEMORY_REG_IF MEMORY_IEF_VBLANK true
        else t3) = t
      rw [hr t MEMORY_REG_LYC (by decide) (by decide)]
      by_cases hc : memory_read_8 t MEMORY_REG_LYC = ly
      · rw [if_pos hc, if_pos hc, ← hstat t _ true (by decide), hint]
        by_cases hi : memory_get_reg_value
            (memory_write_reg_value t MEMORY_REG_STAT MEMORY_STAT_COINCID_FLAG true)
            MEMORY_REG_STAT MEMORY_STAT_COINCID_INT = true
        · rw [if_pos hi, if_pos hi, hif _ _ _ (by decide)]
        · rw [if_neg hi, if_neg hi]
      · rw [if_neg hc, if_neg hc, hstat _ _ _ (by decide)]

theorem memory_write_reg_value_scan_line_clock (t : Machine) (a i : Nat) (p : Bool) :
    (memory_write_reg_value t a i p).scan_line_clock = t.scan_line_clock := by
  unfold memory_write_reg_value
  split <;> rfl

theorem memory_write_reg_value_with_scan_line_clock (t : Machine) (a i : Nat) (p : Bool)
    (k : Nat) :
    memory_write_reg_value { t with scan_line_clock := k } a i p =
      { memory_write_reg_value t a i p with scan_line_clock := k } := by
  unfold memory_write_reg_value
  split <;> rfl

theorem memory_write_reg_value_with_tima_clock (t : Machine) (a i : Nat) (p : Bool)
    (k : Nat) :
    memory_write_reg_value { t with tima_clock := k } a i p =
      { memory_write_reg_value t a i p with tima_clock := k } := by
  unfold memory_write_reg_value
  split <;> rfl

/-- Function `ppu_execute` does not look at the timer accumulator. -/
theorem ppu_execute_with_tima_clock (s : Machine) (k c : Nat) :
    ppu_execute { s with tima_clock := k } c = { ppu_execute s c with tima_clock := k } :=
  ppu_execute_commutes (fun t => { t with tima_clock := k })
    (fun _ _ _ _ => rfl) (fun _ => rfl) (fun _ _ => rfl) (fun _ _ => rfl)
    (fun t i p _ => (memory_write_reg_value_with_tima_clock t _ i p k).symm)
    (fun t i p _ => (memory_write_reg_value_with_tima_clock t _ i p k).symm)
    s c

/-- Function `ppu_execute` commutes with a store to TIMA. -/
theorem ppu_execute_write_tima (s : Machine) (v c : Nat) :
    ppu_execute (memory_write_8 s MEMORY_REG_TIMA v) c =
      memory_write_8 (ppu_execute s c) MEMORY_REG_TIMA v :=
  ppu_execute_commutes (fun t => memory_write_8 t MEMORY_REG_TIMA v)
    (fun _ _ h1 _ => if_neg h1) (fun _ => rfl) (fun _ _ => rfl)
    (fun t w => memory_write_8_comm t MEMORY_REG_LY MEMORY_REG_TIMA w v (by decide))
    (fun t i p hi =>
      (memory_write_8_reg_value_comm t MEMORY_REG_TIMA MEMORY_REG_IF v i p hi (by decide)).symm)
    (fun t i p hi =>
      (memory_write_8_reg_value_comm t MEMORY_REG_TIMA MEMORY_REG_STAT v i p hi
        (by decide)).symm)
    s c

/-- Function `ppu_execute` commutes with the request of the timer interrupt. -/
theorem ppu_execute_request_timer (s : Machine) (c : Nat) :
    ppu_execute (memory_write_reg_value s MEMORY_REG_IF MEMORY_IEF_TIMER true) c =
      memory_write_reg_value (ppu_execute s c) MEMORY_REG_IF MEMORY_IEF_TIMER true :=
  ppu_execute_commutes (fun t => memory_write_reg_value t MEMORY_REG_IF MEMORY_IEF_TIMER true)
    (fun t x _ h2 => by
      rw [memory_write_reg_value_memory t _ _ _ (by decide), if_neg h2])
    (fun t => memory_write_reg_value_scan_line_clock t _ _ _)
    (fun t k => memory_write_reg_value_with_scan_line_clock t _ _ _ k)
    (fun t w =>
      memory_write_8_reg_value_comm t MEMORY_REG_LY MEMORY_REG_IF w MEMORY_IEF_TIMER true
        (by decide) (by decide))
    (fun t i p hi =>
      memory_write_reg_value_comm t MEMORY_REG_IF MEMORY_REG_IF i MEMORY_IEF_TIMER p true hi
        (by decide))
    (fun t i p hi =>
      memory_write_reg_value_comm t MEMORY_REG_STAT MEMORY_REG_IF i MEMORY_IEF_TIMER p true hi
        (by decide))
    s c

theorem ppu_execute_tima_clock (s : Machine) (c : Nat) :
    (ppu_execute s c).tima_clock = s.tima_clock := by
  have h := congrArg Machine.tima_clock (ppu_execute_with_tima_clock s s.tima_clock c)
  exact h

/-- Functions `timer_execute` and `ppu_execute`, called with the same cycle count, commute. -/
theorem timer_execute_ppu_execute_comm (s : Machine) (c : Nat) :
    timer_execute (ppu_execute s c) c = ppu_execute (timer_execute s c) c := by
  have hT : ∀ a, u16 a ≠ MEMORY_REG_LY → u16 a ≠ MEMORY_REG_STAT → u16 a ≠ MEMORY_REG_IF →
      memory_read_8 (ppu_execute s c) a = memory_read_8 s a := by
    intro a h1 h2 h3
    refine (ppu_execute_framedBy s c).2 _ ?_
    simp only [List.mem_cons, List.mem_singleton, List.not_mem_nil, or_false, not_or]
    exact ⟨h1, h2, h3⟩
  have htac := hT MEMORY_REG_TAC (by decide) (by decide) (by decide)
  have hk : (ppu_execute s c).tima_clock = s.tima_clock := ppu_execute_tima_clock s c
  have hsp : get_clock_speed (ppu_execute s c) = get_clock_speed s := by
    unfold get_clock_speed
    rw [htac]
  by_cases hoff : memory_read_8 s MEMORY_REG_TAC &&& 4 = 0
  · have hoff' : memory_read_8 (ppu_execute s c) MEMORY_REG_TAC &&& 4 = 0 := by
      rw [htac]
      exact hoff
    rw [timer_execute_off s c hoff, timer_execute_off (ppu_execute s c) c hoff']
    exact (ppu_execute_with_tima_clock s 0 c).symm
  · have hen' : memory_read_8 (ppu_execute s c) MEMORY_REG_TAC &&& 4 ≠ 0 := by
      rw [htac]
      exact hoff
    by_cases hlt : u64 (s.tima_clock + u64 c) < get_clock_speed s
    · have hlt' : u64 ((ppu_execute s c).tima_clock + u64 c) <
          get_clock_speed (ppu_execute s c) := by
        rw [hk, hsp]
        exact hlt
      rw [timer_execute_wait s c hoff hlt, timer_execute_wait (ppu_execute s c) c hen' hlt', hk]
      exact (ppu_execute_with_tima_clock s _ c).symm
    · have hge : u64 (s.tima_clock + u64 c) ≥ get_clock_speed s := Nat.le_of_not_lt hlt
      have hge' : u64 ((ppu_execute s c).tima_clock + u64 c) ≥
          get_clock_speed (ppu_execute s c) := by
        rw [hk, hsp]
        exact hge
      rw [timer_execute_tick s c hoff hge, timer_execute_tick (ppu_execute s c) c hen' hge',
        hT MEMORY_REG_TIMA (by decide) (by decide) (by decide),
        hT MEMORY_REG_TMA (by decide) (by decide) (by decide), hk]
      by_cases h : memory_read_8 s MEMORY_REG_TIMA = 0xff
      · rw [if_pos h, if_pos h, ppu_execute_request_timer, ppu_execute_write_tima,
          ppu_execute_with_tima_clock s (u64 (s.tima_clock + u64 c)) c]
      · rw [if_neg h, if_neg h, ppu_execute_write_tima,
          ppu_execute_with_tima_clock s (u64 (s.tima_clock + u64 c)) c]

/-- C37. Functions `timer_execute` and `ppu_execute` commute: for every machine state and
every cycle count `c`, running `timer_execute(c)` then `ppu_execute(c)` yields the same
machine state (memory, registers and both accumulators) as running `ppu_execute(c)` then
`timer_execute(c)`; so the two orders in which a driver loop can feed the peripherals after
a CPU step lead to the same state. -/
theorem timer_and_ppu_commute (s : Machine) (c : Nat) :
    ppu_execute (timer_execute s c) c = timer_execute (ppu_execute s c) c ∧
    run_ops [CoreOp.timer_step c, CoreOp.ppu_step c] s =
      run_ops [CoreOp.ppu_step c, CoreOp.timer_step c] s ∧
    run_ops [CoreOp.cpu_step, CoreOp.timer_step c, CoreOp.ppu_step c] s =
      run_ops [CoreOp.cpu_step, CoreOp.ppu_step c, CoreOp.timer_step c] s :=
  ⟨(timer_execute_ppu_execute_comm s c).symm, (timer_execute_ppu_execute_comm s c).symm,
    (timer_execute_ppu_execute_comm (cpu_execute_inst s).1 c).symm⟩

/-! ## C38: cycle counts -/

/-- The second-level switch returns 8 cycles for 0x37 and 0x87 and 0 otherwise. -/
theorem handle_cb_inst_cycles (s : Machine) (inst : Nat) :
    (handle_cb_inst s inst).2 = if inst = 0x37 ∨ inst = 0x87 then 8 else 0 := by
  unfold handle_cb_inst
  split
  · rfl
  · rfl
  · rename_i h1 h2
    have : ¬ (inst = 0x37 ∨ inst = 0x87) := fun h => h.elim h1 h2
    rw [if_neg this]

theorem exec_cb_cycles (s : Machine) :
    (exec_inst s 0xCB).2 =
      if memory_read_8 s (s.pc + 1) = 0x37 ∨ memory_read_8 s (s.pc + 1) = 0x87 then 8
      else 0 := by
  rw [exec_cb]
  dsimp only
  exact handle_cb_inst_cycles s _

theorem cpu_execute_inst_cycles (s : Machine) :
    (cpu_execute_inst s).2 = (exec_inst s (memory_read_8 s s.pc)).2 := rfl

/-- Every implemented primary opcode other than the 0xCB escape returns 4, 8, 12, 16, 20
or 24 cycles. -/
theorem exec_inst_cycles (s : Machine) (op : Nat) (h : op ∈ primary_case_labels)
    (hcb : op ≠ 0xCB) :
    (exec_inst s op).2 = 4 ∨ (exec_inst s op).2 = 8 ∨ (exec_inst s op).2 = 12 ∨
      (exec_inst s op).2 = 16 ∨ (exec_inst s op).2 = 20 ∨ (exec_inst s op).2 = 24 := by
  by_cases hs : op ∈ [0x20, 0x28, 0x30, 0xc4, 0xc8, 0xca]
  · simp only [List.mem_cons, List.mem_singleton, List.not_mem_nil, or_false] at hs
    rcases hs with e | e | e | e | e | e <;> subst e
    · rw [exec_jr_nz]; split
      · exact Or.inr (Or.inr (Or.inl rfl))
      · exact Or.inr (Or.inl rfl)
    · rw [exec_jr_z]; split
      · exact Or.inr (Or.inr (Or.inl rfl))
      · exact Or.inr (Or.inl rfl)
    · rw [exec_jr_nc]; split
      · exact Or.inr (Or.inr (Or.inl rfl))
      · exact Or.inr (Or.inl rfl)
    · rw [exec_call_nz]; dsimp only; split
      · exact Or.inr (Or.inr (Or.inr (Or.inr (Or.inr rfl))))
      · exact Or.inr (Or.inr (Or.inl rfl))
    · rw [exec_ret_z]; split
      · exact Or.inr (Or.inr (Or.inr (Or.inr (Or.inl rfl))))
      · exact Or.inr (Or.inl rfl)
    · rw [exec_jp_z]; split
      · exact Or.inr (Or.inr (Or.inr (Or.inl rfl)))
      · exact Or.inr (Or.inr (Or.inl rfl))
  · simp only [primary_case_labels, List.mem_cons, List.mem_singleton, List.not_mem_nil,
      or_false] at h
    rcases h with e | e | e | e | e | e | e | e | e | e | e | e | e | e | e | e | e | e | e | e |
      e | e | e | e | e | e | e | e | e | e | e | e | e | e | e | e | e | e | e | e |
      e | e | e | e | e | e | e | e | e | e | e | e | e | e | e | e | e | e | e | e |
      e | e | e | e | e | e | e | e | e | e | e | e | e | e | e | e | e | e | e | e |
      e | e | e | e <;> subst e <;>
      first
        | exact absurd rfl hcb
        | exact absurd (by decide) hs
        | exact Or.inl rfl
        | exact Or.inr (Or.inl rfl)
        | exact Or.inr (Or.inr (Or.inl rfl))
        | exact Or.inr (Or.inr (Or.inr (Or.inl rfl)))
        | exact Or.inr (Or.inr (Or.inr (Or.inr (Or.inl rfl))))
        | exact Or.inr (Or.inr (Or.inr (Or.inr (Or.inr rfl))))

/-- C38. In every machine state the cycle count returned by `cpu_execute_inst` is one of
0, 4, 8, 12, 16, 20, 24; it is 0 exactly when the byte at PC is none of the `case` labels of
the dispatch switch, or is 0xCB followed by a second byte other than 0x37 and 0x87, and
in that case the step halts the engine (`running = false`); every other step returns a
positive multiple of 4. -/
theorem cycle_count_contract (s : Machine) :
    (cpu_execute_inst s).2 ∈ [0, 4, 8, 12, 16, 20, 24] ∧
    ((cpu_execute_inst s).2 = 0 ↔
      (memory_read_8 s s.pc ∉ primary_case_labels ∨
        (memory_read_8 s s.pc = 0xCB ∧ memory_read_8 s (s.pc + 1) ≠ 0x37 ∧
          memory_read_8 s (s.pc + 1) ≠ 0x87))) ∧
    ((cpu_execute_inst s).2 = 0 → (cpu_execute_inst s).1.running = false) ∧
    ((cpu_execute_inst s).2 ≠ 0 →
      0 < (cpu_execute_inst s).2 ∧ (cpu_execute_inst s).2 % 4 = 0) := by
  rw [cpu_execute_inst_cycles, cpu_execute_inst_running]
  generalize memory_read_8 s s.pc = op
  by_cases himpl : op ∈ primary_case_labels
  · by_cases hcb : op = 0xCB
    · subst hcb
      rw [exec_cb_cycles, exec_cb_running]
      by_cases h2 : memory_read_8 s (s.pc + 1) = 0x37 ∨ memory_read_8 s (s.pc + 1) = 0x87
      · rw [if_pos h2, if_pos h2]
        refine ⟨by decide, ⟨fun h => absurd h (by decide), ?_⟩, fun h => absurd h (by decide),
          fun _ => ⟨by decide, rfl⟩⟩
        rintro (h | ⟨_, h37, h87⟩)
        · exact absurd himpl h
        · exact absurd h2 (fun h => h.elim h37 h87)
      · rw [if_neg h2, if_neg h2]
        exact ⟨by decide,
          ⟨fun _ => Or.inr ⟨rfl, fun h => h2 (Or.inl h), fun h => h2 (Or.inr h)⟩, fun _ => rfl⟩,
          fun _ => rfl, fun h => absurd rfl h⟩
    · have hc := exec_inst_cycles s op himpl hcb
      have hpos : (exec_inst s op).2 ≠ 0 ∧ (exec_inst s op).2 % 4 = 0 ∧
          (exec_inst s op).2 ∈ [0, 4, 8, 12, 16, 20, 24] := by
        rcases hc with h | h | h | h | h | h <;> rw [h] <;> decide
      refine ⟨hpos.2.2, ⟨fun h => absurd h hpos.1, ?_⟩, fun h => absurd h hpos.1,
        fun _ => ⟨Nat.pos_of_ne_zero hpos.1, hpos.2.1⟩⟩
      rintro (h | ⟨h, _⟩)
      · exact absurd himpl h
      · exact absurd h hcb
  · rw [exec_inst_unimplemented s op himpl]
    exact ⟨List.mem_cons_self _ _, ⟨fun _ => Or.inl himpl, fun _ => rfl⟩, fun _ => rfl,
      fun h => absurd rfl h⟩

/-- At PC = 0x100: the unassigned byte 0xD3 halts the engine with 0 cycles, and NOP returns
4 cycles. -/
theorem cycle_count_contract_witness :
    (cpu_execute_inst
      (memory_write_8 { Machine.initial with pc := 0x100, running := true } 0x100 0xD3)).1.running
        = false ∧
    (0 < (cpu_execute_inst { Machine.initial with pc := 0x100, running := true }).2 ∧
      (cpu_execute_inst { Machine.initial with pc := 0x100, running := true }).2 % 4 = 0) :=
  ⟨(cycle_count_contract
      (memory_write_8 { Machine.initial with pc := 0x100, running := true } 0x100 0xD3)).2.2.1
      (by decide),
   (cycle_count_contract { Machine.initial with pc := 0x100, running := true }).2.2.2
      (by decide)⟩

/-! ## C39: the low nibble of F -/

theorem CLEAR_BIT_low_nibble (f n : Nat) (hn : 4 ≤ n) (hn8 : n < 8) :
    CLEAR_BIT f n % 16 = f % 16 := by
  apply Nat.eq_of_testBit_eq
  intro i
  have h8 : (256 : Nat) = 2 ^ 8 := by norm_num
  have h16 : (16 : Nat) = 2 ^ 4 := by norm_num
  simp only [CLEAR_BIT, u8, h8, h16, Nat.testBit_mod_two_pow, Nat.testBit_and]
  by_cases hi : i < 4
  · have hm : (int_not (1 <<< n)).testBit i = true := by
      interval_cases n <;> interval_cases i <;> decide
    have h2 : i < 8 := by omega
    simp [hi, h2, hm]
  · simp [hi]

theorem FLIP_BIT_low_nibble (f n : Nat) (hn : 4 ≤ n) (hn8 : n < 8) :
    FLIP_BIT f n % 16 = f % 16 := by
  apply Nat.eq_of_testBit_eq
  intro i
  have h8 : (256 : Nat) = 2 ^ 8 := by norm_num
  have h16 : (16 : Nat) = 2 ^ 4 := by norm_num
  have hlt : 2 ^ n < 2 ^ 32 := Nat.pow_lt_pow_right (by norm_num) (by omega)
  simp only [FLIP_BIT, u8, h8, h16, Nat.one_shiftLeft, Nat.mod_eq_of_lt hlt,
    Nat.testBit_mod_two_pow, Nat.testBit_xor, Nat.testBit_two_pow]
  by_cases hi : i < 4
  · have h1 : ¬ n = i := by omega
    have h2 : i < 8 := by omega
    simp [hi, h1, h2]
  · simp [hi]

/-- The low nibble of a value, as a mask test and as a remainder. -/
theorem low_nibble_and_eq_mod (x : Nat) : x &&& 0x0F = x % 16 :=
  Nat.and_pow_two_sub_one_eq_mod x 4

theorem nib_zero : (0 : Nat) % 16 = 0 := rfl

theorem nib_set_Z (f : Nat) (h : f % 16 = 0) : SET_BIT f FLAG_Z % 16 = 0 :=
  (SET_BIT_low_nibble f FLAG_Z (by decide) (by decide)).trans h

theorem nib_set_N (f : Nat) (h : f % 16 = 0) : SET_BIT f FLAG_N % 16 = 0 :=
  (SET_BIT_low_nibble f FLAG_N (by decide) (by decide)).trans h

theorem nib_set_H (f : Nat) (h : f % 16 = 0) : SET_BIT f FLAG_H % 16 = 0 :=
  (SET_BIT_low_nibble f FLAG_H (by decide) (by decide)).trans h

theorem nib_set_C (f : Nat) (h : f % 16 = 0) : SET_BIT f FLAG_C % 16 = 0 :=
  (SET_BIT_low_nibble f FLAG_C (by decide) (by decide)).trans h

theorem nib_clear_Z (f : Nat) (h : f % 16 = 0) : CLEAR_BIT f FLAG_Z % 16 = 0 :=
  (CLEAR_BIT_low_nibble f FLAG_Z (by decide) (by decide)).trans h

theorem nib_clear_N (f : Nat) (h : f % 16 = 0) : CLEAR_BIT f FLAG_N % 16 = 0 :=
  (CLEAR_BIT_low_nibble f FLAG_N (by decide) (by decide)).trans h

theorem nib_clear_H (f : Nat) (h : f % 16 = 0) : CLEAR_BIT f FLAG_H % 16 = 0 :=
  (CLEAR_BIT_low_nibble f FLAG_H (by decide) (by decide)).trans h

theorem nib_clear_C (f : Nat) (h : f % 16 = 0) : CLEAR_BIT f FLAG_C % 16 = 0 :=
  (CLEAR_BIT_low_nibble f FLAG_C (by decide) (by decide)).trans h

theorem nib_flip_C (f : Nat) (h : f % 16 = 0) : FLIP_BIT f FLAG_C % 16 = 0 :=
  (FLIP_BIT_low_nibble f FLAG_C (by decide) (by decide)).trans h

theorem nib_ite (c : Prop) (d : Decidable c) (x y : Nat) (hx : x % 16 = 0) (hy : y % 16 = 0) :
    (@ite Nat c d x y) % 16 = 0 := by
  split
  · exact hx
  · exact hy

theorem memory_write_16_f (s : Machine) (addr val : Nat) :
    (memory_write_16 s addr val).f = s.f := by
  unfold memory_write_16 memory_write
  split <;> rfl

theorem set_bc_step_f (s : Machine) (v p n : Nat) :
    (({ s.set_bc v with pc := p }, n) : Machine × Nat).1.f = s.f := rfl

theorem ldd_exec_f (s : Machine) (a v w p n : Nat) :
    (({ (memory_write_8 s a v).set_hl w with pc := p }, n) : Machine × Nat).1.f = s.f := rfl

theorem pop_af_f (s : Machine) :
    (exec_inst s 0xF1).1.f = u16 (memory_read_16 s s.sp) % 256 := rfl

/-- The pushes, CALL and RST leave F alone. -/
theorem push_like_f (s : Machine) (v a w p n : Nat) :
    (({ memory_write_16 { s with sp := v } a w with pc := p }, n) : Machine × Nat).1.f = s.f :=
  memory_write_16_f _ _ _

/-- The second-level switch keeps the low nibble of F at 0. -/
theorem handle_cb_inst_f_low_nibble (s : Machine) (inst : Nat) (hq : s.f % 16 = 0) :
    (handle_cb_inst s inst).1.f % 16 = 0 := by
  unfold handle_cb_inst
  split
  · repeat first
      | with_reducible exact hq
      | apply nib_ite
      | apply nib_set_Z
      | apply nib_set_N
      | apply nib_set_H
      | apply nib_set_C
      | apply nib_clear_Z
      | apply nib_clear_N
      | apply nib_clear_H
      | apply nib_clear_C
      | apply nib_flip_C
      | exact nib_zero
  · exact hq
  · exact hq

/-- The flag-writing cases build F from the old F by setting, clearing and flipping
bits 4..7 only. -/
theorem exec_inst_f_low_nibble_writers (s : Machine) (op : Nat) (hq : s.f % 16 = 0)
    (hw : op ∈ [0x04, 0x05, 0x0c, 0x0d, 0x14, 0x15, 0x1c, 0x2f, 0x3f, 0x80, 0x81, 0x87,
      0xa1, 0xa7, 0xa9, 0xaf, 0xb0, 0xb1, 0xbf, 0xe6, 0xfe]) : (exec_inst s op).1.f % 16 = 0 := by
  simp only [List.mem_cons, List.mem_singleton, List.not_mem_nil,
    or_false] at hw
  rcases hw with e | e | e | e | e | e | e | e | e | e | e | e | e | e | e | e | e | e |
    e | e | e <;> subst e <;>
    (repeat first
      | with_reducible exact hq
      | apply nib_ite
      | apply nib_set_Z
      | apply nib_set_N
      | apply nib_set_H
      | apply nib_set_C
      | apply nib_clear_Z
      | apply nib_clear_N
      | apply nib_clear_H
      | apply nib_clear_C
      | apply nib_flip_C
      | exact nib_zero)

/-- Every switch case other than POP AF keeps the low nibble of F at 0. -/
theorem exec_inst_f_low_nibble (s : Machine) (op : Nat) (hq : s.f % 16 = 0)
    (hop : op ≠ 0xF1) : (exec_inst s op).1.f % 16 = 0 := by
  have he : ∀ x : Machine × Nat, x.1.f = s.f → x.1.f % 16 = 0 := fun x h => by rw [h]; exact hq
  by_cases himpl : op ∈ primary_case_labels
  · by_cases hs : op ∈ [0x0b, 0x32, 0x20, 0x28, 0x30, 0xc4, 0xc5, 0xc8, 0xca, 0xcb, 0xcd, 0xd5,
        0xe5, 0xef, 0xf5, 0xff]
    · simp only [List.mem_cons, List.mem_singleton, List.not_mem_nil, or_false] at hs
      rcases hs with e | e | e | e | e | e | e | e | e | e | e | e | e | e | e | e <;>
        subst e
      · rw [exec_dec_bc]; exact he _ (set_bc_step_f s _ _ _)
      · rw [exec_ldd_hl_a]; exact he _ (ldd_exec_f s _ _ _ _ _)
      · rw [exec_jr_nz]; split <;> exact hq
      · rw [exec_jr_z]; split <;> exact hq
      · rw [exec_jr_nc]; split <;> exact hq
      · rw [exec_call_nz]; dsimp only; split
        · exact he _ (push_like_f s _ _ _ _ _)
        · exact hq
      · rw [exec_push_bc]; exact he _ (push_like_f s _ _ _ _ _)
      · rw [exec_ret_z]; split <;> exact hq
      · rw [exec_jp_z]; split <;> exact hq
      · rw [exec_cb]
        exact handle_cb_inst_f_low_nibble s _ hq
      · rw [exec_call]; exact he _ (push_like_f s _ _ _ _ _)
      · rw [exec_push_de]; exact he _ (push_like_f s _ _ _ _ _)
      · rw [exec_push_hl]; exact he _ (push_like_f s _ _ _ _ _)
      · rw [exec_rst_28]; exact he _ (push_like_f s _ _ _ _ _)
      · rw [exec_push_af]; exact he _ (push_like_f s _ _ _ _ _)
      · rw [exec_rst_38]; exact he _ (push_like_f s _ _ _ _ _)
    · by_cases hw : op ∈ [0x04, 0x05, 0x0c, 0x0d, 0x14, 0x15, 0x1c, 0x2f, 0x3f, 0x80, 0x81, 0x87,
      0xa1, 0xa7, 0xa9, 0xaf, 0xb0, 0xb1, 0xbf, 0xe6, 0xfe]
      · exact exec_inst_f_low_nibble_writers s op hq hw
      · simp only [primary_case_labels, List.mem_cons, List.mem_singleton, List.not_mem_nil,
          or_false] at himpl
        rcases himpl with e | e | e | e | e | e | e | e | e | e | e | e | e | e | e | e | e |
          e | e | e | e | e | e | e | e | e | e | e | e | e | e | e | e | e | e | e | e | e |
          e | e | e | e | e | e | e | e | e | e | e | e | e | e | e | e | e | e | e | e | e |
          e | e | e | e | e | e | e | e | e | e | e | e | e | e | e | e | e | e | e | e | e |
          e | e | e | e <;> subst e <;>
          first
            | exact absurd rfl hop
            | exact absurd (by decide) hs
            | exact absurd (by decide) hw
            | exact hq
  · rw [exec_inst_unimplemented s op himpl]
    exact hq

/-- C39. In every machine state with F & 0x0F = 0 whose opcode at PC is not POP AF (0xF1),
F & 0x0F = 0 still holds after `cpu_execute_inst`. POP AF loads F from the byte at SP
without masking: with 0xF1 at PC, SP below 0xFFFE and a byte at SP, F after the step is
that byte, so its low nibble is the low nibble of the stack byte. -/
theorem flag_low_nibble_invariant (s : Machine) :
    (s.f &&& 0x0F = 0 → memory_read_8 s s.pc ≠ 0xF1 →
      (cpu_execute_inst s).1.f &&& 0x0F = 0) ∧
    (memory_read_8 s s.pc = 0xF1 → s.sp < 0xFFFE → s.memory s.sp < 256 →
      (cpu_execute_inst s).1.f = s.memory s.sp) := by
  constructor
  · intro hq hop
    rw [low_nibble_and_eq_mod] at hq ⊢
    exact exec_inst_f_low_nibble s _ hq hop
  · intro hop hsp hb
    rw [cpu_execute_inst_eq s _ hop]
    refine (pop_af_f s).trans ?_
    rw [memory_read_16_in_range s s.sp hsp]
    unfold u16
    omega

/-- With F = 0xB0 and ADD A, B (0x80) at PC the low nibble of F is 0 after the step; with
POP AF (0xF1) at PC, SP = 0xC000 and the byte 0x0F at 0xC000, F becomes 0x0F. -/
theorem flag_low_nibble_invariant_witness :
    (cpu_execute_inst
      (memory_write_8 { Machine.initial with f := 0xB0, a := 0x3A, b := 0xC6, pc := 0x100 }
        0x100 0x80)).1.f &&& 0x0F = 0 ∧
    (cpu_execute_inst
      (memory_write_8 (memory_write_8 { Machine.initial with sp := 0xC000, pc := 0x100 }
        0x100 0xF1) 0xC000 0x0F)).1.f = 0x0F :=
  ⟨(flag_low_nibble_invariant
      (memory_write_8 { Machine.initial with f := 0xB0, a := 0x3A, b := 0xC6, pc := 0x100 }
        0x100 0x80)).1 (by decide) (by decide),
   (flag_low_nibble_invariant
      (memory_write_8 (memory_write_8 { Machine.initial with sp := 0xC000, pc := 0x100 }
        0x100 0xF1) 0xC000 0x0F)).2 (by decide) (by decide) (by decide)⟩
end GB
